import Mathlib

/-! # termopad-server: card numbers, file names, the links and the event worker

A shallow embedding of the parts of `kirsrus/termopad-server` that the
specification's properties speak about, followed by the theorems.

Conventions of the embedding:

* Go `uint` values are natural numbers (the target is 64-bit, `uintMod = 2^64`);
  operations that may wrap are reduced modulo `uintMod`.
* Go strings are `String`; text produced by `fmt` and read by `strconv` is a
  `List Char`. A Go `error` is the text of its message.
* `float64` values are `F64`: a rational magnitude, the two infinities, or NaN,
  with the IEEE comparison rules. Arithmetic on floats is not modelled; where a
  function only forwards the result of such arithmetic it receives the operation
  as a parameter.
* Instants and durations are integers (nanoseconds).
* Stateful code passes its state explicitly. Code that runs concurrently is
  cut into steps, each taken as a whole: the part of `Sudos.Person` before its
  wait, the handling of one message by the read task, one receive, one write;
  `Manager.Serve` and `Termopad.loop` are step systems over their tasks.
  A run of the event worker is recorded as the lists of calls made by the
  worker, by the task it hands to its error group, and by the goroutine it
  starts, each in program order.
* Library code (`fmt`, `strconv`, `regexp`, `time`, go-cache, gorm, the
  validator) is modelled as far as the embedded functions use it. A regular
  expression is a list of items matched by a leftmost-first backtracking
  search; a `float32` read by `strconv.ParseFloat` is the exact rational it
  denotes.
-/

namespace Termopad

/-! ## Go library fragments used by the card-number codec -/

/-- Number of values of the Go type `uint` on a 64-bit target. -/
def uintMod : Nat := 18446744073709551616

/-- Digit table lookup of `fmt`: `"0123456789abcdef"[d]` for a binary digit. -/
def fmtDigit (d : Nat) : Char := if d = 0 then '0' else '1'

/-- The digit loop of `fmt.(*fmt).fmtInteger` for base 2:
`for u >= 2 { buf[i] = digits[u&1]; u >>= 1 }; buf[i] = digits[u]`.
The buffer is filled from its end, so new digits are put in front. The fuel is
the width of the type, which bounds the number of iterations. -/
def fmtBitsLoop : Nat → Nat → List Char → List Char
  | 0, u, buf => fmtDigit u :: buf
  | fuel + 1, u, buf =>
    if 2 ≤ u then fmtBitsLoop fuel (u >>> 1) (fmtDigit (u &&& 1) :: buf)
    else fmtDigit u :: buf

/-- The verb `%b` applied to a `uint`. -/
def fmtB (u : Nat) : List Char := fmtBitsLoop 64 u []

/-- Zero padding of `fmt` to a minimal width (flag `0` with a width). -/
def padZero (width : Nat) (ds : List Char) : List Char :=
  List.replicate (width - ds.length) '0' ++ ds

/-- The verb `%016b` applied to a `uint`. -/
def fmt016b (u : Nat) : List Char := padZero 16 (fmtB u)

/-- Errors of `strconv.ParseUint`. -/
inductive NumError
  | syntaxErr
  | rangeErr
  deriving DecidableEq, Repr

/-- Value of a character as a digit below `base`, as in `strconv.ParseUint`
for base 2 (an underscore is only accepted with base 0). -/
def binDigit? (c : Char) : Option Nat :=
  if c = '0' then some 0 else if c = '1' then some 1 else none

/-- The character loop of `strconv.ParseUint(s, 2, bitSize)`:
`cutoff = maxUint64/2 + 1`, `maxVal = 1<<bitSize - 1`. -/
def parseUintLoop (maxVal : Nat) : List Char → Nat → Nat × Option NumError
  | [], n => (n, none)
  | c :: cs, n =>
    match binDigit? c with
    | none => (0, some NumError.syntaxErr)
    | some d =>
      if 9223372036854775808 ≤ n then (maxVal, some NumError.rangeErr)
      else
        let n2 := (n * 2) % uintMod
        let n1 := (n2 + d) % uintMod
        if n1 < n2 ∨ maxVal < n1 then (maxVal, some NumError.rangeErr)
        else parseUintLoop maxVal cs n1

/-- Model of `strconv.ParseUint(s, 2, bitSize)`. -/
def ParseUint2 (s : List Char) (bitSize : Nat) : Nat × Option NumError :=
  if s = [] then (0, some NumError.syntaxErr)
  else parseUintLoop (2 ^ bitSize - 1) s 0

/-! ## model/wigand.go -/

/-- Card description, `model.Wigand`. -/
structure Wigand where
  ID : Nat
  deriving DecidableEq, Repr

/-- Source: `Wigand.parse`, the split of the id into facility and number. -/
def Wigand.parse (m : Wigand) : Nat × Nat :=
  if m.ID = 0 then (0, 0)
  else
    let fasality := m.ID >>> 16
    let num := (((m.ID >>> 16) <<< 16) % uintMod) ^^^ m.ID
    (fasality, num)

/-- Source: `Wigand.Fasality`. -/
def Wigand.Fasality (m : Wigand) : Nat := m.parse.1

/-- Source: `Wigand.Number`. -/
def Wigand.Number (m : Wigand) : Nat := m.parse.2

/-- Source: `Wigand.Parse`; the receiver is overwritten, so the new value is
returned. -/
def Wigand.Parse (fasality number : Nat) : Wigand :=
  if fasality = 0 ∧ number = 0 then { ID := 0 }
  else { ID := (ParseUint2 (fmtB fasality ++ fmt016b number) 32).1 }

/-- Source: `Wigand.IsEmpty`. -/
def Wigand.IsEmpty (m : Wigand) : Bool := m.ID == 0

/-! ## pkg/tool/wigand.go -/

/-- Source: `tool.WigantUintToFasality`. -/
def WigantUintToFasality (number : Nat) : Nat × Nat :=
  if number = 0 then (0, 0)
  else
    let fasality := number >>> 16
    let num := (((number >>> 16) <<< 16) % uintMod) ^^^ number
    (fasality, num)

/-- Source: `tool.WigantFasalityToUint`. -/
def WigantFasalityToUint (fasality number : Nat) : Nat :=
  (ParseUint2 (fmtB fasality ++ fmt016b number) 32).1

/-! ## Shared Go notions -/

/-- A Go `error`, identified with the text returned by its `Error()` method.
`errors.Trace` keeps that text. -/
abbrev GoError := String

/-- Source: `errors.Annotate(err, msg)` of juju/errors. -/
def Annotate (err : GoError) (msg : String) : GoError := msg ++ ": " ++ err

/-! Instants (`time.Time`) and durations (`time.Duration`) are integers, in
nanoseconds. -/

def second : Int := 1000000000
def minute : Int := 60 * second
def hour : Int := 60 * minute

/-- Conversion `int(u)` of a `uint`. -/
def toInt (u : Nat) : Int :=
  if u % uintMod < 9223372036854775808 then (u % uintMod : Nat) else ((u % uintMod : Nat) : Int) - uintMod

/-- Conversion `uint(i)` of an `int`. -/
def toUint (i : Int) : Nat := (i % (uintMod : Int)).toNat

/-- Source: `strconv.Itoa`. -/
def Itoa (i : Int) : String := toString i

/-- A `float64`: NaN, an infinity, or a finite value given by its exact
rational magnitude (both zeros are `fin 0`). -/
inductive F64
  | nan
  | negInf
  | fin (q : ℚ)
  | posInf
  deriving DecidableEq

/-- The Go comparison `a < b` on `float64`. -/
def F64.lt : F64 → F64 → Bool
  | .nan, _ => false
  | _, .nan => false
  | .negInf, .negInf => false
  | .negInf, _ => true
  | .fin _, .negInf => false
  | .fin a, .fin b => decide (a < b)
  | .fin _, .posInf => true
  | .posInf, _ => false

/-- The Go comparison `a >= b` on `float64`. -/
def F64.ge : F64 → F64 → Bool
  | .nan, _ => false
  | _, .nan => false
  | _, .negInf => true
  | .negInf, _ => false
  | .fin a, .fin b => decide (b ≤ a)
  | .fin _, .posInf => false
  | .posInf, _ => true

/-- Source: `unicode.IsSpace`. -/
def isSpace (c : Char) : Bool :=
  let n := c.toNat
  n == 9 || n == 10 || n == 11 || n == 12 || n == 13 || n == 32 || n == 133 || n == 160 ||
  n == 5760 || (8192 ≤ n && n ≤ 8202) || n == 8232 || n == 8233 || n == 8239 ||
  n == 8287 || n == 12288

/-- Source: `strings.TrimSpace`, which is what the `conform:"trim"` tag applies. -/
def TrimSpace (s : String) : String :=
  String.mk ((s.data.dropWhile isSpace).reverse.dropWhile isSpace).reverse

/-- Text of the error of a failed struct validation. The wording of the
validator library is not reproduced. -/
def validationError : GoError := "validation failed"

/-! ## model/sudos.go, model/person.go, model/temperature.go, model/termopad.go -/

/-- Source: `model.SudosPersonRequest`. -/
structure SudosPersonRequest where
  UidRequest : String
  Facility : Nat
  Numer : Nat
  Message : String
  AlarmStatus : Bool
  Cabina : Nat
  deriving DecidableEq, Repr

/-- Source: `model.SudosPersonResponse`. -/
structure SudosPersonResponse where
  UidRequest : String
  IpVedushiy : String
  NumRec : Nat
  Family : String
  Name : String
  Patronymic : String
  Numer : Nat
  Contora : String
  Otdel : String
  SubOtdel : String
  Profy : String
  Type_ : String
  Photo : String
  deriving DecidableEq, Repr

/-- Source: `model.Person`; the two time pointers are optional instants. -/
structure Person where
  CreateAt : Option Int
  UpdateAt : Option Int
  Wigand : Wigand
  Family : String
  Name : String
  MiddleName : String
  Organization : String
  Department : String
  Position : String
  Image : List Nat
  deriving DecidableEq, Repr

/-- Source: `model.TemperatureEvent`. -/
structure TemperatureEvent where
  Temperature : F64
  Wigand : Wigand
  Image : List Nat
  deriving DecidableEq

/-- Source: `model.TermopadInfo`. -/
structure TermopadInfo where
  ID : Nat
  URL : String
  SudosID : Nat
  Name : String
  SerialNumber : Nat
  Description : String
  deriving DecidableEq, Repr

/-- What `conform.Strings` does to a `SudosPersonResponse`: every string field
carries the `trim` tag. -/
def SudosPersonResponse.conform (p : SudosPersonResponse) : SudosPersonResponse :=
  { p with
    UidRequest := TrimSpace p.UidRequest
    IpVedushiy := TrimSpace p.IpVedushiy
    Family := TrimSpace p.Family
    Name := TrimSpace p.Name
    Patronymic := TrimSpace p.Patronymic
    Contora := TrimSpace p.Contora
    Otdel := TrimSpace p.Otdel
    SubOtdel := TrimSpace p.SubOtdel
    Profy := TrimSpace p.Profy
    Type_ := TrimSpace p.Type_
    Photo := TrimSpace p.Photo }

/-- The `validate` tags of `SudosPersonResponse`: `Family` and `Name` are
required. -/
def SudosPersonResponse.valid (p : SudosPersonResponse) : Bool :=
  p.Family != "" && p.Name != ""

/-- The `validate` tag of `Wigand`: `ID` is required. -/
def Wigand.valid (w : Wigand) : Bool := w.ID != 0

/-! ## The pending table: github.com/patrickmn/go-cache as used by `Sudos` -/

/-- An item of the cache: the response channels waiting for a key, and the
expiry instant (`0` for none). Channels are named by their creation index. -/
structure Item where
  Object : List Nat
  Expiration : Int
  deriving DecidableEq, Repr

/-- The map `items` of the cache. -/
abbrev Cache := List (String × Item)

/-- Source: `cache.Get`: an absent or expired item is not found. -/
def Cache.Get (c : Cache) (now : Int) (k : String) : Option (List Nat) :=
  match c.lookup k with
  | none => none
  | some item =>
    if 0 < item.Expiration ∧ item.Expiration < now then none else some item.Object

/-- Source: `cache.Set` with `DefaultExpiration`, the default being the
positive duration `d` given to `cache.New`. -/
def Cache.Set (c : Cache) (now : Int) (d : Int) (k : String) (x : List Nat) : Cache :=
  (k, { Object := x, Expiration := if 0 < d then now + d else 0 }) :: c.filter (fun e => e.1 != k)

/-- Source: `cache.Add`: fails when a live item is present. -/
def Cache.Add (c : Cache) (now : Int) (d : Int) (k : String) (x : List Nat) :
    Except GoError Cache :=
  match Cache.Get c now k with
  | some _ => .error ("Item " ++ k ++ " already exists")
  | none => .ok (Cache.Set c now d k x)

/-- Source: `cache.Delete`. -/
def Cache.Delete (c : Cache) (k : String) : Cache := c.filter (fun e => e.1 != k)

/-- Source: `cache.DeleteExpired`, run by the janitor of the cache. -/
def Cache.DeleteExpired (c : Cache) (now : Int) : Cache :=
  c.filter (fun e => !(decide (0 < e.2.Expiration) && decide (e.2.Expiration < now)))

/-! ## service/sudos/sudos.go -/

def readChanCapacity : Nat := 10
def writeChanCapacity : Nat := 10
def cacheExpiration : Int := 5 * minute
def cacheCleanupInterval : Int := 10 * minute
def Sudos.defaultReconnectTimeout : Int := 10 * second
def Sudos.defaultRequestTimeout : Int := 3 * second
def templateNormal : String := "температура в норме (%0.1f°)"
def templateAlarm : String := "температура повышенная (%0.1f°)"
def templateLower : String := "низкая температура (%0.1f°)"
def maxTemperature : F64 := F64.fin (75 / 2)
def minTemperature : F64 := F64.fin 34

/-- Source: `sudos.ConfigSudos` (the logger is left out). -/
structure ConfigSudos where
  SudosUrl : String
  ReconnectTimeout : Int
  RequestTimeout : Int
  TemplateNormal : String
  TemplateAlarm : String
  TemplateLower : String
  MaxTemperature : F64
  MinTemperature : F64

/-- Source: `sudos.Sudos`. The two channels of the struct and the channels made
by `Person` are buffers: `writeChan` holds the encoded requests not yet written
to the socket, oldest first, and `chans` holds, for every response channel
made so far, its buffered values. A wire message is identified with the value
it encodes. -/
structure Sudos where
  sudosUrl : String
  reconnectTimeout : Int
  requestTimeout : Int
  writeChan : List SudosPersonRequest
  cache : Cache
  chans : List (List SudosPersonResponse)
  templateNormal : String
  templateAlarm : String
  templateLower : String
  maxTemperature : F64
  minTemperature : F64

/-- Source: `validatorWebsocket`; `scheme` stands for `url.Parse` followed by
the field `Scheme`, with `none` for a parse error. -/
def validatorWebsocket (scheme : String → Option String) (address : String) : Bool :=
  match scheme address with
  | none => false
  | some s => s == "ws"

/-- Source: `NewSudos`. A nil config is `none`. -/
def NewSudos (scheme : String → Option String) (config : Option ConfigSudos) :
    Except GoError Sudos :=
  match config with
  | none => .error "не задана конфигурация config"
  | some config =>
    let url := TrimSpace config.SudosUrl
    if url == "" || !validatorWebsocket scheme url then
      .error (Annotate validationError "ошибка в конфигурации")
    else
      let sudos : Sudos :=
        { sudosUrl := url
          reconnectTimeout := Sudos.defaultReconnectTimeout
          requestTimeout := Sudos.defaultRequestTimeout
          writeChan := []
          cache := []
          chans := []
          templateNormal := templateNormal
          templateAlarm := templateAlarm
          templateLower := templateLower
          maxTemperature := maxTemperature
          minTemperature := minTemperature }
      let sudos :=
        if config.ReconnectTimeout ≠ 0 then
          { sudos with reconnectTimeout := config.ReconnectTimeout } else sudos
      let sudos :=
        if config.RequestTimeout ≠ 0 then
          { sudos with requestTimeout := config.RequestTimeout } else sudos
      .ok sudos

/-- A non-blocking send `select { case ch <- v: default: }` on the channel with
index `c`, whose buffer holds one value; the flag tells whether the value was
accepted. -/
def chanSend (chans : List (List SudosPersonResponse)) (c : Nat) (v : SudosPersonResponse) :
    List (List SudosPersonResponse) × Bool :=
  match chans.get? c with
  | none => (chans, false)
  | some buf => if buf.length < 1 then (chans.set c (buf ++ [v]), true) else (chans, false)

/-- The loop `for idx := range channels` of the read task: one non-blocking
send per waiting channel, a full channel being skipped. -/
def fanOut (chans : List (List SudosPersonResponse)) (channels : List Nat)
    (v : SudosPersonResponse) : List (List SudosPersonResponse) :=
  channels.foldl (fun cs c => (chanSend cs c v).1) chans

/-- Source: the body of the read loop of `Sudos.connect` for one message read
from the socket. `tpe` is the message type (`websocket.TextMessage = 1`), and
`decoded` the result of `json.Unmarshal` (`none` for an error). -/
def Sudos.readMessage (m : Sudos) (now : Int) (tpe : Nat)
    (decoded : Option SudosPersonResponse) : Sudos :=
  if tpe ≠ 1 then m
  else
    match decoded with
    | none => m
    | some person =>
      let person := person.conform
      if !person.valid then m
      else
        match Cache.Get m.cache now person.UidRequest with
        | some channels =>
          { m with
            chans := fanOut m.chans channels person
            cache := Cache.Delete m.cache person.UidRequest }
        | none => m

/-- Source: one iteration of the write loop of `Sudos.connect`: the oldest
queued message leaves the queue for the socket. -/
def Sudos.writeMessage (m : Sudos) : Sudos × Option SudosPersonRequest :=
  match m.writeChan with
  | [] => (m, none)
  | w :: rest => ({ m with writeChan := rest }, some w)

/-- The correlation key of `Person`: `strconv.Itoa(int(wigand.ID))`. -/
def Sudos.key (wigand : Wigand) : String := Itoa (toInt wigand.ID)

/-- The local variables of a call of `Sudos.Person` after its `cache.Get`:
the card, the response channel made by the call, and what `cache.Get`
returned for the key (`none` for `found = false`). -/
structure PersonCall where
  wigand : Wigand
  response : Nat
  found : Option (List Nat)
  deriving DecidableEq, Repr

/-- Source: `Sudos.Person` from its start to `m.cache.Get(key)`: the
validation, `make(chan model.SudosPersonResponse, 1)` and the lookup. The code
holds no lock of its own; the cache locks itself for the one call of `Get`
only, so other tasks can run before the call goes on. -/
def Sudos.personLookup (m : Sudos) (now : Int) (wigand : Wigand) :
    Sudos × Except GoError PersonCall :=
  if !wigand.valid then (m, .error (Annotate validationError "некорретный параметр wigand"))
  else
    ({ m with chans := m.chans ++ [[]] },
      .ok { wigand := wigand
            response := m.chans.length
            found := Cache.Get m.cache now (Sudos.key wigand) })

/-- Source: the `if value, found := m.cache.Get(key); found { ... } else { ... }`
body of `Sudos.Person`: `cache.Set` with the channels read earlier and the new
channel appended, or `cache.Add` of the new channel alone. It runs at its own
instant `now`, on the table as it is then. The result is the error the call
returns with, if any. -/
def Sudos.personRegister (m : Sudos) (now : Int) (call : PersonCall) :
    Sudos × Option GoError :=
  let key := Sudos.key call.wigand
  match call.found with
  | some channels =>
    ({ m with cache := Cache.Set m.cache now cacheExpiration key (channels ++ [call.response]) },
      none)
  | none =>
    match Cache.Add m.cache now cacheExpiration key [call.response] with
    | .error err => (m, some (Annotate err "ошибка добавления в кэш"))
    | .ok c => ({ m with cache := c }, none)

/-- Source: the request of `Sudos.Person` and its non-blocking send on
`writeChan`. The result is the response channel the caller then waits on, or
the error returned. -/
def Sudos.personWrite (m : Sudos) (call : PersonCall) : Sudos × Except GoError Nat :=
  let request : SudosPersonRequest :=
    { UidRequest := Sudos.key call.wigand
      Facility := call.wigand.Fasality
      Numer := call.wigand.Number
      Message := ""
      AlarmStatus := false
      Cabina := 0 }
  if m.writeChan.length < writeChanCapacity then
    ({ m with writeChan := m.writeChan ++ [request] }, .ok call.response)
  else (m, .error "канал передачи данных забит")

/-- Source: `Sudos.Person` up to and including the send on `writeChan`
(everything before the wait), for a call that no other task interleaves: the
steps `Sudos.personLookup`, `Sudos.personRegister` and `Sudos.personWrite` run
at one instant with nothing in between. The result is the response channel the
caller then waits on, or the error returned. -/
def Sudos.PersonSend (m : Sudos) (now : Int) (wigand : Wigand) : Sudos × Except GoError Nat :=
  if !wigand.valid then (m, .error (Annotate validationError "некорретный параметр wigand"))
  else
    let response := m.chans.length
    let m := { m with chans := m.chans ++ [[]] }
    let key := Sudos.key wigand
    let registered : Except GoError Cache :=
      match Cache.Get m.cache now key with
      | some channels => .ok (Cache.Set m.cache now cacheExpiration key (channels ++ [response]))
      | none =>
        match Cache.Add m.cache now cacheExpiration key [response] with
        | .error err => .error (Annotate err "ошибка добавления в кэш")
        | .ok c => .ok c
    match registered with
    | .error err => (m, .error err)
    | .ok c =>
      let m := { m with cache := c }
      let request : SudosPersonRequest :=
        { UidRequest := key
          Facility := wigand.Fasality
          Numer := wigand.Number
          Message := ""
          AlarmStatus := false
          Cabina := 0 }
      if m.writeChan.length < writeChanCapacity then
        ({ m with writeChan := m.writeChan ++ [request] }, .ok response)
      else (m, .error "канал передачи данных забит")

/-- Source: the part of `Sudos.Person` that turns a received response into the
result (`case resp := <-response`). `decode` stands for
`base64.StdEncoding.DecodeString`, with `none` for an error. -/
def Sudos.personOfResponse (decode : String → Option (List Nat)) (wigand : Wigand)
    (resp : SudosPersonResponse) : Person :=
  let image : List Nat :=
    if resp.Photo ≠ "" then
      match decode resp.Photo with
      | none => []
      | some imageByt => imageByt
    else []
  { CreateAt := none
    UpdateAt := none
    Wigand := wigand
    Family := resp.Family
    Name := resp.Name
    MiddleName := resp.Patronymic
    Organization := resp.Contora
    Department := resp.SubOtdel
    Position := resp.Profy
    Image := image }

/-- The case of a `select` statement that is taken. -/
inductive WaitCase
  | ctxDone
  | timeout
  | response
  deriving DecidableEq, Repr

/-- Source: the final `select` of `Sudos.Person` on the response channel
`response`, for the case that fires. The result is `none` when that case cannot
fire (no value is buffered on the channel). -/
def Sudos.PersonWait (m : Sudos) (decode : String → Option (List Nat)) (wigand : Wigand)
    (response : Nat) (fired : WaitCase) : Option (Sudos × Except GoError Person) :=
  match fired with
  | .ctxDone => some (m, .error "context canceled")
  | .timeout =>
    some (m, .error ("время ожидания ответа для ключа " ++ Sudos.key wigand ++ " вышло"))
  | .response =>
    match m.chans.get? response with
    | some (resp :: rest) =>
      some ({ m with chans := m.chans.set response rest },
        .ok (Sudos.personOfResponse decode wigand resp))
    | _ => none

/-- Source: the `switch` of `Sudos.SetPersonTemperature` that chooses the
message and the alarm flag. `sprintf` stands for `fmt.Sprintf` with one
`float64` argument. -/
def Sudos.temperatureMessage (m : Sudos) (sprintf : String → F64 → String) (t : F64) :
    String × Bool :=
  if F64.ge t m.maxTemperature then (sprintf m.templateAlarm t, true)
  else if F64.lt t m.minTemperature then (sprintf m.templateLower t, false)
  else (sprintf m.templateNormal t, false)

/-- Source: the request built by `Sudos.SetPersonTemperature`. -/
def Sudos.temperatureRequest (m : Sudos) (sprintf : String → F64 → String) (person : Person)
    (temperature : TemperatureEvent) (termopad : TermopadInfo) : SudosPersonRequest :=
  let r := m.temperatureMessage sprintf temperature.Temperature
  { UidRequest := ""
    Facility := person.Wigand.Fasality
    Numer := person.Wigand.Number
    Message := r.1
    AlarmStatus := r.2
    Cabina := termopad.SudosID }

/-- Source: `Sudos.SetPersonTemperature`. `ctxDone` tells whether the context is
cancelled; when both the cancellation and the send are ready the `select`
statement picks one of them, `pickDone` telling which. -/
def Sudos.SetPersonTemperature (m : Sudos) (sprintf : String → F64 → String)
    (ctxDone pickDone : Bool) (person : Person) (temperature : TemperatureEvent)
    (termopad : TermopadInfo) : Sudos × Option GoError :=
  if !person.Wigand.valid then (m, some ("ошибка описсания wigand: " ++ validationError))
  else
    let msg := m.temperatureRequest sprintf person temperature termopad
    let canSend := decide (m.writeChan.length < writeChanCapacity)
    if ctxDone && (!canSend || pickDone) then (m, some "context canceled")
    else if canSend then ({ m with writeChan := m.writeChan ++ [msg] }, none)
    else (m, none)

/-- The steps by which the state of a `Sudos` changes: a caller runs `Person`
up to its wait, the read task handles a message, a waiter takes the value
buffered on its channel, the write task takes a message off the queue, a
temperature is reported, the janitor of the cache runs. Each step is taken as
a whole. -/
inductive Action
  | person (now : Int) (wigand : Wigand)
  | read (now : Int) (tpe : Nat) (decoded : Option SudosPersonResponse)
  | receive (response : Nat)
  | write
  | setTemperature (sprintf : String → F64 → String) (ctxDone pickDone : Bool) (person : Person)
      (temperature : TemperatureEvent) (termopad : TermopadInfo)
  | janitor (now : Int)

/-- Effect of one step on the state. A step `person` is a whole call of
`Person` up to its send, which no other step interleaves. -/
def Sudos.step (m : Sudos) : Action → Sudos
  | .person now wigand => (m.PersonSend now wigand).1
  | .read now tpe decoded => m.readMessage now tpe decoded
  | .receive response =>
    match m.chans.get? response with
    | some (_ :: rest) => { m with chans := m.chans.set response rest }
    | _ => m
  | .write => m.writeMessage.1
  | .setTemperature sprintf ctxDone pickDone person temperature termopad =>
    (m.SetPersonTemperature sprintf ctxDone pickDone person temperature termopad).1
  | .janitor now => { m with cache := Cache.DeleteExpired m.cache now }

/-- The state after a sequence of steps. -/
def Sudos.run (m : Sudos) (acts : List Action) : Sudos := acts.foldl Sudos.step m

/-- The states reached from a freshly constructed `Sudos` by steps in which no
call of `Person` is interleaved with another step between its lookup and its
send. -/
def Sudos.Reachable (m : Sudos) : Prop :=
  ∃ scheme config m0 acts, NewSudos scheme config = .ok m0 ∧ m = m0.run acts

/-- One call of `Person` after another for the same card, one for each
instant of the list, each one having sent its request before the next
starts. -/
def Sudos.personCalls (m : Sudos) (wigand : Wigand) : List Int → Sudos
  | [] => m
  | now :: rest => Sudos.personCalls (m.PersonSend now wigand).1 wigand rest

/-! ## Go library fragments used by the file-name parser -/

/-- An item of a regular expression, for the expressions written with
literals, `c?`, `[class]+` and capturing groups. -/
inductive Tok
  | chr (c : Char)
  | plus (cls : Char → Bool)
  | opt (c : Char)
  | groupStart (i : Nat)
  | groupEnd (i : Nat)

/-- The first result among `f n`, `f (n-1)`, ..., `f 1`: the order in which a
greedy repetition gives back what it has taken. -/
def firstFrom {α : Type} (f : Nat → Option α) : Nat → Option α
  | 0 => none
  | n + 1 =>
    match f (n + 1) with
    | some r => some r
    | none => firstFrom f n

/-- A match of the items at the start of the text, as package `regexp` finds
it (the one a backtracking search finds first): the text taken by each item,
or `none` when the items do not match there. -/
def matchToks : List Tok → List Char → Option (List (List Char))
  | [], _ => some []
  | .chr c :: ts, s =>
    match s with
    | x :: rest => if x = c then (matchToks ts rest).map (fun segs => [c] :: segs) else none
    | [] => none
  | .plus cls :: ts, s =>
    firstFrom (fun n => (matchToks ts (s.drop n)).map (fun segs => s.take n :: segs))
      (s.takeWhile cls).length
  | .opt c :: ts, s =>
    match (match s with
      | x :: rest => if x = c then (matchToks ts rest).map (fun segs => [c] :: segs) else none
      | [] => none) with
    | some r => some r
    | none => (matchToks ts s).map (fun segs => [] :: segs)
  | .groupStart _ :: ts, s => (matchToks ts s).map (fun segs => [] :: segs)
  | .groupEnd _ :: ts, s => (matchToks ts s).map (fun segs => [] :: segs)

/-- The leftmost match in the text: the start positions are tried from left to
right. -/
def regexFind (re : List Tok) : List Char → Option (List (List Char))
  | [] => matchToks re []
  | x :: rest =>
    match matchToks re (x :: rest) with
    | some segs => some segs
    | none => regexFind re rest

/-- The text of capturing group `i` in a match. -/
def groupText (i : Nat) : Bool → List Tok → List (List Char) → List Char
  | _, [], _ => []
  | _, _ :: _, [] => []
  | inside, t :: ts, seg :: segs =>
    match t with
    | .groupStart j => groupText i (inside || j == i) ts segs
    | .groupEnd j => groupText i (inside && j != i) ts segs
    | _ => (if inside then seg else []) ++ groupText i inside ts segs

/-- Source: `Regexp.FindStringSubmatch` for an expression with `groups`
capturing groups: the whole match followed by the groups, or nothing. -/
def FindStringSubmatch (re : List Tok) (groups : Nat) (s : List Char) : List (List Char) :=
  match regexFind re s with
  | none => []
  | some segs => segs.flatten :: (List.range' 1 groups).map (fun i => groupText i false re segs)

/-- The class `\d`. -/
def isDigit (c : Char) : Bool := 48 ≤ c.toNat && c.toNat ≤ 57

/-- The class `\w`. -/
def isWord (c : Char) : Bool :=
  isDigit c || (65 ≤ c.toNat && c.toNat ≤ 90) || (97 ≤ c.toNat && c.toNat ≤ 122) || c.toNat == 95

/-- Value of a decimal digit. -/
def digitVal (c : Char) : Nat := c.toNat - 48

/-- Value of a text of decimal digits. -/
def decimalVal (s : List Char) : Nat := s.foldl (fun a c => a * 10 + digitVal c) 0

/-- Source: `strconv.Atoi`: an optional sign and decimal digits; a text that is
not of that form gives 0 and a syntax error, a value outside `int` gives the
nearest bound and a range error. -/
def Atoi (s : List Char) : Int × Option NumError :=
  let body : List Char × Bool :=
    match s with
    | '+' :: rest => (rest, false)
    | '-' :: rest => (rest, true)
    | _ => (s, false)
  if body.1 = [] ∨ ¬ body.1.all isDigit = true then (0, some NumError.syntaxErr)
  else
    let v := decimalVal body.1
    if body.2 then
      if 9223372036854775808 < v then (-9223372036854775808, some NumError.rangeErr)
      else (-(v : Int), none)
    else
      if 9223372036854775807 < v then (9223372036854775807, some NumError.rangeErr)
      else ((v : Int), none)

/-- Source: `strings.ToLower` on a character of the ASCII range, which is what
a text matched by `[\w\d]+` consists of. -/
def toLowerChar (c : Char) : Char :=
  if 65 ≤ c.toNat ∧ c.toNat ≤ 90 then Char.ofNat (c.toNat + 32) else c

/-- Source: `strings.ToLower`. -/
def ToLower (s : List Char) : List Char := s.map toLowerChar

/-- Number of binary digits of a number. -/
def bitLength : Nat → Nat → Nat
  | 0, _ => 0
  | fuel + 1, n => if n = 0 then 0 else bitLength fuel (n / 2) + 1

/-- The quotient `num / den` rounded to the nearest integer, ties to even. -/
def roundHalfEven (num den : Nat) : Nat :=
  let q := num / den
  let r := num % den
  if 2 * r < den then q
  else if den < 2 * r then q + 1
  else if q % 2 = 0 then q else q + 1

/-- The `float32` nearest to the positive fraction `n / d` (ties to even), for
a fraction below the overflow threshold: with `e` the binary exponent of the
fraction, the spacing of the `float32` values around it is `2^(e-23)`, and
`2^-149` for the subnormal ones. -/
def nearestFloat32 (n d : Nat) : ℚ :=
  if n = 0 then 0
  else
    let bn : Int := bitLength n n
    let bd : Int := bitLength d d
    let e : Int := if d * 2 ^ bitLength n n ≤ n * 2 ^ bitLength d d then bn - bd else bn - bd - 1
    let k : Int := max (e - 23) (-149)
    let m : Nat :=
      if 0 ≤ k then roundHalfEven n (d * 2 ^ k.toNat) else roundHalfEven (n * 2 ^ (-k).toNat) d
    (m : ℚ) * (2 : ℚ) ^ k

/-- Source: `strconv.ParseFloat(s, 32)` on a text of the form `digits.digits`,
the only form the expression of `Parse` lets through; any other text gives a
syntax error here. The result is the nearest `float32`; a value that is at
least half a unit beyond the largest `float32`, that is `2^128 - 2^103`, gives
`+Inf` and a range error. -/
def ParseFloat32 (s : List Char) : F64 × Option NumError :=
  let ip := s.takeWhile isDigit
  match s.dropWhile isDigit with
  | '.' :: fp =>
    if ip = [] ∨ fp = [] ∨ ¬ fp.all isDigit = true then (F64.fin 0, some NumError.syntaxErr)
    else
      let n := decimalVal (ip ++ fp)
      let d := 10 ^ fp.length
      if (2 ^ 128 - 2 ^ 103) * d ≤ n then (F64.posInf, some NumError.rangeErr)
      else (F64.fin (nearestFloat32 n d), none)
  | _ => (F64.fin 0, some NumError.syntaxErr)

/-- A `time.Time` in UTC without a fraction of a second, by its calendar
fields. The zero `time.Time` is the first instant of year 1. -/
structure DateTime where
  year : Nat
  month : Nat
  day : Nat
  hour : Nat
  minute : Nat
  second : Nat
  deriving DecidableEq, Repr

/-- The zero value `time.Time{}`. -/
def DateTime.zero : DateTime :=
  { year := 1, month := 1, day := 1, hour := 0, minute := 0, second := 0 }

/-- Source: `getnum` of package `time`: one or two digits, exactly two when
`fixed`. -/
def getnum (s : List Char) (fixed : Bool) : Option (Nat × List Char) :=
  match s with
  | a :: b :: rest =>
    if !isDigit a then none
    else if !isDigit b then (if fixed then none else some (digitVal a, b :: rest))
    else some (digitVal a * 10 + digitVal b, rest)
  | [a] =>
    if !isDigit a then none
    else if fixed then none else some (digitVal a, [])
  | [] => none

/-- The four digits of the year, for the layout item `2006`. -/
def getyear (s : List Char) : Option (Nat × List Char) :=
  match s with
  | a :: b :: c :: d :: rest =>
    if isDigit a && isDigit b && isDigit c && isDigit d then
      some (digitVal a * 1000 + digitVal b * 100 + digitVal c * 10 + digitVal d, rest)
    else none
  | _ => none

/-- Source: `skip` of package `time` for a literal piece of the layout that
holds no space. -/
def skipLit (s lit : List Char) : Option (List Char) :=
  match lit, s with
  | [], s => some s
  | c :: lit, x :: s => if x = c then skipLit s lit else none
  | _ :: _, [] => none

/-- Source: `isLeap` of package `time`. -/
def isLeap (year : Nat) : Bool := year % 4 == 0 && (year % 100 != 0 || year % 400 == 0)

/-- Source: `daysIn` of package `time`. -/
def daysIn (month year : Nat) : Nat :=
  if month = 2 then (if isLeap year then 29 else 28)
  else if month = 4 ∨ month = 6 ∨ month = 9 ∨ month = 11 then 30
  else 31

/-- Source: `time.Parse("02-01-2006--15-04-05", value)`. The layout is the
items `02`, `01`, `2006`, `15`, `04`, `05` with the literals `-`, `-`, `--`,
`-`, `-` between them; a field out of range, a day that the month does not
have, and text left over are errors. -/
def parseTime (value : List Char) : Except GoError DateTime :=
  match getnum value true with
  | none => .error "parsing time: bad day"
  | some (day, v1) =>
  match skipLit v1 ['-'] with
  | none => .error "parsing time: bad separator"
  | some v2 =>
  match getnum v2 true with
  | none => .error "parsing time: bad month"
  | some (month, v3) =>
  match skipLit v3 ['-'] with
  | none => .error "parsing time: bad separator"
  | some v4 =>
  match getyear v4 with
  | none => .error "parsing time: bad year"
  | some (year, v5) =>
  match skipLit v5 ['-', '-'] with
  | none => .error "parsing time: bad separator"
  | some v6 =>
  match getnum v6 false with
  | none => .error "parsing time: bad hour"
  | some (hour, v7) =>
  match skipLit v7 ['-'] with
  | none => .error "parsing time: bad separator"
  | some v8 =>
  match getnum v8 true with
  | none => .error "parsing time: bad minute"
  | some (minute, v9) =>
  match skipLit v9 ['-'] with
  | none => .error "parsing time: bad separator"
  | some v10 =>
  match getnum v10 true with
  | none => .error "parsing time: bad second"
  | some (second, v11) =>
    if v11 ≠ [] then .error "parsing time: extra text"
    else if month = 0 ∨ 12 < month then .error "parsing time: month out of range"
    else if 24 ≤ hour then .error "parsing time: hour out of range"
    else if 60 ≤ minute then .error "parsing time: minute out of range"
    else if 60 ≤ second then .error "parsing time: second out of range"
    else if day < 1 ∨ daysIn month year < day then .error "parsing time: day out of range"
    else
      .ok { year := year, month := month, day := day, hour := hour, minute := minute,
            second := second }

/-! ## model/termopad.go -/

/-- Source: `model.TermopadAction`. -/
structure TermopadAction where
  Action : String
  Timestamp : String
  FileName : String
  Date : String
  CardNumber : String
  Temperature : String
  deriving DecidableEq, Repr

/-- Source: `TermopadAction.Validate`. -/
def TermopadAction.Validate (m : TermopadAction) : Option GoError :=
  if m.Action = "" then some "не задан параметр Action"
  else if m.Timestamp = "" then some "не задан параметр Timestamp"
  else if m.FileName = "" then some "не задан параметр FileName"
  else none

/-- Source: `model.TermopadFileName`. -/
structure TermopadFileName where
  Time : DateTime
  Wigand : Wigand
  Temperature : F64
  FileName : String
  deriving DecidableEq

/-- The zero value `TermopadFileName{}`. -/
def TermopadFileName.zero : TermopadFileName :=
  { Time := DateTime.zero, Wigand := { ID := 0 }, Temperature := F64.fin 0, FileName := "" }

/-- The expression
`(\d+-\d+-\d+--\d+-\d+-\d+)--([\w\d]+)--(-?)(\d+\.\d+)\.jpg` of `Parse`. -/
def fileNameRe : List Tok :=
  [ .groupStart 1, .plus isDigit, .chr '-', .plus isDigit, .chr '-', .plus isDigit, .chr '-',
    .chr '-', .plus isDigit, .chr '-', .plus isDigit, .chr '-', .plus isDigit, .groupEnd 1,
    .chr '-', .chr '-',
    .groupStart 2, .plus (fun c => isWord c || isDigit c), .groupEnd 2,
    .chr '-', .chr '-',
    .groupStart 3, .opt '-', .groupEnd 3,
    .groupStart 4, .plus isDigit, .chr '.', .plus isDigit, .groupEnd 4,
    .chr '.', .chr 'j', .chr 'p', .chr 'g' ]

/-- Source: `TermopadFileName.Parse`. The receiver is overwritten, so the
result is its new value together with the error returned. The texts of the
error messages are shortened to their fixed part. -/
def TermopadFileName.Parse (fileName : String) : TermopadFileName × Option GoError :=
  let m := TermopadFileName.zero
  match FindStringSubmatch fileNameRe 4 fileName.data with
  | [_, g1, g2, g3, g4] =>
    match parseTime g1 with
    | .error _ => (m, some "некорректный формат записи времени в имени файла")
    | .ok t =>
      let m := { m with Time := t }
      let temperature : Except GoError F64 :=
        if g3 ≠ [] then .ok (F64.fin 0)
        else
          match ParseFloat32 g4 with
          | (_, some _) => .error "в имени файла не удалось расознать температуту"
          | (temp, none) => .ok temp
      match temperature with
      | .error e => (m, some e)
      | .ok temp =>
        let m := { m with Temperature := temp }
        let r := Atoi g2
        if r.2.isSome ∧ ToLower g2 ≠ "unknown".data then
          (m, some "в имени файла не удалось распознать номер виганда")
        else
          ({ m with Wigand := { ID := toUint r.1 }, FileName := fileName }, none)
  | _ => (m, some "формат имени файла не распознан")

/-! ## service/termopad/websocket.go -/

def MaximumResultChan : Nat := 20

/-- The state of the processing loop of `Websocket.connect`: the local variable
`prevousFileName`, the buffer of the channel `resultChan` (oldest first), and
the host of the address of the kiosk (`url.Parse(m.termopadInfo.URL)`, field
`Host`). -/
structure ConnState where
  prevousFileName : String
  resultChan : List TemperatureEvent
  host : String

/-- The address built with `ImageUrlTemplate`. -/
def imageUrl (host fileName : String) : String :=
  "http://" ++ host ++ "/static/img/orig/" ++ fileName

/-- Source: the body of the processing loop of `Websocket.connect` for one
message taken from the channel `read`. `decoded` is the result of
`json.Unmarshal` (`none` for an error) and `download` stands for
`downloadContent` (`none` for an error). Every path ends with the next turn of
the loop, so the result is the state at that point. -/
def handleMessage (download : String → Option (List Nat)) (st : ConnState)
    (decoded : Option TermopadAction) : ConnState :=
  match decoded with
  | none => st
  | some msg =>
    match msg.Validate with
    | some _ => st
    | none =>
      if msg.Action = "newImage" ∧ msg.FileName ≠ st.prevousFileName then
        let st := { st with prevousFileName := msg.FileName }
        let parsed := TermopadFileName.Parse msg.FileName
        match parsed.2 with
        | some _ => st
        | none =>
          match download (imageUrl st.host msg.FileName) with
          | none => st
          | some immageContent =>
            let res : TemperatureEvent :=
              { Temperature := parsed.1.Temperature
                Wigand := parsed.1.Wigand
                Image := immageContent }
            if st.resultChan.length < MaximumResultChan then
              { st with resultChan := st.resultChan ++ [res] }
            else st
      else st

/-- The processing loop over the messages taken from the channel `read`, in
order. -/
def handleMessages (download : String → Option (List Nat)) (st : ConnState)
    (frames : List (Option TermopadAction)) : ConnState :=
  frames.foldl (handleMessage download) st


/-- What one turn of the `select` of the loop of `connect` receives: the end
of the context, the end of the reading task with its error, or a message,
given by what `json.Unmarshal` makes of it (`none` when it fails). -/
inductive LoopEvent
  | ctxDone
  | done (err : Option GoError)
  | message (decoded : Option TermopadAction)

/-- The loop of `connect` over the events it receives. The second component
is `none` while the loop is running and holds what `connect` returns once it
has returned. -/
def connectLoop (download : String → Option (List Nat)) (st : ConnState) :
    List LoopEvent → ConnState × Option (Option GoError)
  | [] => (st, none)
  | .ctxDone :: _ => (st, some (some "context canceled"))
  | .done err :: _ => (st, some err)
  | .message decoded :: rest => connectLoop download (handleMessage download st decoded) rest

/-- Source: the constant `ReconnectTimeout`. -/
def ReconnectTimeout : Int := 5 * second

/-- Source: the constant `DownloadTimeout`. -/
def DownloadTimeout : Int := 2 * second

/-- Source: `termopad.ConfigWebsocket` (the logger is left out). -/
structure ConfigWebsocket where
  TermopadInfo : TermopadInfo
  ReconnectTimeout : Int
  DownloadTimeout : Int

/-- Source: `termopad.Websocket`, with the buffer of `resultChan`. -/
structure Websocket where
  termopadInfo : TermopadInfo
  reconnectTimeout : Int
  downloadTimeout : Int
  resultChan : List TemperatureEvent

/-- What `conform.Strings` does to a `model.TermopadInfo`: the fields `URL`,
`Name` and `Description` carry the `trim` tag. -/
def TermopadInfo.conform (i : TermopadInfo) : TermopadInfo :=
  { i with URL := TrimSpace i.URL, Name := TrimSpace i.Name, Description := TrimSpace i.Description }

/-- The `validate` tags of `model.TermopadInfo`: `required` on `ID`, `URL`
and `Name`, and `websocket` on `URL`. -/
def TermopadInfo.valid (scheme : String → Option String) (i : TermopadInfo) : Bool :=
  i.ID != 0 && i.URL != "" && validatorWebsocket scheme i.URL && i.Name != ""

/-- Source: `NewWebsocket`. A nil config is `none`. `Validator.Validate`
applies `conform.Strings` to the description of the kiosk in place and then
checks the tags. -/
def NewWebsocket (scheme : String → Option String) (config : Option ConfigWebsocket) :
    Except GoError Websocket :=
  match config with
  | none => .error "не задана конфигурация config"
  | some config =>
    let info := config.TermopadInfo.conform
    if !info.valid scheme then .error (Annotate validationError "некорректное описание термопада")
    else
      let res : Websocket :=
        { termopadInfo := info
          reconnectTimeout := ReconnectTimeout
          downloadTimeout := DownloadTimeout
          resultChan := [] }
      let res :=
        if config.ReconnectTimeout ≠ 0 then
          { res with reconnectTimeout := config.ReconnectTimeout } else res
      let res :=
        if config.DownloadTimeout ≠ 0 then
          { res with downloadTimeout := config.DownloadTimeout } else res
      .ok res
/-! ## store/db/model.go, store/db/db.go -/

/-- Text of `gorm.ErrRecordNotFound`. -/
def ErrRecordNotFound : GoError := "record not found"

/-- An error reported by the database engine for a statement that could not be
carried out. The engine reserves the text of `gorm.ErrRecordNotFound` for a
query without rows, so such a report never carries it. -/
def EngineError : Type := { s : String // s ≠ ErrRecordNotFound }

/-- Source: `db.Person` with its embedded `GormModelUnscoped`. -/
structure PersonRow where
  ID : Nat
  CreatedAt : Int
  UpdatedAt : Int
  Wigand : Int
  Family : String
  Name : String
  MiddleName : String
  Organization : String
  Department : String
  Position : String
  deriving DecidableEq, Repr

/-- Source: `db.Temperature` with its embedded `GormModelUnscoped`. -/
structure TemperatureRow where
  ID : Nat
  CreatedAt : Int
  UpdatedAt : Int
  PersonID : Int
  TermopadID : Int
  Temperature : F64
  ImageName : String
  deriving DecidableEq

/-- The content behind a `db.Db`: the tables `persons` and `temperature_log`
and the files of the directory `RootPersonDir`. -/
structure Db where
  persons : List PersonRow
  temperatureLog : List TemperatureRow
  personFiles : List (String × List Nat)

/-- Source: `Db.IsNotFound`. -/
def IsNotFound (err : GoError) : Bool := err == ErrRecordNotFound

/-- The query `Where("wigand = ?", wigandID).Take(&person)`: the first row with
that card number, `ErrRecordNotFound` when there is none, or the error of the
engine. The argument is a Go `uint`, which `database/sql` hands to the driver
as `int64(wigandID)`. -/
def Db.takeByWigand (db : Db) (fault : Option EngineError) (wigandID : Nat) :
    Except GoError PersonRow :=
  match fault with
  | some e => .error e.val
  | none =>
    match db.persons.find? (fun r => r.Wigand == toInt wigandID) with
    | none => .error ErrRecordNotFound
    | some r => .ok r

/-- The next value of an integer primary key. -/
def nextID (ids : List Nat) : Nat := ids.foldl max 0 + 1

/-- Source: `Db.GetPerson`. -/
def Db.GetPerson (db : Db) (fault : Option EngineError) (wigandID : Nat) :
    Except GoError Person :=
  if wigandID = 0 then .error "передан некорректный номер wigand=0"
  else
    match db.takeByWigand fault wigandID with
    | .error err =>
      if err == ErrRecordNotFound then .error ErrRecordNotFound else .error err
    | .ok person =>
      .ok
        { CreateAt := some person.CreatedAt
          UpdateAt := some person.UpdatedAt
          Wigand := { ID := toUint person.Wigand }
          Family := person.Family
          Name := person.Name
          MiddleName := person.MiddleName
          Organization := person.Organization
          Department := person.Department
          Position := person.Position
          Image := [] }

/-- What `conform.Strings` does to a `model.Person`. -/
def Person.conform (p : Person) : Person :=
  { p with
    Family := TrimSpace p.Family
    Name := TrimSpace p.Name
    MiddleName := TrimSpace p.MiddleName
    Organization := TrimSpace p.Organization
    Department := TrimSpace p.Department
    Position := TrimSpace p.Position }

/-- The `validate` tags of `model.Person`, those of the nested `Wigand`
included. -/
def Person.valid (p : Person) : Bool := p.Family != "" && p.Name != "" && p.Wigand.valid

/-- Source: `Person.FromPerson` of package `db`. -/
def PersonRow.FromPerson (person : Person) : PersonRow :=
  { ID := 0
    CreatedAt := 0
    UpdatedAt := 0
    Wigand := toInt person.Wigand.ID
    Family := person.Family
    Name := person.Name
    MiddleName := person.MiddleName
    Organization := person.Organization
    Department := person.Department
    Position := person.Position }

/-- Source: `Person.Update` of package `db`. -/
def PersonRow.Update (m person : PersonRow) : PersonRow :=
  { m with
    Family := person.Family
    Name := person.Name
    MiddleName := person.MiddleName
    Organization := person.Organization
    Department := person.Department
    Position := person.Position }

/-- Mapping of a row to the `model.Person` returned by `SetPerson`. -/
def PersonRow.result (r : PersonRow) : Person :=
  { CreateAt := some r.CreatedAt
    UpdateAt := some r.UpdatedAt
    Wigand := { ID := toUint r.Wigand }
    Family := r.Family
    Name := r.Name
    MiddleName := r.MiddleName
    Organization := r.Organization
    Department := r.Department
    Position := r.Position
    Image := [] }

/-- A column written by `Updates` with a struct: only a non-zero value is
written. -/
def updatedColumn (old new : String) : String := if new = "" then old else new

/-- Source: `Db.SetPerson`. The person is given with an empty `Image`, as the
callers do. The result carries the stored person and the flag that tells
whether the record was created. -/
def Db.SetPerson (db : Db) (now : Int) (takeFault writeFault : Option EngineError)
    (person : Person) : Db × Except GoError (Person × Bool) :=
  let person := person.conform
  if !person.valid then (db, .error (Annotate validationError "ошибка валидации"))
  else
    let newPerson := PersonRow.FromPerson person
    match db.takeByWigand takeFault person.Wigand.ID with
    | .error err =>
      if err != ErrRecordNotFound then (db, .error err)
      else
        match writeFault with
        | some e => (db, .error (Annotate e.val "ошибка добавления в БД"))
        | none =>
          let newPerson :=
            { newPerson with
              ID := nextID (db.persons.map (fun r => r.ID))
              CreatedAt := now
              UpdatedAt := now }
          ({ db with persons := db.persons ++ [newPerson] }, .ok (newPerson.result, true))
    | .ok isPerson =>
      let isPerson := isPerson.Update newPerson
      match writeFault with
      | some e => (db, .error (Annotate e.val "ошибка обновления записи"))
      | none =>
        let isPerson := { isPerson with UpdatedAt := now }
        let write (r : PersonRow) : PersonRow :=
          if r.ID = isPerson.ID then
            { r with
              CreatedAt := isPerson.CreatedAt
              UpdatedAt := now
              Wigand := isPerson.Wigand
              Family := updatedColumn r.Family isPerson.Family
              Name := updatedColumn r.Name isPerson.Name
              MiddleName := updatedColumn r.MiddleName isPerson.MiddleName
              Organization := updatedColumn r.Organization isPerson.Organization
              Department := updatedColumn r.Department isPerson.Department
              Position := updatedColumn r.Position isPerson.Position }
          else r
        ({ db with persons := db.persons.map write }, .ok (isPerson.result, false))

/-- Source: `Db.SetTemperatureLog`. `round1` stands for
`math.Round(x*10) / 10`. -/
def Db.SetTemperatureLog (db : Db) (now : Int) (round1 : F64 → F64)
    (fault : Option EngineError) (termopadID wigandID : Nat) (temperature : F64)
    (imageName : String) : Db × Option GoError :=
  let tempLog : TemperatureRow :=
    { ID := nextID (db.temperatureLog.map (fun r => r.ID))
      CreatedAt := now
      UpdatedAt := now
      PersonID := toInt wigandID
      TermopadID := toInt termopadID
      Temperature := round1 temperature
      ImageName := imageName }
  match fault with
  | some e => (db, some e.val)
  | none => ({ db with temperatureLog := db.temperatureLog ++ [tempLog] }, none)

/-- Source: `Db.SetPersonImage`. `dirFault` is the error met while looking up
or making the directory, `writeFault` the one met while writing the file. -/
def Db.SetPersonImage (db : Db) (dirFault writeFault : Option GoError) (wigand : Nat)
    (content : List Nat) : Db × Option GoError :=
  let fName := toString wigand ++ ".jpeg"
  match dirFault with
  | some e => (db, some e)
  | none =>
    match db.personFiles.lookup fName with
    | some _ => (db, none)
    | none =>
      match writeFault with
      | some e => (db, some e)
      | none => ({ db with personFiles := (fName, content) :: db.personFiles }, none)

/-! ## store/store.go, store/db/db.go: the queries on the measurement log -/

/-- Source: `store.TemperatureLog`. -/
structure TemperatureLog where
  ID : Nat
  TermopadID : Int
  CreatedAt : Int
  Person : Person
  deriving DecidableEq

/-- Source: `model.TemperatureMetric`. The date is given by its calendar
fields. -/
structure TemperatureMetric where
  Date : DateTime
  Temperature : F64
  TemperatureMax : F64
  TemperatureMin : F64
  Image : String
  Person : Person
  Termopad : TermopadInfo
  deriving DecidableEq

/-- The value of an `int64` expression whose exact result is `x`: the result
wraps around. -/
def wrapInt64 (x : Int) : Int :=
  (x + 9223372036854775808) % 18446744073709551616 - 9223372036854775808

/-- The loop of the two log queries over the rows found: the person of each
row is taken from the table of persons, a row without a person is skipped,
and another error of the engine ends the query. `created` is what the pointer
`&v.CreatedAt` of every element of the result points to: the loop variable
`v` is one variable for the whole loop, so it holds the creation time of the
last row of the loop once the loop has ended. -/
def Db.logRows (db : Db) (takeFault : TemperatureRow → Option EngineError) (created : Int) :
    List TemperatureRow → List TemperatureLog → Except GoError (List TemperatureLog)
  | [], result => .ok result
  | v :: rest, result =>
    match takeFault v with
    | some e => .error e.val
    | none =>
      match db.persons.find? (fun r => r.Wigand == v.PersonID) with
      | none => db.logRows takeFault created rest result
      | some person =>
        db.logRows takeFault created rest (result ++
          [{ ID := v.ID
             TermopadID := v.TermopadID
             CreatedAt := created
             Person :=
               { CreateAt := none
                 UpdateAt := none
                 Wigand := { ID := toUint person.Wigand }
                 Family := person.Family
                 Name := person.Name
                 MiddleName := person.MiddleName
                 Organization := person.Organization
                 Department := person.Department
                 Position := person.Position
                 Image := [] } }])

/-- The creation time of the last of the rows (the zero instant for none). -/
def lastCreated (temps : List TemperatureRow) : Int :=
  match temps.getLast? with
  | some v => v.CreatedAt
  | none => 0

/-- Source: the expression `time.Now().Add(-(duration * time.Second))` of the
two log queries. -/
def logTimeLimit (now duration : Int) : Int :=
  now + wrapInt64 (-(wrapInt64 (duration * second)))

/-- Source: `Db.TemperatureLogByPerson`. `findFault` is the error of the
engine for the query on the log, `takeFault` the one for the query on the
person of a row. The argument `personID` is a Go `uint`, which `database/sql`
hands to the driver as `int64(personID)`. -/
def Db.TemperatureLogByPerson (db : Db) (now : Int) (findFault : Option EngineError)
    (takeFault : TemperatureRow → Option EngineError) (personID : Nat) (duration : Int) :
    Except GoError (List TemperatureLog) :=
  let timeLimit := logTimeLimit now duration
  match findFault with
  | some e => .error e.val
  | none =>
    let temps := db.temperatureLog.filter
      (fun v => v.PersonID == toInt personID && decide (timeLimit < v.CreatedAt))
    db.logRows takeFault (lastCreated temps) temps []

/-- Source: `Db.TemperatureLogByTermopad`. The argument `termopadID` reaches
the driver as `int64(termopadID)`. -/
def Db.TemperatureLogByTermopad (db : Db) (now : Int) (findFault : Option EngineError)
    (takeFault : TemperatureRow → Option EngineError) (termopadID : Nat) (duration : Int) :
    Except GoError (List TemperatureLog) :=
  let timeLimit := logTimeLimit now duration
  match findFault with
  | some e => .error e.val
  | none =>
    let temps := db.temperatureLog.filter
      (fun v => v.TermopadID == toInt termopadID && decide (timeLimit < v.CreatedAt))
    db.logRows takeFault (lastCreated temps) temps []

/-- Source: `Db.calculateDate`: the start and the finish of a period of `days`
days that ends `offset` days before now. -/
def calculateDate (now : Int) (days offset : Nat) : Int × Int :=
  let finishDate := now + wrapInt64 (-(wrapInt64 ((offset : Int) * hour * 24)))
  let startDate := finishDate + wrapInt64 (-(wrapInt64 ((days : Int) * hour * 24)))
  (startDate, finishDate)

/-- The expression `(\d+)\.(\d+)\.(\d+)` of `Clean`. -/
def dirNameRe : List Tok :=
  [ .groupStart 1, .plus isDigit, .groupEnd 1, .chr '.',
    .groupStart 2, .plus isDigit, .groupEnd 2, .chr '.',
    .groupStart 3, .plus isDigit, .groupEnd 3 ]

set_option linter.unusedVariables false in
/-- Source: `Db.Clean`. `findFault` is the error of the query on the log,
`openFault` the one of `os.Open` on the directory of the images, `readdir`
the names that `Readdir` lists or its error, and `midnight` stands for
`time.Date(year, month, day, 0, 0, 0, 0, time.Local)` as an instant. The rows
found and the names gathered in `deleteDirs` are not used after they are
computed, and the function holds no statement that deletes a row or a
directory: the store is returned as it was given. -/
def Db.Clean (db : Db) (now : Int) (findFault : Option GoError) (openFault : Option GoError)
    (readdir : Except GoError (List String)) (midnight : Int → Int → Int → Int) (days : Int) :
    Db × Option GoError :=
  let lastDate := (calculateDate now (toUint days) 0).1
  match findFault with
  | some err => if IsNotFound err then (db, none) else (db, some err)
  | none =>
    let rows := db.temperatureLog.filter (fun r => decide (lastDate < r.CreatedAt))
    match openFault with
    | some err => (db, some err)
    | none =>
      match readdir with
      | .error err => (db, some err)
      | .ok fileInfos =>
        let deleteDirs := fileInfos.filter (fun name =>
          match FindStringSubmatch dirNameRe 3 name.data with
          | [_, g1, g2, g3] =>
            decide (midnight (Atoi g1).1 (Atoi g2).1 (Atoi g3).1 < lastDate)
          | _ => false)
        (db, none)

/-- Source: `tool.RoundToDate`. -/
def RoundToDate (t : DateTime) : DateTime :=
  { t with hour := 0, minute := 0, second := 0 }

/-- A number written with at least `w` decimal digits. -/
def padZeros (w n : Nat) : String :=
  String.mk (List.replicate (w - (toString n).length) '0') ++ toString n

/-- Source: `Time.String` for an instant of the zone UTC without a fraction
of a second: the form `2006-01-02 15:04:05 +0000 UTC`. -/
def DateTime.String (t : DateTime) : String :=
  padZeros 4 t.year ++ "-" ++ padZeros 2 t.month ++ "-" ++ padZeros 2 t.day ++ " " ++
    padZeros 2 t.hour ++ ":" ++ padZeros 2 t.minute ++ ":" ++ padZeros 2 t.second ++ " +0000 UTC"

/-- Source: the body of the first loop of `Db.compactTemperature` for one
element. The key of the map `cacheLoc` is the text of the day in the form
`2006.01.02`, which names the day; the map is keyed here by the day itself,
and listed in the order in which the days were met. -/
def compactStep (cacheLoc : List (DateTime × TemperatureMetric)) (v : TemperatureMetric) :
    List (DateTime × TemperatureMetric) :=
  let date := RoundToDate v.Date
  match cacheLoc.lookup date with
  | none =>
    cacheLoc ++
      [(date, { v with Date := date, TemperatureMax := v.Temperature,
                       TemperatureMin := v.Temperature })]
  | some cached =>
    let c :=
      if F64.lt cached.TemperatureMax v.Temperature then
        { cached with TemperatureMax := v.Temperature }
      else if F64.lt v.Temperature cached.TemperatureMin then
        { cached with TemperatureMin := v.Temperature }
      else cached
    cacheLoc.map (fun e => if e.1 = date then (e.1, c) else e)

/-- Source: the second loop of `Db.compactTemperature` for one element. -/
def compactClear (v : TemperatureMetric) : TemperatureMetric :=
  { v with
    Temperature := F64.fin 0
    Person :=
      { v.Person with
        Wigand := { ID := 0 }
        Name := ""
        MiddleName := ""
        Family := ""
        Organization := ""
        Department := ""
        Position := "" } }

/-- The order `less` of the final `sort.Slice`, as "not after". -/
def dateNotAfter (a b : TemperatureMetric) : Bool := !decide (b.Date.String < a.Date.String)

/-- Source: `Db.compactTemperature`. The final sort is on texts that differ
from one element to the next, so its result is the sorted list whatever the
order in which the map was walked. -/
def compactTemperature (temperature : List TemperatureMetric) : List TemperatureMetric :=
  let cacheLoc := temperature.foldl compactStep []
  let result := cacheLoc.map (fun e => compactClear e.2)
  result.insertionSort (fun a b => dateNotAfter a b = true)
/-! ## model/web.go, controller/manager/manager.go -/

/-- Source: `model.TermopadTemperatureEvent`. The pointer `CreateAt` is set by
the producer of the event (`EmmitTemperature` stores the address of a local),
so it is an instant here. -/
structure TermopadTemperatureEvent where
  CreateAt : Int
  Image : String
  Info : TermopadInfo
  Temperature : TemperatureEvent

/-- Source: `model.TemperatureChange`. -/
structure TemperatureChange where
  ID : Nat
  CreateAt : Int
  Temperature : F64
  Image : String
  Wigand : Wigand
  NameFirst : String
  NameMiddle : String
  NameLast : String
  Organization : String
  Departament : String
  Postion : String
  deriving DecidableEq

def Manager.defaultRequestTimeout : Int := second
def updatePersonInterval : Int := 60 * minute
def cleanBasePeriod : Int := hour * 24 * 30
def cleanBaseInterval : Int := minute * 30

/-- Source: `manager.ConfigManager`. The four service handles are represented
by the flag that tells whether the handle is set (not nil). -/
structure ConfigManager where
  TermopadCtl : Bool
  WebSvc : Bool
  SudosSvc : Bool
  DbStore : Bool
  RequestTimeout : Int
  UpdatePersonInterval : Int
  CleanBasePeriod : Int
  CleanBaseInterval : Int
  WebPort : Nat
  AssetsDir : String

/-- Source: `manager.Manager`, its settings. -/
structure Manager where
  requestTimeout : Int
  updatePersonInterval : Int
  cleanBasePeriod : Int
  cleanBaseInterval : Int
  webPort : Nat
  assetsDir : String
  deriving DecidableEq, Repr

/-- Source: `NewManager`. A nil config is `none`. -/
def NewManager (config : Option ConfigManager) : Except GoError Manager :=
  match config with
  | none => .error "не передана конфигурация"
  | some config =>
    if !config.TermopadCtl then .error "не передан контроллер термопада"
    else if !config.SudosSvc then .error "не передан контроллер СУДОС"
    else if !config.WebSvc then .error "не передан сервис WEB"
    else if !config.DbStore then .error "не передан сервис базы данных"
    else
      let manager : Manager :=
        { requestTimeout := Manager.defaultRequestTimeout
          updatePersonInterval := updatePersonInterval
          cleanBasePeriod := cleanBasePeriod
          cleanBaseInterval := cleanBaseInterval
          webPort := 80
          assetsDir := "./assets/main" }
      let manager :=
        if config.RequestTimeout ≠ 0 then
          { manager with requestTimeout := config.RequestTimeout } else manager
      let manager :=
        if config.UpdatePersonInterval ≠ 0 then
          { manager with updatePersonInterval := config.UpdatePersonInterval } else manager
      let manager :=
        if config.CleanBasePeriod ≠ 0 then
          { manager with cleanBasePeriod := config.CleanBasePeriod } else manager
      let manager :=
        if config.CleanBaseInterval ≠ 0 then
          { manager with cleanBaseInterval := config.CleanBaseInterval } else manager
      let manager :=
        if config.WebPort ≠ 0 then { manager with webPort := config.WebPort } else manager
      let manager :=
        if config.AssetsDir ≠ "" then { manager with assetsDir := config.AssetsDir } else manager
      .ok manager

/-- Source: `time.Since(t)`, that is `time.Now().Sub(t)`: the difference as a
`Duration`, which saturates at the bounds of `int64`. -/
def timeSince (now t : Int) : Int :=
  if now - t < -9223372036854775808 then -9223372036854775808
  else if 9223372036854775807 < now - t then 9223372036854775807
  else now - t

/-- Levels of the logger. -/
inductive LogLevel
  | debug
  | warn
  | error
  deriving DecidableEq, Repr

/-- The calls a run of `temperatureInWorker` makes on its collaborators, and
the points where it starts or joins other goroutines. Calls on the record
store carry what the store answered. -/
inductive Call
  | GetPerson (wigandID : Nat)
  | TemperatureChanged (change : TemperatureChange)
  | Go
  | GroupGo
  | GroupWait
  | SudosPerson (wigand : Wigand)
  | SetPersonTemperature (person : Person) (temperature : TemperatureEvent) (info : TermopadInfo)
  | SetPersonImage (wigandID : Nat) (content : List Nat) (err : Option GoError)
  | SetPerson (person : Person) (result : Except GoError (Person × Bool))
  | SetTemperatureLog (termopadID wigandID : Nat) (temperature : F64) (imageName : String)
      (err : Option GoError)
  | Log (level : LogLevel)
  | Panic

/-- A run of `temperatureInWorker`: the calls of the worker itself, those of
the task it hands to the error group with `g.Go` (none when no task is
started), and those of the goroutine it starts with the `go` statement, each
in program order. The marks `GroupGo` and `Go` in a list tell where the other
list starts; `GroupWait` is where the worker joins the group. -/
structure Run where
  main : List Call
  group : List Call
  detached : List Call

/-- How a call of `SudosSvc.Person` ends: with an error, or with the response
that the read task delivered on the channel of the caller. -/
inductive PersonOutcome
  | failed (err : GoError)
  | answered (resp : SudosPersonResponse)

/-- What is outside the control of one run of the worker: the clock, the
library functions on floats and base64 text, the faults of the storage, and
the way the registry calls end. The instants read during one run are
identified. `Serve` starts one worker per event and nothing locks the store
between the calls of a worker, so `others` gives what the workers running
next to this one have done to the table of persons between the lookup of this
run and the record write of its task (the identity when there is none). -/
structure Env where
  now : Int
  others : List PersonRow → List PersonRow
  round1 : F64 → F64
  decode : String → Option (List Nat)
  getPersonFault : Option EngineError
  registry : PersonOutcome
  imageDirFault : Option GoError
  imageWriteFault : Option GoError
  setPersonTakeFault : Option EngineError
  setPersonWriteFault : Option EngineError
  logFault : Option EngineError
  setTemperatureErr : Option GoError

/-- The result of `m.sudosSvc.Person(wigand)` for the `Sudos` service. -/
def Env.sudosPerson (env : Env) (wigand : Wigand) : Except GoError Person :=
  match env.registry with
  | .failed err => .error err
  | .answered resp => .ok (Sudos.personOfResponse env.decode wigand resp)

/-- The goroutine `go func() { err := m.sudosSvc.SetPersonTemperature(...) }`. -/
def notifyTask (env : Env) (person : Person) (temp : TermopadTemperatureEvent) : List Call :=
  Call.SetPersonTemperature person temp.Temperature temp.Info ::
    (match env.setTemperatureErr with
     | some _ => [Call.Log LogLevel.warn]
     | none => [])

/-- The two stores of a fetched person shared by both tasks handed to the
group: the image when there is one (a failure is only logged), then the
record with an emptied image. The task runs after the answer of the registry,
on the table of persons as the other workers have left it by then. -/
def storeFetched (env : Env) (db : Db) (person : Person) (imageLog : List Call) :
    Db × List Call × Person × Except GoError (Person × Bool) :=
  let db : Db := { db with persons := env.others db.persons }
  let r1 : Db × List Call :=
    if person.Image.length ≠ 0 then
      let r := db.SetPersonImage env.imageDirFault env.imageWriteFault person.Wigand.ID person.Image
      (r.1, Call.SetPersonImage person.Wigand.ID person.Image r.2 ::
        (match r.2 with
         | some _ => imageLog
         | none => []))
    else (db, [])
  let person := { person with Image := [] }
  let r2 := r1.1.SetPerson env.now env.setPersonTakeFault env.setPersonWriteFault person
  (r2.1, r1.2 ++ [Call.SetPerson person r2.2], person, r2.2)

/-- Source: the task given to `g.Go` when the stored record is out of date. -/
def refreshTask (env : Env) (db : Db) (temp : TermopadTemperatureEvent) : Db × List Call :=
  match env.sudosPerson temp.Temperature.Wigand with
  | .error _ => (db, [Call.SudosPerson temp.Temperature.Wigand, Call.Log LogLevel.warn])
  | .ok person =>
    let r := storeFetched env db person [Call.Log LogLevel.warn]
    match r.2.2.2 with
    | .error _ => (r.1, Call.SudosPerson temp.Temperature.Wigand :: r.2.1 ++ [Call.Log LogLevel.error])
    | .ok res =>
      (r.1, Call.SudosPerson temp.Temperature.Wigand :: r.2.1 ++
        (if res.2 then [Call.Log LogLevel.debug] else []))

/-- Source: the task given to `g.Go` when no record is stored for the card.
The second component lists the calls of the task, the third those of the
goroutine it starts at its end. -/
def fetchTask (env : Env) (db : Db) (temp : TermopadTemperatureEvent) :
    Db × List Call × List Call :=
  match env.sudosPerson temp.Temperature.Wigand with
  | .error _ => (db, [Call.SudosPerson temp.Temperature.Wigand], [])
  | .ok person =>
    let r := storeFetched env db person [Call.Log LogLevel.warn]
    let person := r.2.2.1
    match r.2.2.2 with
    | .error _ =>
      (r.1, Call.SudosPerson temp.Temperature.Wigand :: r.2.1 ++ [Call.Log LogLevel.error], [])
    | .ok _ =>
      (r.1, Call.SudosPerson temp.Temperature.Wigand :: r.2.1 ++
        [Call.TemperatureChanged
          { ID := temp.Info.ID
            CreateAt := temp.CreateAt
            Temperature := env.round1 temp.Temperature.Temperature
            Image := temp.Image
            Wigand := temp.Temperature.Wigand
            NameFirst := person.Name
            NameMiddle := person.MiddleName
            NameLast := person.Family
            Organization := ""
            Departament := person.Department
            Postion := person.Position },
         Call.Go],
       notifyTask env person temp)

/-- Source: the end of `temperatureInWorker`, common to both branches: the
append to the measurement log, whose error is only logged, and the join. -/
def logAndWait (env : Env) (db : Db) (temp : TermopadTemperatureEvent) : Db × List Call :=
  let r := db.SetTemperatureLog env.now env.round1 env.logFault temp.Info.ID
    temp.Temperature.Wigand.ID temp.Temperature.Temperature temp.Image
  (r.1, Call.SetTemperatureLog temp.Info.ID temp.Temperature.Wigand.ID
      temp.Temperature.Temperature temp.Image r.2 ::
    (match r.2 with
     | some _ => [Call.Log LogLevel.error, Call.GroupWait]
     | none => [Call.GroupWait]))

/-- Source: `Manager.temperatureInWorker`. The result is the content of the
store after the run and the calls made. The lookup reads the store `db`; the
task of the group writes later, to the table of persons as `env.others` has
left it. The task of the group works on the table of persons and the files,
the worker on the measurement log, so the order in which their writes reach
the store does not matter; the write of the worker is applied first. -/
def Manager.temperatureInWorker (m : Manager) (env : Env) (db : Db)
    (temp : TermopadTemperatureEvent) : Db × Run :=
  match db.GetPerson env.getPersonFault temp.Temperature.Wigand.ID with
  | .error err =>
    if IsNotFound err then
      let l := logAndWait env db temp
      let t := fetchTask env l.1 temp
      (t.1,
        { main :=
            [Call.GetPerson temp.Temperature.Wigand.ID,
             Call.TemperatureChanged
              { ID := temp.Info.ID
                CreateAt := temp.CreateAt
                Temperature := env.round1 temp.Temperature.Temperature
                Image := temp.Image
                Wigand := temp.Temperature.Wigand
                NameFirst := ""
                NameMiddle := ""
                NameLast := ""
                Organization := ""
                Departament := ""
                Postion := "" },
             Call.GroupGo] ++ l.2
          group := t.2.1
          detached := t.2.2 })
    else
      (db,
        { main := [Call.GetPerson temp.Temperature.Wigand.ID, Call.Log LogLevel.error]
          group := []
          detached := [] })
  | .ok person =>
    let head : List Call :=
      [Call.GetPerson temp.Temperature.Wigand.ID,
       Call.Log LogLevel.debug,
       Call.TemperatureChanged
        { ID := temp.Info.ID
          CreateAt := temp.CreateAt
          Temperature := env.round1 temp.Temperature.Temperature
          Image := temp.Image
          Wigand := temp.Temperature.Wigand
          NameFirst := person.Name
          NameMiddle := person.MiddleName
          NameLast := person.Family
          Organization := person.Organization
          Departament := person.Department
          Postion := person.Position },
       Call.Go]
    match person.UpdateAt with
    | none => (db, { main := head ++ [Call.Panic], group := [], detached := notifyTask env person temp })
    | some updateAt =>
      if m.updatePersonInterval < timeSince env.now updateAt then
        let l := logAndWait env db temp
        let t := refreshTask env l.1 temp
        (t.1,
          { main := head ++ [Call.Log LogLevel.debug, Call.GroupGo] ++ l.2
            group := t.2
            detached := notifyTask env person temp })
      else
        let l := logAndWait env db temp
        (l.1, { main := head ++ l.2, group := [], detached := notifyTask env person temp })

/-- The notifications published by a list of calls, in order. -/
def published : List Call → List TemperatureChange
  | [] => []
  | Call.TemperatureChanged c :: rest => c :: published rest
  | _ :: rest => published rest

/-- The registry fetches (`SudosSvc.Person`) of a list of calls. -/
def fetches : List Call → List Wigand
  | [] => []
  | Call.SudosPerson w :: rest => w :: fetches rest
  | _ :: rest => fetches rest

/-- The record writes (`SetPerson`) of a list of calls, with their results. -/
def recordWrites : List Call → List (Person × Except GoError (Person × Bool))
  | [] => []
  | Call.SetPerson p r :: rest => (p, r) :: recordWrites rest
  | _ :: rest => recordWrites rest

/-- The number of image writes (`SetPersonImage`) of a list of calls. -/
def imageWrites : List Call → Nat
  | [] => 0
  | Call.SetPersonImage _ _ _ :: rest => imageWrites rest + 1
  | _ :: rest => imageWrites rest

/-- The number of status notifies (`SetPersonTemperature`) of a list of calls. -/
def notifies : List Call → Nat
  | [] => 0
  | Call.SetPersonTemperature _ _ _ :: rest => notifies rest + 1
  | _ :: rest => notifies rest

/-- The appends to the measurement log (`SetTemperatureLog`) of a list of
calls, with the error each one returned. -/
def logAppends : List Call → List (Option GoError)
  | [] => []
  | Call.SetTemperatureLog _ _ _ _ err :: rest => err :: logAppends rest
  | _ :: rest => logAppends rest

/-- All calls of a run. -/
def Run.all (r : Run) : List Call := r.main ++ r.group ++ r.detached

/-- The calls the worker makes before it hands a task to the group. -/
def beforeGroup : List Call → List Call
  | [] => []
  | Call.GroupGo :: _ => []
  | c :: rest => c :: beforeGroup rest

/-- The `float64` nearest to the fraction `n / d` (ties to even), given as the
pair `(m, k)` that stands for `m * 2^k`: with `e` the binary exponent of the
fraction, the spacing of the `float64` values around it is `2^(e-52)`, and
`2^-1074` for the subnormal ones. The fractions met here are far below the
overflow threshold. -/
def nearestFloat64 (n d : Nat) : Nat × Int :=
  if n = 0 then (0, 0)
  else
    let bn : Int := bitLength n n
    let bd : Int := bitLength d d
    let e : Int := if d * 2 ^ bitLength n n ≤ n * 2 ^ bitLength d d then bn - bd else bn - bd - 1
    let k : Int := max (e - 52) (-1074)
    let m : Nat :=
      if 0 ≤ k then roundHalfEven n (d * 2 ^ k.toNat) else roundHalfEven (n * 2 ^ (-k).toNat) d
    (m, k)

/-- Source: `time.Duration.Hours` for a duration of `a` nanoseconds:
`float64(d / Hour) + float64(d % Hour) / (60 * 60 * 1e9)`. Both conversions
are exact; the quotient and the sum are rounded to a `float64` each. The
result is the pair `(m, k)` for `m * 2^k`. -/
def durationHours (a : Nat) : Nat × Int :=
  let q := nearestFloat64 (a % hour.toNat) hour.toNat
  if 0 ≤ q.2 then nearestFloat64 (a / hour.toNat + q.1 * 2 ^ q.2.toNat) 1
  else nearestFloat64 (a / hour.toNat * 2 ^ (-q.2).toNat + q.1) (2 ^ (-q.2).toNat)

/-- The expression `math.Round(d.Hours() / 24)` for a duration of `a`
nanoseconds: the quotient is rounded to a `float64`, and that value to the
nearest integer, halves away from zero. -/
def roundedDays (a : Nat) : Nat :=
  let h := durationHours a
  let x :=
    if 0 ≤ h.2 then nearestFloat64 (h.1 * 2 ^ h.2.toNat) 24
    else nearestFloat64 h.1 (24 * 2 ^ (-h.2).toNat)
  if 0 ≤ x.2 then x.1 * 2 ^ x.2.toNat
  else (2 * x.1 + 2 ^ (-x.2).toNat) / (2 * 2 ^ (-x.2).toNat)

/-- The expression `int(math.Round(d.Hours() / 24))` for a duration `d`. The
division of `Hours` truncates and the roundings are symmetric, so a negative
duration gives the opposite of the value of its magnitude. -/
def durationDays (d : Int) : Int :=
  if 0 ≤ d then roundedDays d.toNat else -(roundedDays (-d).toNat : Int)

/-- How a turn of the housekeeping loop of `Manager.Serve` ends: the task
returns the error of the sweep, or it sleeps for a duration and starts its
next turn. -/
inductive TickEnd
  | fail (err : GoError)
  | sleep (d : Int)
  deriving DecidableEq, Repr

/-- Source: one turn of the housekeeping loop of `Manager.Serve`. `clean` is
`m.dbStore.Clean`; the result is the argument given to it and the way the turn
ends. -/
def Manager.housekeeperTick (m : Manager) (clean : Int → Option GoError) : Int × TickEnd :=
  let days := durationDays m.cleanBaseInterval
  match clean days with
  | some err => (days, TickEnd.fail err)
  | none => (days, TickEnd.sleep m.cleanBaseInterval)

/-! ## controller/manager/manager.go: `Manager.Serve` -/

/-- A task handed to an `errgroup.Group` with `g.Go`: it is running, or it has
returned with its error (`none` for nil). -/
inductive GroupTask
  | running
  | returned (err : Option GoError)
  deriving DecidableEq, Repr

/-- Source: the assignment `g.errOnce.Do(func() { g.err = err })` of
`errgroup`: the first error returned by a task of the group is kept. -/
def groupKeep (groupErr : Option GoError) (err : Option GoError) : Option GoError :=
  match groupErr with
  | some e => some e
  | none => err

/-- The state of a call of `Manager.Serve`: its two tasks (the one that takes
the events of the kiosks and the one that sweeps the store), the error kept by
the group, the buffer of the channel `termperature` (capacity 10, oldest
first), the arguments given to `Clean` so far, the events handed to
`temperatureInWorker` so far, and what `Serve` has returned once it has
(`none` while it runs). -/
structure ServeState where
  pump : GroupTask
  housekeeper : GroupTask
  groupErr : Option GoError
  termperature : List TermopadTemperatureEvent
  sweeps : List Int
  workers : List TermopadTemperatureEvent
  result : Option (Option GoError)

/-- The state at the start of `Serve`. -/
def ServeState.start : ServeState :=
  { pump := .running, housekeeper := .running, groupErr := none, termperature := [], sweeps := [],
    workers := [], result := none }

/-- The steps of `Manager.Serve` and of its tasks: `EmmitTemperature` returns
to the first task (with the state of the context at its `select`), the second
task makes a turn of its loop (`clean` is `m.dbStore.Clean`), the loop of
`Serve` receives from `done`, sees the context cancelled, or receives an event
from `termperature`. -/
inductive ServeStep
  | emit (r : Except GoError TermopadTemperatureEvent) (ctxDone pickDone : Bool)
  | sweep (clean : Int → Option GoError)
  | done
  | ctxDone
  | temp

/-- Source: `Manager.Serve`, one step. The goroutine that sends on `done`
does so when `g.Wait()` has returned, that is when both tasks have returned.
When both cases of the `select` of the first task are ready one of them is
picked, `pickDone` telling which. -/
def ServeState.step (m : Manager) (s : ServeState) : ServeStep → ServeState
  | .emit r ctxDone pickDone =>
    match s.pump with
    | .returned _ => s
    | .running =>
      match r with
      | .error err =>
        { s with pump := .returned (some err), groupErr := groupKeep s.groupErr (some err) }
      | .ok term =>
        let canSend := decide (s.termperature.length < 10)
        if ctxDone && (!canSend || pickDone) then { s with pump := .returned none }
        else if canSend then { s with termperature := s.termperature ++ [term] }
        else s
  | .sweep clean =>
    match s.housekeeper with
    | .returned _ => s
    | .running =>
      let t := m.housekeeperTick clean
      match t.2 with
      | .fail err =>
        { s with
          sweeps := s.sweeps ++ [t.1]
          housekeeper := .returned (some err)
          groupErr := groupKeep s.groupErr (some err) }
      | .sleep _ => { s with sweeps := s.sweeps ++ [t.1] }
  | .done =>
    match s.result, s.pump, s.housekeeper with
    | none, .returned _, .returned _ => { s with result := some s.groupErr }
    | _, _, _ => s
  | .ctxDone =>
    match s.result with
    | none => { s with result := some none }
    | some _ => s
  | .temp =>
    match s.result, s.termperature with
    | none, temp :: rest => { s with termperature := rest, workers := s.workers ++ [temp] }
    | _, _ => s

/-- A sequence of steps. -/
def ServeState.run (m : Manager) (s : ServeState) (steps : List ServeStep) : ServeState :=
  steps.foldl (ServeState.step m) s
/-! ## controller/termopad/termopad.go -/

set_option linter.dupNamespace false

/-- Source: the constant `eventCapacity`. -/
def eventCapacity : Nat := 10

/-- Source: `termopad.ConfigTermopad` (the logger is left out). -/
structure ConfigTermopad where
  EventCapacity : Nat
  deriving DecidableEq, Repr

/-- Source: the controller `termopad.Termopad`: the number of services in
`termopadsSvc`, the capacity with which the channel `event` was made, and the
field `eventCapacity`. -/
structure Termopad where
  links : Nat
  eventCap : Nat
  eventCapacity : Nat
  deriving DecidableEq, Repr

/-- Source: `NewTermopad`. A nil config, a nil list of services (`none`) and a
nil store (`false`) are refused. -/
def NewTermopad (termopadsSvc : Option Nat) (dbStore : Bool) (config : Option ConfigTermopad) :
    Except GoError Termopad :=
  match config with
  | none => .error "не установлен config"
  | some config =>
    match termopadsSvc with
    | none => .error "не указан список termopadsSvc"
    | some links =>
      if !dbStore then .error "не указана служба dbStore"
      else
        let termopad : Termopad :=
          { links := links, eventCap := eventCapacity, eventCapacity := eventCapacity }
        let termopad :=
          if config.EventCapacity ≠ 0 then
            { termopad with eventCapacity := config.EventCapacity } else termopad
        .ok termopad

/-- A task of the group of `Termopad.loop`: it is in `EmmitTemperature` of its
service, it is suspended in the send `m.event <- event`, or it has returned
with the error of `EmmitTemperature`. -/
inductive LinkTask
  | reading
  | sending (event : TermopadTemperatureEvent)
  | returned (err : GoError)

/-- Where the goroutine of `Termopad.loop` stands: in `g.Wait()`, in the
`select` whose only case is `<-m.ctx.Done()`, or returned. -/
inductive LoopPhase
  | waiting
  | parked
  | exited
  deriving DecidableEq, Repr

/-- The state of `Termopad.loop`: the tasks of the group, the buffer of the
channel `event` (oldest first), the error kept by the group, the place of the
goroutine of the loop, and the number of groups started so far. -/
structure LoopState where
  tasks : List LinkTask
  event : List TermopadTemperatureEvent
  groupErr : Option GoError
  phase : LoopPhase
  groups : Nat

/-- The state of `Termopad.loop` once it has started its group. -/
def Termopad.start (m : Termopad) : LoopState :=
  { tasks := List.replicate m.links LinkTask.reading, event := [], groupErr := none,
    phase := .waiting, groups := 1 }

/-- The steps of `Termopad.loop` and of those around it: `EmmitTemperature`
returns to task `i`, the suspended send of task `i` goes through, the
controller takes an event from the channel (in its own `EmmitTemperature`),
`g.Wait()` returns, the context is cancelled. -/
inductive LoopStep
  | emit (i : Nat) (r : Except GoError TermopadTemperatureEvent)
  | send (i : Nat)
  | receive
  | wait
  | ctxDone

/-- Whether the task has returned. -/
def LinkTask.isReturned : LinkTask → Bool
  | .returned _ => true
  | _ => false

/-- Source: `Termopad.loop`, one step. The send `m.event <- event` has no
other case: with a full buffer the task is suspended until there is room.
After `g.Wait()` the `select` has the single case `<-m.ctx.Done()`, after
which the function returns, so no step leads back to the start of the `for`
statement. -/
def Termopad.loopStep (m : Termopad) (s : LoopState) : LoopStep → LoopState
  | .emit i r =>
    match s.tasks.get? i with
    | some .reading =>
      match r with
      | .error err =>
        { s with
          tasks := s.tasks.set i (.returned err)
          groupErr := groupKeep s.groupErr (some err) }
      | .ok event =>
        if s.event.length < m.eventCap then { s with event := s.event ++ [event] }
        else { s with tasks := s.tasks.set i (.sending event) }
    | _ => s
  | .send i =>
    match s.tasks.get? i with
    | some (.sending event) =>
      if s.event.length < m.eventCap then
        { s with tasks := s.tasks.set i .reading, event := s.event ++ [event] }
      else s
    | _ => s
  | .receive =>
    match s.event with
    | [] => s
    | _ :: rest => { s with event := rest }
  | .wait =>
    if s.phase = .waiting ∧ s.tasks.all LinkTask.isReturned = true then { s with phase := .parked }
    else s
  | .ctxDone =>
    if s.phase = .parked then { s with phase := .exited } else s

/-- A sequence of steps. -/
def Termopad.loopRun (m : Termopad) (s : LoopState) (steps : List LoopStep) : LoopState :=
  steps.foldl m.loopStep s
/-! ## Auxiliary definitions used in the statements and proofs -/

/-- Exact value of a digit string read from an accumulator, without bounds. -/
def binFold (acc : Nat) (cs : List Char) : Nat :=
  cs.foldl (fun a c => a * 2 + (binDigit? c).getD 0) acc

/-- Every character is a binary digit. -/
def AllBin (cs : List Char) : Prop := ∀ c ∈ cs, c = '0' ∨ c = '1'


/-- A scheme function that reads the text before the first colon. -/
def exampleScheme (address : String) : Option String :=
  some (String.mk (address.data.takeWhile (fun c => c != ':')))

/-- A configuration with the registry address set and everything else left
at its zero value. -/
def exampleConfig : ConfigSudos :=
  { SudosUrl := "ws://registry:8000/feed"
    ReconnectTimeout := 0
    RequestTimeout := 0
    TemplateNormal := ""
    TemplateAlarm := ""
    TemplateLower := ""
    MaxTemperature := F64.fin 0
    MinTemperature := F64.fin 0 }

/-- The `Sudos` that `NewSudos` builds from `exampleConfig`. -/
def freshSudos : Sudos :=
  { sudosUrl := "ws://registry:8000/feed"
    reconnectTimeout := Sudos.defaultReconnectTimeout
    requestTimeout := Sudos.defaultRequestTimeout
    writeChan := []
    cache := []
    chans := []
    templateNormal := templateNormal
    templateAlarm := templateAlarm
    templateLower := templateLower
    maxTemperature := maxTemperature
    minTemperature := minTemperature }

/-- A rendering function that keeps the template and marks the place of the
argument. -/
def exampleSprintf (template : String) (_ : F64) : String := template

/-- The lookup request that `Person` writes for a card. -/
def lookupRequest (wigand : Wigand) : SudosPersonRequest :=
  { UidRequest := Sudos.key wigand
    Facility := wigand.Fasality
    Numer := wigand.Number
    Message := ""
    AlarmStatus := false
    Cabina := 0 }

/-- No waiting channel of the pending table holds a value. -/
def Sudos.WaitersEmpty (m : Sudos) : Prop :=
  ∀ e ∈ m.cache, ∀ c ∈ e.2.Object, m.chans.get? c = some []

/-- A channel waits under one key only. -/
def Sudos.WaitersApart (m : Sudos) : Prop :=
  ∀ e ∈ m.cache, ∀ e2 ∈ m.cache, ∀ c, c ∈ e.2.Object → c ∈ e2.2.Object → e.1 = e2.1

/-- The invariant of the pending table that the fan-out relies on. -/
def Sudos.Inv (m : Sudos) : Prop := m.WaitersEmpty ∧ m.WaitersApart

/-- The state of the pending entry of a key during a burst of calls whose
instants lie between `a` and `a + cacheExpiration`: either there is no entry
(and no waiter), or a single entry holds the waiters `old` and is found at
every instant of that window. -/
def Sudos.Pending (m : Sudos) (key : String) (a : Int) (old : List Nat) : Prop :=
  (m.cache.lookup key = none ∧ old = []) ∨
  ((∀ t, a ≤ t → t ≤ a + cacheExpiration → Cache.Get m.cache t key = some old) ∧
    (m.cache.filter (fun e => e.1 == key)).length = 1)

/-- A response frame for card 7. -/
def exampleFrame : SudosPersonResponse :=
  { UidRequest := " 7 "
    IpVedushiy := ""
    NumRec := 0
    Family := "Ivanov"
    Name := "Ivan"
    Patronymic := ""
    Numer := 7
    Contora := ""
    Otdel := ""
    SubOtdel := ""
    Profy := ""
    Type_ := ""
    Photo := "" }

/-- The notification of an event without any identity field. -/
def placeholder (env : Env) (temp : TermopadTemperatureEvent) : TemperatureChange :=
  { ID := temp.Info.ID
    CreateAt := temp.CreateAt
    Temperature := env.round1 temp.Temperature.Temperature
    Image := temp.Image
    Wigand := temp.Temperature.Wigand
    NameFirst := ""
    NameMiddle := ""
    NameLast := ""
    Organization := ""
    Departament := ""
    Postion := "" }

/-- The notification of an event populated with a stored identity. -/
def enriched (env : Env) (temp : TermopadTemperatureEvent) (person : Person) :
    TemperatureChange :=
  { ID := temp.Info.ID
    CreateAt := temp.CreateAt
    Temperature := env.round1 temp.Temperature.Temperature
    Image := temp.Image
    Wigand := temp.Temperature.Wigand
    NameFirst := person.Name
    NameMiddle := person.MiddleName
    NameLast := person.Family
    Organization := person.Organization
    Departament := person.Department
    Postion := person.Position }

/-- A store with one record, for card 65538, last updated at instant 1000. -/
def exampleDb : Db :=
  { persons :=
      [{ ID := 1, CreatedAt := 1000, UpdatedAt := 1000, Wigand := 65538, Family := "Ivanov",
         Name := "Ivan", MiddleName := "Ivanovich", Organization := "Plant", Department := "Shop",
         Position := "Fitter" }]
    temperatureLog := []
    personFiles := [] }

/-- An environment without faults and without other workers, in which the
registry answers with `exampleFrame` and the clock shows `now`. -/
def exampleEnv (now : Int) (registry : PersonOutcome) : Env :=
  { now := now
    others := fun rows => rows
    round1 := fun x => x
    decode := fun _ => none
    getPersonFault := none
    registry := registry
    imageDirFault := none
    imageWriteFault := none
    setPersonTakeFault := none
    setPersonWriteFault := none
    logFault := none
    setTemperatureErr := none }

/-- An event of kiosk 3 for a card, with a reading of 36.6 degrees. -/
def exampleEvent (card : Nat) : TermopadTemperatureEvent :=
  { CreateAt := 500
    Image := "2020.11.27_12.37.54_7.jpeg"
    Info := { ID := 3, URL := "ws://kiosk/feed", SudosID := 4, Name := "K", SerialNumber := 0,
              Description := "" }
    Temperature := { Temperature := F64.fin (183 / 5), Wigand := { ID := card }, Image := [] } }

/-- The manager with the default settings. -/
def exampleManager : Manager :=
  { requestTimeout := Manager.defaultRequestTimeout
    updatePersonInterval := updatePersonInterval
    cleanBasePeriod := cleanBasePeriod
    cleanBaseInterval := cleanBaseInterval
    webPort := 80
    assetsDir := "./assets/main" }

/-- The second notification of the unknown-card path, built from the fetched
person. -/
def fetchedNotification (env : Env) (temp : TermopadTemperatureEvent) (person : Person) :
    TemperatureChange :=
  { ID := temp.Info.ID
    CreateAt := temp.CreateAt
    Temperature := env.round1 temp.Temperature.Temperature
    Image := temp.Image
    Wigand := temp.Temperature.Wigand
    NameFirst := person.Name
    NameMiddle := person.MiddleName
    NameLast := person.Family
    Organization := ""
    Departament := person.Department
    Postion := person.Position }

/-- The person stored in `exampleDb`, as `GetPerson` returns it. -/
def examplePerson : Person :=
  { CreateAt := some 1000
    UpdateAt := some 1000
    Wigand := { ID := 65538 }
    Family := "Ivanov"
    Name := "Ivan"
    MiddleName := "Ivanovich"
    Organization := "Plant"
    Department := "Shop"
    Position := "Fitter"
    Image := [] }

/-- A text of one or more characters of a class. -/
def IsRun (cls : Char → Bool) (run : List Char) : Prop := run ≠ [] ∧ ∀ y ∈ run, cls y = true

instance (cls : Char → Bool) (run : List Char) : Decidable (IsRun cls run) := by
  unfold IsRun; infer_instance

/-- The class `[\w\d]` of the card token. -/
def isCard (c : Char) : Bool := isWord c || isDigit c

/-- The texts that the expression of `Parse` describes, by their parts: six
numbers of the date and time, the card token, the sign, and the two numbers
of the temperature. -/
def fileNameForm (dd mm yyyy hh mi ss card sign t1 t2 : List Char) : List Char :=
  dd ++ ('-' :: (mm ++ ('-' :: (yyyy ++ ('-' :: '-' :: (hh ++ ('-' :: (mi ++ ('-' :: (ss ++
    ('-' :: '-' :: (card ++ ('-' :: '-' :: (sign ++ (t1 ++ ('.' :: (t2 ++
      ['.', 'j', 'p', 'g'])))))))))))))))))

/-- The text matches the grammar of the file names. -/
def InGrammar (t : List Char) : Prop :=
  ∃ dd mm yyyy hh mi ss card sign t1 t2,
    IsRun isDigit dd ∧ IsRun isDigit mm ∧ IsRun isDigit yyyy ∧ IsRun isDigit hh ∧
    IsRun isDigit mi ∧ IsRun isDigit ss ∧ IsRun isCard card ∧ (sign = [] ∨ sign = ['-']) ∧
    IsRun isDigit t1 ∧ IsRun isDigit t2 ∧
    t = fileNameForm dd mm yyyy hh mi ss card sign t1 t2

/-- The items do not match a text that starts with a character of the class. -/
def Rejects (cls : Char → Bool) (ts : List Tok) : Prop :=
  ∀ y s, cls y = true → matchToks ts (y :: s) = none

/-- The text taken by an item is one that the item describes. -/
def Tok.Takes : Tok → List Char → Prop
  | .chr c, seg => seg = [c]
  | .plus cls, seg => IsRun cls seg
  | .opt c, seg => seg = [] ∨ seg = [c]
  | .groupStart _, seg => seg = []
  | .groupEnd _, seg => seg = []

/-- The texts taken by the items of the expression in a text of the grammar. -/
def formSegs (dd mm yyyy hh mi ss card sign t1 t2 : List Char) : List (List Char) :=
  [[], dd, ['-'], mm, ['-'], yyyy, ['-'], ['-'], hh, ['-'], mi, ['-'], ss, [], ['-'], ['-'],
   [], card, [], ['-'], ['-'], [], sign, [], [], t1, ['.'], t2, [], ['.'], ['j'], ['p'], ['g']]


/-- A date and time written with a two-digit day, month, hour, minute and
second and a four-digit year. -/
structure Stamp where
  d1 : Char
  d2 : Char
  m1 : Char
  m2 : Char
  y1 : Char
  y2 : Char
  y3 : Char
  y4 : Char
  h1 : Char
  h2 : Char
  n1 : Char
  n2 : Char
  s1 : Char
  s2 : Char

/-- The date and time that the digits denote. -/
def Stamp.time (w : Stamp) : DateTime :=
  { year := digitVal w.y1 * 1000 + digitVal w.y2 * 100 + digitVal w.y3 * 10 + digitVal w.y4
    month := digitVal w.m1 * 10 + digitVal w.m2
    day := digitVal w.d1 * 10 + digitVal w.d2
    hour := digitVal w.h1 * 10 + digitVal w.h2
    minute := digitVal w.n1 * 10 + digitVal w.n2
    second := digitVal w.s1 * 10 + digitVal w.s2 }

/-- The fields are those of a date of the calendar and of a time of the day. -/
def DateTime.Valid (t : DateTime) : Prop :=
  1 ≤ t.month ∧ t.month ≤ 12 ∧ 1 ≤ t.day ∧ t.day ≤ daysIn t.month t.year ∧
    t.hour < 24 ∧ t.minute < 60 ∧ t.second < 60

instance (t : DateTime) : Decidable t.Valid := by
  unfold DateTime.Valid; infer_instance

/-- The characters are digits and denote a valid date and time. -/
def Stamp.Valid (w : Stamp) : Prop :=
  (∀ c ∈ [w.d1, w.d2, w.m1, w.m2, w.y1, w.y2, w.y3, w.y4, w.h1, w.h2, w.n1, w.n2, w.s1, w.s2],
    isDigit c = true) ∧ w.time.Valid

instance (w : Stamp) : Decidable w.Valid := by
  unfold Stamp.Valid; infer_instance

/-- The text `DD-MM-YYYY--HH-MM-SS`. -/
def Stamp.text (w : Stamp) : List Char :=
  [w.d1, w.d2] ++ '-' :: ([w.m1, w.m2] ++ '-' :: ([w.y1, w.y2, w.y3, w.y4] ++ '-' :: '-' ::
    ([w.h1, w.h2] ++ '-' :: ([w.n1, w.n2] ++ '-' :: [w.s1, w.s2]))))

/-- The file name `DD-MM-YYYY--HH-MM-SS--card--[-]t1.t2.jpg`. -/
def Stamp.fileName (w : Stamp) (card sign t1 t2 : List Char) : String :=
  String.mk (fileNameForm [w.d1, w.d2] [w.m1, w.m2] [w.y1, w.y2, w.y3, w.y4] [w.h1, w.h2]
    [w.n1, w.n2] [w.s1, w.s2] card sign t1 t2)

/-- The stamp `27-11-2020--12-37-54`. -/
def exampleStamp : Stamp :=
  { d1 := '2', d2 := '7', m1 := '1', m2 := '1', y1 := '2', y2 := '0', y3 := '2', y4 := '0',
    h1 := '1', h2 := '2', n1 := '3', n2 := '7', s1 := '5', s2 := '4' }

/-- The result of `Parse` once the expression has matched and the time is
read: the temperature and the card number remain. -/
def parseRest (fileName : String) (t : DateTime) (g2 g3 g4 : List Char) :
    TermopadFileName × Option GoError :=
  let m := { TermopadFileName.zero with Time := t }
  let temperature : Except GoError F64 :=
    if g3 ≠ [] then .ok (F64.fin 0)
    else
      match ParseFloat32 g4 with
      | (_, some _) => .error "в имени файла не удалось расознать температуту"
      | (temp, none) => .ok temp
  match temperature with
  | .error e => (m, some e)
  | .ok temp =>
    let m := { m with Temperature := temp }
    let r := Atoi g2
    if r.2.isSome ∧ ToLower g2 ≠ "unknown".data then
      (m, some "в имени файла не удалось распознать номер виганда")
    else
      ({ m with Wigand := { ID := toUint r.1 }, FileName := fileName }, none)

/-- No part of the text matches the grammar of the file names. -/
def NoGrammarSubstring (s : List Char) : Prop :=
  ∀ pre mid post : List Char, s = pre ++ mid ++ post → ¬ InGrammar mid

/-- The expression matches in the text and the date and time token of the
match (the first group) is refused by `time.Parse`. -/
def DateTokenInvalid (s : List Char) : Prop :=
  ∃ segs, regexFind fileNameRe s = some segs ∧
    ∃ e, parseTime (groupText 1 false fileNameRe segs) = .error e

/-- The file name of the last `newImage` frame of a sequence of frames. -/
def lastNewImage (frames : List TermopadAction) : Option String :=
  ((frames.filter (fun f => f.Action = "newImage")).getLast?).map (fun f => f.FileName)

/-- The state of the loop of a connection that has just been opened to the
kiosk at `10.0.0.5`. -/
def freshConn : ConnState := { prevousFileName := "", resultChan := [], host := "10.0.0.5" }

/-- A `newImage` frame with the given file name. -/
def newImageFrame (fileName : String) : TermopadAction :=
  { Action := "newImage", Timestamp := "2020-11-27T12:37:54.838079", FileName := fileName,
    Date := "11/27/2020 12:37:54", CardNumber := "1234", Temperature := "36.5" }

/-- A download that always gives the same three bytes. -/
def exampleDownload : String → Option (List Nat) := fun _ => some [255, 216, 255]

/-- A `Sudos` whose outbound queue holds ten lookup requests. -/
def fullSudos : Sudos :=
  { freshSudos with writeChan := List.replicate 10 (lookupRequest { ID := 7 }) }

/-- A configuration that sets the thresholds 38.0 and 35.0. -/
def thresholdConfig : ConfigSudos :=
  { exampleConfig with MaxTemperature := F64.fin 38, MinTemperature := F64.fin 35 }

/-- A reading of 37.7 degrees for card 65538. -/
def warmReading : TemperatureEvent :=
  { Temperature := F64.fin (377 / 10), Wigand := { ID := 65538 }, Image := [] }

/-- A sweep that succeeds. -/
def exampleClean : Int → Option GoError := fun _ => none

/-- A response frame for card 7 with every identity field set. -/
def staffFrame : SudosPersonResponse :=
  { exampleFrame with
    UidRequest := "7", Patronymic := "Ivanovich", Contora := "Plant", SubOtdel := "Shop",
    Profy := "Fitter" }

/-- The local variables of a second call of `Person` for card 7 that has made
channel 1 and found channel 0 waiting. -/
def overlappingCall : PersonCall := { wigand := { ID := 7 }, response := 1, found := some [0] }

/-- A first call for card 7 has sent its request and a second call has done
its lookup when the response arrives (instant 2): the state after the read
task has handled that response. -/
def answeredSudos : Sudos :=
  (((freshSudos.PersonSend 0 { ID := 7 }).1.personLookup 1 { ID := 7 }).1).readMessage 2 1
    (some exampleFrame)

/-- The second call goes on after that response (instant 3) to register its
channel and send its request, the first caller not having taken its value
yet. -/
def overlappedSudos : Sudos :=
  ((answeredSudos.personRegister 3 overlappingCall).1.personWrite overlappingCall).1

/-- The environment of a worker for card 7 next to which another worker for
the same card runs: both did their lookup on the same store, and the other one
(at instant 4000) has stored the fetched record by the time the task of this
one writes. -/
def lateEnv : Env :=
  { exampleEnv 5000 (PersonOutcome.answered exampleFrame.conform) with
    others := fun rows =>
      (exampleManager.temperatureInWorker
        (exampleEnv 4000 (PersonOutcome.answered exampleFrame.conform))
        { exampleDb with persons := rows } (exampleEvent 7)).1.persons }

/-- A sweep that fails. -/
def failingClean : Int → Option GoError := fun _ => some "database is locked"

/-- A controller of one kiosk with the default queue. -/
def exampleTermopad : Termopad := { links := 1, eventCap := 10, eventCapacity := 10 }

/-- The loop of `exampleTermopad` with ten events waiting in the queue. -/
def busyLoop : LoopState :=
  { exampleTermopad.start with event := List.replicate 10 (exampleEvent 7) }

/-- A configuration of a link to a kiosk with the given id, address and name
and nothing else set. -/
def kioskConfig (id : Nat) (url name : String) : ConfigWebsocket :=
  { TermopadInfo :=
      { ID := id, URL := url, SudosID := 0, Name := name, SerialNumber := 0, Description := "" }
    ReconnectTimeout := 0
    DownloadTimeout := 0 }

/-- One day, in nanoseconds. -/
def day : Int := 24 * hour

/-- The store of `exampleDb` with one measurement of card 65538 at kiosk 3,
created at the given instant. -/
def logDb (created : Int) : Db :=
  { exampleDb with
    temperatureLog :=
      [{ ID := 1, CreatedAt := created, UpdatedAt := created, PersonID := 65538, TermopadID := 3,
         Temperature := F64.fin (183 / 5), ImageName := "2020.11.27_12.37.54_65538.jpeg" }] }

/-- A calendar without months: day `d` of "month" `m` of "year" `y` counted in
days from the epoch as `(y * 12 + m) * 31 + d`. -/
def exampleMidnight (y m d : Int) : Int := ((y * 12 + m) * 31 + d) * day

/-- The entry `c` kept under the day `k` sums up the elements of that day in
`l`: it carries the day as its date, its largest and its smallest temperature
are temperatures of elements of that day, and every temperature of that day
lies between them. -/
def Summarises (k : DateTime) (c : TemperatureMetric) (l : List TemperatureMetric) : Prop :=
  c.Date = k ∧
  (∃ v ∈ l, RoundToDate v.Date = k ∧ v.Temperature = c.TemperatureMax) ∧
  (∃ v ∈ l, RoundToDate v.Date = k ∧ v.Temperature = c.TemperatureMin) ∧
  ∀ v ∈ l, RoundToDate v.Date = k →
    F64.ge c.TemperatureMax v.Temperature = true ∧ F64.ge v.Temperature c.TemperatureMin = true

/-- The map `cacheLoc` after the elements of `l`: one entry for each day of
`l`, which sums up the elements of that day. -/
def CompactInv (cacheLoc : List (DateTime × TemperatureMetric)) (l : List TemperatureMetric) :
    Prop :=
  (cacheLoc.map Prod.fst).Nodup ∧
  (∀ k, k ∈ cacheLoc.map Prod.fst ↔ ∃ v ∈ l, RoundToDate v.Date = k) ∧
  ∀ e ∈ cacheLoc, Summarises e.1 e.2 l

/-- A metric of the given day and hour with the given temperature. -/
def metricAt (d h : Nat) (t : ℚ) : TemperatureMetric :=
  { Date := { year := 2020, month := 11, day := d, hour := h, minute := 30, second := 15 }
    Temperature := F64.fin t
    TemperatureMax := F64.fin 0
    TemperatureMin := F64.fin 0
    Image := "x.jpeg"
    Person := examplePerson
    Termopad := (exampleEvent 7).Info }

/-- What `Serve` can have returned: nothing yet, nil (taken from the
cancelled context), or the error kept by the group once both tasks have
returned. -/
def ServeState.Settled (s : ServeState) : Prop :=
  s.result = none ∨ s.result = some none ∨
    (∃ r r2, s.pump = .returned r ∧ s.housekeeper = .returned r2 ∧ s.result = some s.groupErr)
/-! # Theorems -/

/-! ## Card-number codec -/

theorem binFold_nil (a : Nat) : binFold a [] = a := rfl

theorem binFold_cons (a : Nat) (c : Char) (cs : List Char) :
    binFold a (c :: cs) = binFold (a * 2 + (binDigit? c).getD 0) cs := rfl

theorem binFold_append (a : Nat) (xs ys : List Char) :
    binFold a (xs ++ ys) = binFold (binFold a xs) ys := by
  simp [binFold, List.foldl_append]

theorem binFold_shift (a : Nat) (cs : List Char) :
    binFold a cs = a * 2 ^ cs.length + binFold 0 cs := by
  induction cs generalizing a with
  | nil => simp [binFold_nil]
  | cons c cs ih =>
    rw [binFold_cons, ih, binFold_cons, ih (0 * 2 + _)]
    simp only [List.length_cons, pow_succ]
    ring

theorem binFold_zeros (a k : Nat) : binFold a (List.replicate k '0') = a * 2 ^ k := by
  induction k generalizing a with
  | zero => simp [binFold_nil]
  | succ k ih =>
    rw [List.replicate_succ, binFold_cons, ih]
    simp [binDigit?, pow_succ]
    ring

theorem fmtDigit_bin (d : Nat) : fmtDigit d = '0' ∨ fmtDigit d = '1' := by
  unfold fmtDigit; split <;> simp

theorem fmtDigit_val (d : Nat) (h : d < 2) : (binDigit? (fmtDigit d)).getD 0 = d := by
  interval_cases d <;> simp [fmtDigit, binDigit?]

theorem fmtBitsLoop_allBin (fuel u : Nat) (buf : List Char) (hb : AllBin buf) :
    AllBin (fmtBitsLoop fuel u buf) := by
  induction fuel generalizing u buf with
  | zero =>
    intro c hc
    simp only [fmtBitsLoop, List.mem_cons] at hc
    rcases hc with rfl | hc
    · exact fmtDigit_bin u
    · exact hb c hc
  | succ fuel ih =>
    unfold fmtBitsLoop
    split
    · apply ih
      intro c hc
      simp only [List.mem_cons] at hc
      rcases hc with rfl | hc
      · exact fmtDigit_bin _
      · exact hb c hc
    · intro c hc
      simp only [List.mem_cons] at hc
      rcases hc with rfl | hc
      · exact fmtDigit_bin u
      · exact hb c hc

theorem fmtBitsLoop_val (fuel u : Nat) (buf : List Char) (hu : u < 2 ^ (fuel + 1)) :
    binFold 0 (fmtBitsLoop fuel u buf) = u * 2 ^ buf.length + binFold 0 buf := by
  induction fuel generalizing u buf with
  | zero =>
    have hu2 : u < 2 := by simpa using hu
    simp only [fmtBitsLoop, binFold_cons, fmtDigit_val u hu2]
    rw [binFold_shift]; simp
  | succ fuel ih =>
    unfold fmtBitsLoop
    split
    · have h1 : u >>> 1 < 2 ^ (fuel + 1) := by
        rw [Nat.shiftRight_eq_div_pow]
        have : u < 2 ^ (fuel + 1) * 2 := by simpa [pow_succ] using hu
        simp only [pow_one]
        omega
      rw [ih _ _ h1, binFold_cons, binFold_shift]
      have hd : (binDigit? (fmtDigit (u &&& 1))).getD 0 = u % 2 := by
        have : u &&& 1 = u % 2 := by simp
        rw [this]; exact fmtDigit_val _ (Nat.mod_lt _ (by decide))
      rw [hd, Nat.shiftRight_eq_div_pow]
      simp only [List.length_cons, pow_succ, pow_one, pow_zero, one_mul, zero_mul, zero_add]
      generalize 2 ^ buf.length = X
      have h3 : u * X = (2 * (u / 2) + u % 2) * X := by rw [Nat.div_add_mod u 2]
      rw [h3]
      ring
    · have hu2 : u < 2 := by omega
      simp only [binFold_cons, fmtDigit_val u hu2]
      rw [binFold_shift]; simp

theorem fmtBitsLoop_length (fuel u k : Nat) (buf : List Char) (hk : 1 ≤ k) (hu : u < 2 ^ k) :
    (fmtBitsLoop fuel u buf).length ≤ buf.length + k := by
  induction fuel generalizing u k buf with
  | zero => simp [fmtBitsLoop]; omega
  | succ fuel ih =>
    unfold fmtBitsLoop
    split
    · rename_i h2
      have hk2 : 2 ≤ k := by
        by_contra hlt
        have : k = 1 := by omega
        subst this
        simp at hu; omega
      have h1 : u >>> 1 < 2 ^ (k - 1) := by
        rw [Nat.shiftRight_eq_div_pow]
        have : u < 2 ^ (k - 1) * 2 := by
          rw [← pow_succ]; simpa [Nat.sub_add_cancel hk] using hu
        simp only [pow_one]
        omega
      have := ih (u >>> 1) (k - 1) (fmtDigit (u &&& 1) :: buf) (by omega) h1
      simp only [List.length_cons] at this
      omega
    · simp; omega

theorem binFold_ge (a : Nat) (cs : List Char) : a ≤ binFold a cs := by
  rw [binFold_shift]
  have : 1 ≤ 2 ^ cs.length := Nat.one_le_two_pow
  nlinarith

theorem parseUintLoop_exact (maxVal : Nat) (hmax : maxVal < 9223372036854775808)
    (cs : List Char) (n : Nat) (hb : AllBin cs) (hv : binFold n cs ≤ maxVal) :
    parseUintLoop maxVal cs n = (binFold n cs, none) := by
  induction cs generalizing n with
  | nil => simp [parseUintLoop, binFold_nil]
  | cons c cs ih =>
    have hc : c = '0' ∨ c = '1' := hb c (by simp)
    have hcs : AllBin cs := fun x hx => hb x (by simp [hx])
    obtain ⟨d, hd, hd2⟩ : ∃ d, binDigit? c = some d ∧ d < 2 := by
      rcases hc with rfl | rfl
      · exact ⟨0, by simp [binDigit?], by decide⟩
      · exact ⟨1, by simp [binDigit?], by decide⟩
    rw [binFold_cons, hd] at hv
    simp only [Option.getD_some] at hv
    have hge := binFold_ge (n * 2 + d) cs
    have hn : n * 2 + d ≤ maxVal := le_trans hge hv
    have h1 : (n * 2) % uintMod = n * 2 := Nat.mod_eq_of_lt (by unfold uintMod; omega)
    have h2 : (n * 2 + d) % uintMod = n * 2 + d := Nat.mod_eq_of_lt (by unfold uintMod; omega)
    simp only [parseUintLoop, hd, h1, h2]
    rw [if_neg (by omega), if_neg (by omega), ih _ hcs hv, binFold_cons, hd]
    simp

theorem fmtB_allBin (u : Nat) : AllBin (fmtB u) :=
  fmtBitsLoop_allBin 64 u [] (fun _ h => by simp at h)

theorem fmtB_val (u : Nat) (hu : u < uintMod) : binFold 0 (fmtB u) = u := by
  have := fmtBitsLoop_val 64 u [] (by unfold uintMod at hu; norm_num; omega)
  simpa [fmtB, binFold_nil] using this

theorem fmtBitsLoop_length_pos (fuel u : Nat) (buf : List Char) :
    buf.length < (fmtBitsLoop fuel u buf).length := by
  induction fuel generalizing u buf with
  | zero => simp [fmtBitsLoop]
  | succ fuel ih =>
    unfold fmtBitsLoop
    split
    · have := ih (u >>> 1) (fmtDigit (u &&& 1) :: buf)
      simp only [List.length_cons] at this
      omega
    · simp

theorem fmtB_length_le (u k : Nat) (hk : 1 ≤ k) (hu : u < 2 ^ k) : (fmtB u).length ≤ k := by
  simpa [fmtB] using fmtBitsLoop_length 64 u k [] hk hu

theorem fmt016b_length (n : Nat) (hn : n < 65536) : (fmt016b n).length = 16 := by
  have h := fmtB_length_le n 16 (by decide) (by simpa using hn)
  simp only [fmt016b, padZero, List.length_append, List.length_replicate]
  omega

theorem fmt016b_allBin (n : Nat) : AllBin (fmt016b n) := by
  intro c hc
  simp only [fmt016b, padZero, List.mem_append, List.mem_replicate] at hc
  rcases hc with ⟨_, rfl⟩ | hc
  · exact Or.inl rfl
  · exact fmtB_allBin n c hc

theorem fmt016b_val (a n : Nat) (hn : n < 65536) :
    binFold a (fmt016b n) = a * 65536 + n := by
  rw [binFold_shift, fmt016b_length n hn]
  simp only [fmt016b, padZero, binFold_append, binFold_zeros, zero_mul]
  rw [fmtB_val n (by unfold uintMod; omega)]
  norm_num

/-- Value of the text that `Parse` hands to `strconv.ParseUint`. -/
theorem sprintf_val (f n : Nat) (hf : f < 65536) (hn : n < 65536) :
    ParseUint2 (fmtB f ++ fmt016b n) 32 = (f * 65536 + n, none) := by
  have hne : fmtB f ++ fmt016b n ≠ [] := by
    intro h
    have := congrArg List.length h
    simp [fmt016b_length n hn] at this
  have hval : binFold 0 (fmtB f ++ fmt016b n) = f * 65536 + n := by
    rw [binFold_append, fmtB_val f (by unfold uintMod; omega), fmt016b_val f n hn]
  have hall : AllBin (fmtB f ++ fmt016b n) := by
    intro c hc
    rcases List.mem_append.mp hc with h | h
    · exact fmtB_allBin f c h
    · exact fmt016b_allBin n c h
  unfold ParseUint2
  rw [if_neg hne, parseUintLoop_exact _ (by norm_num) _ 0 hall (by rw [hval]; norm_num; omega), hval]

/-- The low sixteen bits, as computed by `x>>16<<16 ^ x`. -/
theorem low16_eq_mod (x : Nat) (hx : x < uintMod) :
    (((x >>> 16) <<< 16) % uintMod) ^^^ x = x % 65536 := by
  have hle : (x >>> 16) <<< 16 ≤ x := by
    rw [Nat.shiftRight_eq_div_pow, Nat.shiftLeft_eq]
    exact Nat.div_mul_le_self x (2 ^ 16)
  rw [Nat.mod_eq_of_lt (lt_of_le_of_lt hle hx)]
  apply Nat.eq_of_testBit_eq
  intro i
  have h16 : (65536 : Nat) = 2 ^ 16 := by norm_num
  rw [h16, Nat.testBit_mod_two_pow, Nat.testBit_xor, Nat.testBit_shiftLeft, Nat.testBit_shiftRight]
  by_cases hi : 16 ≤ i
  · have : ¬ i < 16 := by omega
    simp [hi, this, Nat.add_sub_cancel' hi]
  · have : i < 16 := by omega
    simp [hi, this]

theorem Parse_ID (f n : Nat) (hf : f < 65536) (hn : n < 65536) :
    (Wigand.Parse f n).ID = f * 65536 + n := by
  unfold Wigand.Parse
  split
  · rename_i h
    simp [h.1, h.2]
  · simp [sprintf_val f n hf hn]

theorem parse_eq (x : Nat) (hx : x < uintMod) :
    (Wigand.mk x).parse = (x / 65536, x % 65536) := by
  unfold Wigand.parse
  split
  · rename_i h
    simp only at h
    simp [h]
  · show (x >>> 16, (((x >>> 16) <<< 16) % uintMod) ^^^ x) = _
    rw [low16_eq_mod x hx, Nat.shiftRight_eq_div_pow]

/-! ## The file-name parser -/

theorem matchToks_chr (c : Char) (ts : List Tok) (s : List Char) :
    matchToks (.chr c :: ts) (c :: s) = (matchToks ts s).map (fun segs => [c] :: segs) := by
  simp [matchToks]

theorem matchToks_groupStart (i : Nat) (ts : List Tok) (s : List Char) :
    matchToks (.groupStart i :: ts) s = (matchToks ts s).map (fun segs => [] :: segs) := by
  simp [matchToks]

theorem matchToks_groupEnd (i : Nat) (ts : List Tok) (s : List Char) :
    matchToks (.groupEnd i :: ts) s = (matchToks ts s).map (fun segs => [] :: segs) := by
  simp [matchToks]

theorem Rejects_chr (cls : Char → Bool) (c : Char) (ts : List Tok) (hc : cls c = false) :
    Rejects cls (.chr c :: ts) := by
  intro y s hy
  have hne : y ≠ c := by
    intro h; rw [h, hc] at hy; cases hy
  simp [matchToks, hne]

theorem Rejects_groupEnd (cls : Char → Bool) (i : Nat) (ts : List Tok) (h : Rejects cls ts) :
    Rejects cls (.groupEnd i :: ts) := by
  intro y s hy
  rw [matchToks_groupEnd, h y s hy]; rfl

theorem firstFrom_top {α : Type} (f : Nat → Option α) (n : Nat)
    (h : ∀ k, 0 < k → k ≤ n → f k = none) : firstFrom f (n + 1) = f (n + 1) := by
  have hnone : ∀ m, m ≤ n → firstFrom f m = none := by
    intro m
    induction m with
    | zero => intro _; rfl
    | succ m ih =>
      intro hm
      simp only [firstFrom, h (m + 1) (by omega) hm]
      exact ih (by omega)
  simp only [firstFrom]
  cases hf : f (n + 1) with
  | some r => rfl
  | none => exact hnone n (le_refl n)

theorem takeWhile_run (cls : Char → Bool) (run : List Char) (x : Char) (rest : List Char)
    (hall : ∀ y ∈ run, cls y = true) (hx : cls x = false) :
    (run ++ x :: rest).takeWhile cls = run := by
  induction run with
  | nil => simp [List.takeWhile, hx]
  | cons a run ih =>
    have ha : cls a = true := hall a (by simp)
    simp only [List.cons_append, List.takeWhile_cons, ha, if_true]
    rw [ih (fun y hy => hall y (by simp [hy]))]

/-- A greedy repetition in front of items that need another character takes
the whole run. -/
theorem matchToks_plus (cls : Char → Bool) (ts : List Tok) (run : List Char) (x : Char)
    (rest : List Char) (hr : IsRun cls run) (hx : cls x = false) (hrej : Rejects cls ts) :
    matchToks (.plus cls :: ts) (run ++ x :: rest)
      = (matchToks ts (x :: rest)).map (fun segs => run :: segs) := by
  obtain ⟨hne, hall⟩ := hr
  simp only [matchToks, takeWhile_run cls run x rest hall hx]
  obtain ⟨n, hn⟩ : ∃ n, run.length = n + 1 := by
    cases run with
    | nil => exact absurd rfl hne
    | cons a t => exact ⟨t.length, rfl⟩
  rw [hn, firstFrom_top]
  · have h1 : List.drop (n + 1) (run ++ x :: rest) = x :: rest := by
      rw [← hn]; simp
    have h2 : List.take (n + 1) (run ++ x :: rest) = run := by
      rw [← hn]; simp
    rw [h1, h2]
  · intro k hk0 hkn
    have hlt : k < run.length := by omega
    have hd : List.drop k (run ++ x :: rest) = List.drop k run ++ x :: rest := by
      rw [List.drop_append_of_le_length (le_of_lt hlt)]
    rw [hd]
    cases hdr : List.drop k run with
    | nil =>
      have := List.drop_eq_nil_iff.mp hdr
      omega
    | cons y t =>
      have hy : y ∈ run := List.mem_of_mem_drop (by rw [hdr]; simp)
      simp only [List.cons_append]
      rw [hrej y _ (hall y hy)]
      rfl

theorem matchToks_plus_chr (cls : Char → Bool) (c : Char) (ts : List Tok) (run rest : List Char)
    (hr : IsRun cls run) (hc : cls c = false) :
    matchToks (.plus cls :: .chr c :: ts) (run ++ c :: rest)
      = (matchToks ts rest).map (fun segs => run :: [c] :: segs) := by
  rw [matchToks_plus cls _ run c rest hr hc (Rejects_chr cls c ts hc), matchToks_chr]
  cases matchToks ts rest <;> rfl

theorem matchToks_plus_end_chr (cls : Char → Bool) (i : Nat) (c : Char) (ts : List Tok)
    (run rest : List Char) (hr : IsRun cls run) (hc : cls c = false) :
    matchToks (.plus cls :: .groupEnd i :: .chr c :: ts) (run ++ c :: rest)
      = (matchToks ts rest).map (fun segs => run :: [] :: [c] :: segs) := by
  rw [matchToks_plus cls _ run c rest hr hc (Rejects_groupEnd cls i _ (Rejects_chr cls c ts hc)),
    matchToks_groupEnd, matchToks_chr]
  cases matchToks ts rest <;> rfl

theorem matchToks_opt_take (c : Char) (ts : List Tok) (s : List Char) (r : List (List Char))
    (h : matchToks ts s = some r) :
    matchToks (.opt c :: ts) (c :: s) = some ([c] :: r) := by
  simp [matchToks, h]

theorem matchToks_opt_skip (c x : Char) (ts : List Tok) (s : List Char) (hx : x ≠ c) :
    matchToks (.opt c :: ts) (x :: s) = (matchToks ts (x :: s)).map (fun segs => [] :: segs) := by
  simp [matchToks, hx]

theorem isDigit_dash : isDigit '-' = false := by decide

theorem isDigit_dot : isDigit '.' = false := by decide

theorem isCard_dash : isCard '-' = false := by decide

theorem IsRun.head {cls : Char → Bool} {run : List Char} (h : IsRun cls run) :
    ∃ a t, run = a :: t ∧ cls a = true := by
  obtain ⟨hne, hall⟩ := h
  cases run with
  | nil => exact absurd rfl hne
  | cons a t => exact ⟨a, t, rfl, hall a (by simp)⟩

theorem matchToks_tail (t1 t2 : List Char) (h1 : IsRun isDigit t1) (h2 : IsRun isDigit t2) :
    matchToks [.groupEnd 3, .groupStart 4, .plus isDigit, .chr '.', .plus isDigit, .groupEnd 4,
        .chr '.', .chr 'j', .chr 'p', .chr 'g'] (t1 ++ ('.' :: (t2 ++ ['.', 'j', 'p', 'g'])))
      = some [[], [], t1, ['.'], t2, [], ['.'], ['j'], ['p'], ['g']] := by
  rw [matchToks_groupEnd, matchToks_groupStart, matchToks_plus_chr _ _ _ _ _ h1 isDigit_dot,
    matchToks_plus_end_chr _ _ _ _ _ _ h2 isDigit_dot, matchToks_chr, matchToks_chr, matchToks_chr]
  simp [matchToks]

theorem matchToks_form (dd mm yyyy hh mi ss card sign t1 t2 : List Char)
    (hdd : IsRun isDigit dd) (hmm : IsRun isDigit mm) (hyy : IsRun isDigit yyyy)
    (hhh : IsRun isDigit hh) (hmi : IsRun isDigit mi) (hss : IsRun isDigit ss)
    (hcard : IsRun isCard card) (hsign : sign = [] ∨ sign = ['-'])
    (h1 : IsRun isDigit t1) (h2 : IsRun isDigit t2) :
    matchToks fileNameRe (fileNameForm dd mm yyyy hh mi ss card sign t1 t2)
      = some (formSegs dd mm yyyy hh mi ss card sign t1 t2) := by
  have hopt : matchToks [.opt '-', .groupEnd 3, .groupStart 4, .plus isDigit, .chr '.',
        .plus isDigit, .groupEnd 4, .chr '.', .chr 'j', .chr 'p', .chr 'g']
        (sign ++ (t1 ++ ('.' :: (t2 ++ ['.', 'j', 'p', 'g']))))
      = some [sign, [], [], t1, ['.'], t2, [], ['.'], ['j'], ['p'], ['g']] := by
    rcases hsign with rfl | rfl
    · obtain ⟨a, t, rfl, ha⟩ := h1.head
      have hne : a ≠ '-' := by
        intro h; rw [h] at ha; exact absurd ha (by decide)
      rw [List.nil_append, List.cons_append, matchToks_opt_skip _ _ _ _ hne,
        ← List.cons_append, matchToks_tail _ _ h1 h2]
      rfl
    · exact matchToks_opt_take _ _ _ _ (matchToks_tail _ _ h1 h2)
  have hcard2 : IsRun (fun c => isWord c || isDigit c) card := hcard
  unfold fileNameRe fileNameForm formSegs
  rw [matchToks_groupStart, matchToks_plus_chr _ _ _ _ _ hdd isDigit_dash,
    matchToks_plus_chr _ _ _ _ _ hmm isDigit_dash,
    matchToks_plus_chr _ _ _ _ _ hyy isDigit_dash, matchToks_chr,
    matchToks_plus_chr _ _ _ _ _ hhh isDigit_dash,
    matchToks_plus_chr _ _ _ _ _ hmi isDigit_dash,
    matchToks_plus_end_chr _ _ _ _ _ _ hss isDigit_dash, matchToks_chr, matchToks_groupStart,
    matchToks_plus_end_chr _ _ _ _ _ _ hcard2 isCard_dash, matchToks_chr, matchToks_groupStart,
    hopt]
  rfl

theorem fileNameForm_ne_nil (dd mm yyyy hh mi ss card sign t1 t2 : List Char) :
    fileNameForm dd mm yyyy hh mi ss card sign t1 t2 ≠ [] := by
  unfold fileNameForm
  cases dd <;> simp

theorem regexFind_of_match (re : List Tok) (s : List Char) (segs : List (List Char))
    (h : matchToks re s = some segs) : regexFind re s = some segs := by
  cases s with
  | nil => simpa [regexFind] using h
  | cons x rest => simp [regexFind, h]

/-- Groups of a match of a text of the grammar. -/
theorem FindStringSubmatch_form (dd mm yyyy hh mi ss card sign t1 t2 : List Char)
    (hdd : IsRun isDigit dd) (hmm : IsRun isDigit mm) (hyy : IsRun isDigit yyyy)
    (hhh : IsRun isDigit hh) (hmi : IsRun isDigit mi) (hss : IsRun isDigit ss)
    (hcard : IsRun isCard card) (hsign : sign = [] ∨ sign = ['-'])
    (h1 : IsRun isDigit t1) (h2 : IsRun isDigit t2) :
    FindStringSubmatch fileNameRe 4 (fileNameForm dd mm yyyy hh mi ss card sign t1 t2)
      = [ (formSegs dd mm yyyy hh mi ss card sign t1 t2).flatten,
          dd ++ '-' :: (mm ++ '-' :: (yyyy ++ '-' :: '-' :: (hh ++ '-' :: (mi ++ '-' :: ss)))),
          card, sign, t1 ++ '.' :: t2 ] := by
  unfold FindStringSubmatch
  rw [regexFind_of_match _ _ _
    (matchToks_form dd mm yyyy hh mi ss card sign t1 t2 hdd hmm hyy hhh hmi hss hcard hsign h1 h2)]
  simp [List.range', fileNameRe, formSegs, groupText]

theorem parseTime_stamp (w : Stamp) (h : w.Valid) : parseTime w.text = .ok w.time := by
  obtain ⟨hd, hmo1, hmo2, hd1, hd2, hh, hn, hs⟩ := h
  simp only [List.mem_cons, List.mem_singleton, forall_eq_or_imp, forall_eq, List.not_mem_nil,
    false_implies, and_true, implies_true] at hd
  obtain ⟨a1, a2, a3, a4, a5, a6, a7, a8, a9, a10, a11, a12, a13, a14⟩ := hd
  simp only [Stamp.time] at hmo1 hmo2 hd1 hd2 hh hn hs
  have c1 : ¬ (digitVal w.m1 * 10 + digitVal w.m2 = 0 ∨ 12 < digitVal w.m1 * 10 + digitVal w.m2) := by
    omega
  have c2 : ¬ (24 ≤ digitVal w.h1 * 10 + digitVal w.h2) := by omega
  have c3 : ¬ (60 ≤ digitVal w.n1 * 10 + digitVal w.n2) := by omega
  have c4 : ¬ (60 ≤ digitVal w.s1 * 10 + digitVal w.s2) := by omega
  have c5 : ¬ (digitVal w.d1 * 10 + digitVal w.d2 < 1 ∨
      daysIn (digitVal w.m1 * 10 + digitVal w.m2)
        (digitVal w.y1 * 1000 + digitVal w.y2 * 100 + digitVal w.y3 * 10 + digitVal w.y4)
        < digitVal w.d1 * 10 + digitVal w.d2) := by omega
  simp only [parseTime, Stamp.text, getnum, getyear, skipLit, a1, a2, a3, a4, a5, a6, a7, a8, a9,
    a10, a11, a12, a13, a14, Stamp.time, List.cons_append, List.nil_append, Bool.not_true,
    Bool.false_eq_true, if_false, if_true, Bool.and_self, ne_eq, not_true_eq_false]
  rw [if_neg c1, if_neg c2, if_neg c3, if_neg c4, if_neg c5]

theorem isRun_two (a b : Char) (ha : isDigit a = true) (hb : isDigit b = true) :
    IsRun isDigit [a, b] :=
  ⟨by simp, by intro y hy; simp at hy; rcases hy with rfl | rfl <;> assumption⟩

theorem isRun_four (a b c d : Char) (ha : isDigit a = true) (hb : isDigit b = true)
    (hc : isDigit c = true) (hd : isDigit d = true) : IsRun isDigit [a, b, c, d] :=
  ⟨by simp, by intro y hy; simp at hy; rcases hy with rfl | rfl | rfl | rfl <;> assumption⟩

/-- On a file name of the grammar, `Parse` comes down to its reading of the
time, of the temperature and of the card number. -/
theorem Parse_form (dd mm yyyy hh mi ss card sign t1 t2 : List Char)
    (hdd : IsRun isDigit dd) (hmm : IsRun isDigit mm) (hyy : IsRun isDigit yyyy)
    (hhh : IsRun isDigit hh) (hmi : IsRun isDigit mi) (hss : IsRun isDigit ss)
    (hcard : IsRun isCard card) (hsign : sign = [] ∨ sign = ['-'])
    (h1 : IsRun isDigit t1) (h2 : IsRun isDigit t2) :
    TermopadFileName.Parse (String.mk (fileNameForm dd mm yyyy hh mi ss card sign t1 t2))
      = match parseTime
            (dd ++ '-' :: (mm ++ '-' :: (yyyy ++ '-' :: '-' :: (hh ++ '-' :: (mi ++ '-' :: ss)))))
          with
        | .error _ =>
          (TermopadFileName.zero, some "некорректный формат записи времени в имени файла")
        | .ok t =>
          parseRest (String.mk (fileNameForm dd mm yyyy hh mi ss card sign t1 t2)) t card sign
            (t1 ++ '.' :: t2) := by
  have hf := FindStringSubmatch_form dd mm yyyy hh mi ss card sign t1 t2 hdd hmm hyy hhh hmi hss
    hcard hsign h1 h2
  unfold TermopadFileName.Parse
  simp only [hf]
  rfl

/-- On a file name of the grammar with a valid date and time, `Parse` comes
down to its reading of the temperature and of the card number. -/
theorem Parse_stamp (w : Stamp) (card sign t1 t2 : List Char) (h : w.Valid)
    (hcard : IsRun isCard card) (hsign : sign = [] ∨ sign = ['-'])
    (h1 : IsRun isDigit t1) (h2 : IsRun isDigit t2) :
    TermopadFileName.Parse (w.fileName card sign t1 t2)
      = parseRest (w.fileName card sign t1 t2) w.time card sign (t1 ++ '.' :: t2) := by
  have hd := h.1
  simp only [List.mem_cons, List.mem_singleton, forall_eq_or_imp, forall_eq, List.not_mem_nil,
    false_implies, and_true, implies_true] at hd
  obtain ⟨a1, a2, a3, a4, a5, a6, a7, a8, a9, a10, a11, a12, a13, a14⟩ := hd
  have hf := Parse_form [w.d1, w.d2] [w.m1, w.m2] [w.y1, w.y2, w.y3, w.y4]
    [w.h1, w.h2] [w.n1, w.n2] [w.s1, w.s2] card sign t1 t2 (isRun_two _ _ a1 a2)
    (isRun_two _ _ a3 a4) (isRun_four _ _ _ _ a5 a6 a7 a8) (isRun_two _ _ a9 a10)
    (isRun_two _ _ a11 a12) (isRun_two _ _ a13 a14) hcard hsign h1 h2
  have ht := parseTime_stamp w h
  unfold Stamp.text at ht
  rw [ht] at hf
  exact hf

theorem digit_not_sign (a : Char) (ha : isDigit a = true) : a ≠ '+' ∧ a ≠ '-' := by
  constructor <;> (intro h; rw [h] at ha; exact absurd ha (by decide))

theorem Atoi_unsigned (a : Char) (t : List Char) (h1 : a ≠ '+') (h2 : a ≠ '-') :
    Atoi (a :: t) =
      if ¬ (a :: t).all isDigit = true then (0, some NumError.syntaxErr)
      else if 9223372036854775807 < decimalVal (a :: t) then
        (9223372036854775807, some NumError.rangeErr)
      else ((decimalVal (a :: t) : Int), none) := by
  unfold Atoi
  split
  · rename_i heq; exact absurd (List.cons.inj heq).1 h1
  · rename_i heq; exact absurd (List.cons.inj heq).1 h2
  · simp

/-- A text of digits whose value fits in an `int` is read as that value. -/
theorem Atoi_digits (card : List Char) (h : IsRun isDigit card)
    (hfit : decimalVal card ≤ 9223372036854775807) :
    Atoi card = ((decimalVal card : Int), none) := by
  obtain ⟨a, t, rfl, ha⟩ := h.head
  obtain ⟨n1, n2⟩ := digit_not_sign a ha
  rw [Atoi_unsigned a t n1 n2]
  have hall : (a :: t).all isDigit = true := List.all_eq_true.mpr h.2
  rw [if_neg (by simp [hall]), if_neg (by omega)]

theorem toUint_natCast (n : Nat) (h : n < uintMod) : toUint (n : Int) = n := by
  unfold toUint
  rw [Int.emod_eq_of_lt (by omega) (by exact_mod_cast h)]
  simp

theorem digitVal_le (c : Char) (h : isDigit c = true) : digitVal c ≤ 9 := by
  simp only [isDigit, Bool.and_eq_true, decide_eq_true_eq] at h
  unfold digitVal
  omega

theorem decimalVal_foldl_lt (s : List Char) (h : ∀ y ∈ s, isDigit y = true) (a : Nat) :
    s.foldl (fun a c => a * 10 + digitVal c) a < (a + 1) * 10 ^ s.length := by
  induction s generalizing a with
  | nil => simp
  | cons c t ih =>
    have hc := digitVal_le c (h c (by simp))
    have := ih (fun y hy => h y (by simp [hy])) (a * 10 + digitVal c)
    simp only [List.foldl_cons, List.length_cons]
    calc List.foldl (fun a c => a * 10 + digitVal c) (a * 10 + digitVal c) t
        < (a * 10 + digitVal c + 1) * 10 ^ t.length := this
      _ ≤ ((a + 1) * 10) * 10 ^ t.length := Nat.mul_le_mul_right _ (by omega)
      _ = (a + 1) * 10 ^ (t.length + 1) := by rw [pow_succ]; ring

theorem decimalVal_lt (s : List Char) (h : ∀ y ∈ s, isDigit y = true) :
    decimalVal s < 10 ^ s.length := by
  have := decimalVal_foldl_lt s h 0
  simpa [decimalVal] using this

theorem dropWhile_run (cls : Char → Bool) (run : List Char) (x : Char) (rest : List Char)
    (hall : ∀ y ∈ run, cls y = true) (hx : cls x = false) :
    (run ++ x :: rest).dropWhile cls = x :: rest := by
  induction run with
  | nil => simp [List.dropWhile, hx]
  | cons a run ih =>
    have ha : cls a = true := hall a (by simp)
    simp only [List.cons_append, List.dropWhile_cons, ha, if_true]
    exact ih (fun y hy => hall y (by simp [hy]))

/-- A temperature whose integer part has at most 38 digits is below the range
limit of `float32`, so it is read without an error. -/
theorem ParseFloat32_digits (t1 t2 : List Char) (h1 : IsRun isDigit t1) (h2 : IsRun isDigit t2)
    (hlen : t1.length ≤ 38) :
    ParseFloat32 (t1 ++ '.' :: t2)
      = (F64.fin (nearestFloat32 (decimalVal (t1 ++ t2)) (10 ^ t2.length)), none) := by
  unfold ParseFloat32
  simp only [takeWhile_run isDigit t1 '.' t2 h1.2 isDigit_dot,
    dropWhile_run isDigit t1 '.' t2 h1.2 isDigit_dot]
  have hall : t2.all isDigit = true := List.all_eq_true.mpr h2.2
  rw [if_neg (by simp [h1.1, h2.1, hall])]
  have hlt : decimalVal (t1 ++ t2) < 10 ^ (t1 ++ t2).length :=
    decimalVal_lt _ (by
      intro y hy
      rcases List.mem_append.mp hy with h | h
      · exact h1.2 y h
      · exact h2.2 y h)
  have hpow : 10 ^ (t1 ++ t2).length ≤ 10 ^ 38 * 10 ^ t2.length := by
    rw [List.length_append, pow_add]
    exact Nat.mul_le_mul_right _ (Nat.pow_le_pow_right (by norm_num) hlen)
  have hthr : 10 ^ 38 * 10 ^ t2.length ≤ (2 ^ 128 - 2 ^ 103) * 10 ^ t2.length :=
    Nat.mul_le_mul_right _ (by norm_num)
  rw [if_neg (by omega)]

theorem isCard_of_isDigit (c : Char) (h : isDigit c = true) : isCard c = true := by
  simp [isCard, h]

theorem IsRun.card {run : List Char} (h : IsRun isDigit run) : IsRun isCard run :=
  ⟨h.1, fun y hy => isCard_of_isDigit y (h.2 y hy)⟩

theorem unknown_data : "unknown".data = ['u', 'n', 'k', 'n', 'o', 'w', 'n'] := rfl

theorem toLower_letter (c l : Char) (hl : l ∈ ['u', 'n', 'k', 'n', 'o', 'w', 'n'])
    (h : toLowerChar c = l) : isCard c = true ∧ isDigit c = false := by
  unfold toLowerChar at h
  split at h
  · rename_i hu
    constructor
    · simp [isCard, isWord, hu.1, hu.2]
    · simp only [isDigit, Bool.and_eq_false_iff, decide_eq_false_iff_not]
      omega
  · subst h
    simp only [List.mem_cons, List.mem_singleton, List.not_mem_nil, or_false] at hl
    rcases hl with rfl | rfl | rfl | rfl | rfl | rfl | rfl <;> decide

/-- A card token that is the word `unknown` in some letter case is of the
class of the expression and is not a number. -/
theorem ToLower_unknown (card : List Char) (h : ToLower card = "unknown".data) :
    IsRun isCard card ∧ Atoi card = (0, some NumError.syntaxErr) := by
  rw [unknown_data] at h
  unfold ToLower at h
  have hall : ∀ y ∈ card, isCard y = true ∧ isDigit y = false := by
    intro y hy
    have hm : toLowerChar y ∈ card.map toLowerChar := List.mem_map_of_mem _ hy
    rw [h] at hm
    exact toLower_letter y _ hm rfl
  cases card with
  | nil => simp at h
  | cons a t =>
    have ha := hall a (by simp)
    have n1 : a ≠ '+' := by
      intro e; rw [e] at ha; exact absurd ha.1 (by decide)
    have n2 : a ≠ '-' := by
      intro e; rw [e] at ha; exact absurd ha.1 (by decide)
    refine ⟨⟨by simp, fun y hy => (hall y hy).1⟩, ?_⟩
    rw [Atoi_unsigned a t n1 n2, if_pos]
    simp [ha.2]

/-- A card token that holds a character that is not a digit is not a
number. -/
theorem Atoi_not_digits (card : List Char) (hcard : IsRun isCard card)
    (hnd : ¬ card.all isDigit = true) : (Atoi card).2.isSome = true := by
  obtain ⟨a, t, rfl, ha⟩ := hcard.head
  have n1 : a ≠ '+' := by
    intro e; rw [e] at ha; exact absurd ha (by decide)
  have n2 : a ≠ '-' := by
    intro e; rw [e] at ha; exact absurd ha (by decide)
  rw [Atoi_unsigned a t n1 n2, if_pos hnd]
  rfl

theorem firstFrom_some {α : Type} (f : Nat → Option α) (n : Nat) (r : α)
    (h : firstFrom f n = some r) : ∃ k, 0 < k ∧ k ≤ n ∧ f k = some r := by
  induction n with
  | zero => simp [firstFrom] at h
  | succ n ih =>
    simp only [firstFrom] at h
    cases hf : f (n + 1) with
    | some r1 =>
      rw [hf] at h
      exact ⟨n + 1, by omega, le_refl _, by rw [hf]; exact h⟩
    | none =>
      rw [hf] at h
      obtain ⟨k, hk0, hkn, hk⟩ := ih h
      exact ⟨k, hk0, by omega, hk⟩

theorem take_isRun (cls : Char → Bool) (s : List Char) (k : Nat) (hk0 : 0 < k)
    (hk : k ≤ (s.takeWhile cls).length) : IsRun cls (s.take k) := by
  have hs : s.take k = (s.takeWhile cls).take k := by
    conv_lhs => rw [← List.takeWhile_append_dropWhile cls s]
    exact List.take_append_of_le_length hk
  constructor
  · intro hnil
    have hlen : (s.take k).length = k := by
      rw [hs, List.length_take]; omega
    rw [hnil] at hlen
    simp at hlen
    omega
  · intro y hy
    rw [hs] at hy
    exact List.mem_takeWhile_imp (List.mem_of_mem_take hy)

/-- What `matchToks` returns are texts that the items describe, in the order
of the items, and they make up the start of the text. -/
theorem matchToks_sound (ts : List Tok) : ∀ (s : List Char) (segs : List (List Char)),
    matchToks ts s = some segs →
      List.Forall₂ Tok.Takes ts segs ∧ ∃ rest, s = segs.flatten ++ rest := by
  induction ts with
  | nil =>
    intro s segs h
    simp only [matchToks, Option.some.injEq] at h
    subst h
    exact ⟨List.Forall₂.nil, s, by simp⟩
  | cons t ts ih =>
    intro s segs h
    cases t with
    | chr c =>
      cases s with
      | nil => simp [matchToks] at h
      | cons x rest =>
        simp only [matchToks] at h
        split at h
        · rename_i hx
          obtain ⟨segs1, h1, rfl⟩ := Option.map_eq_some'.mp h
          obtain ⟨hall, r, hr⟩ := ih rest segs1 h1
          exact ⟨List.Forall₂.cons rfl hall, r, by simp [hx, hr]⟩
        · cases h
    | plus cls =>
      simp only [matchToks] at h
      obtain ⟨k, hk0, hkn, hk⟩ := firstFrom_some _ _ _ h
      obtain ⟨segs1, h1, rfl⟩ := Option.map_eq_some'.mp hk
      obtain ⟨hall, r, hr⟩ := ih _ segs1 h1
      refine ⟨List.Forall₂.cons (take_isRun cls s k hk0 hkn) hall, r, ?_⟩
      simp only [List.flatten_cons, List.append_assoc]
      rw [← hr, List.take_append_drop]
    | opt c =>
      simp only [matchToks] at h
      split at h
      · rename_i r1 heq
        simp only [Option.some.injEq] at h
        subst h
        cases s with
        | nil => simp at heq
        | cons x rest =>
          simp only at heq
          split at heq
          · rename_i hx
            obtain ⟨segs1, h1, rfl⟩ := Option.map_eq_some'.mp heq
            obtain ⟨hall, r, hr⟩ := ih rest segs1 h1
            exact ⟨List.Forall₂.cons (Or.inr rfl) hall, r, by simp [hx, hr]⟩
          · cases heq
      · obtain ⟨segs1, h1, rfl⟩ := Option.map_eq_some'.mp h
        obtain ⟨hall, r, hr⟩ := ih s segs1 h1
        exact ⟨List.Forall₂.cons (Or.inl rfl) hall, r, by simp [hr]⟩
    | groupStart i =>
      simp only [matchToks] at h
      obtain ⟨segs1, h1, rfl⟩ := Option.map_eq_some'.mp h
      obtain ⟨hall, r, hr⟩ := ih s segs1 h1
      exact ⟨List.Forall₂.cons rfl hall, r, by simp [hr]⟩
    | groupEnd i =>
      simp only [matchToks] at h
      obtain ⟨segs1, h1, rfl⟩ := Option.map_eq_some'.mp h
      obtain ⟨hall, r, hr⟩ := ih s segs1 h1
      exact ⟨List.Forall₂.cons rfl hall, r, by simp [hr]⟩

theorem regexFind_sound (re : List Tok) : ∀ (s : List Char) (segs : List (List Char)),
    regexFind re s = some segs → ∃ pre suf, s = pre ++ suf ∧ matchToks re suf = some segs := by
  intro s
  induction s with
  | nil =>
    intro segs h
    exact ⟨[], [], rfl, by simpa [regexFind] using h⟩
  | cons x rest ih =>
    intro segs h
    simp only [regexFind] at h
    cases hm : matchToks re (x :: rest) with
    | some r =>
      rw [hm] at h
      simp only [Option.some.injEq] at h
      subst h
      exact ⟨[], x :: rest, rfl, hm⟩
    | none =>
      rw [hm] at h
      obtain ⟨pre, suf, hs, hsuf⟩ := ih segs h
      exact ⟨x :: pre, suf, by simp [hs], hsuf⟩

/-- The texts taken by the items of the expression of `Parse` make up a text
of the grammar of the file names. -/
theorem fileNameRe_takes (segs : List (List Char))
    (h : List.Forall₂ Tok.Takes fileNameRe segs) : InGrammar segs.flatten := by
  simp only [fileNameRe, List.forall₂_cons_left_iff, List.forall₂_nil_left_iff, Tok.Takes] at h
  obtain ⟨_, _, rfl, ⟨dd, _, hdd, ⟨_, _, rfl, ⟨mm, _, hmm, ⟨_, _, rfl, ⟨yyyy, _, hyyyy, ⟨_, _, rfl,
    ⟨_, _, rfl, ⟨hh, _, hhh, ⟨_, _, rfl, ⟨mi, _, hmi, ⟨_, _, rfl, ⟨ss, _, hss, ⟨_, _, rfl, ⟨_,
    _, rfl, ⟨_, _, rfl, ⟨_, _, rfl, ⟨card, _, hcard, ⟨_, _, rfl, ⟨_, _, rfl, ⟨_, _, rfl, ⟨_, _,
    rfl, ⟨sign, _, hsign, ⟨_, _, rfl, ⟨_, _, rfl, ⟨t1, _, ht1, ⟨_, _, rfl, ⟨t2, _, ht2, ⟨_, _,
    rfl, ⟨_, _, rfl, ⟨_, _, rfl, ⟨_, _, rfl, ⟨_, _, rfl, rfl, rfl⟩, rfl⟩, rfl⟩, rfl⟩, rfl⟩,
    rfl⟩, rfl⟩, rfl⟩, rfl⟩, rfl⟩, rfl⟩, rfl⟩, rfl⟩, rfl⟩, rfl⟩, rfl⟩, rfl⟩, rfl⟩, rfl⟩, rfl⟩,
    rfl⟩, rfl⟩, rfl⟩, rfl⟩, rfl⟩, rfl⟩, rfl⟩, rfl⟩, rfl⟩, rfl⟩, rfl⟩, rfl⟩, rfl⟩ := h
  exact ⟨dd, mm, yyyy, hh, mi, ss, card, sign, t1, t2, hdd, hmm, hyyyy, hhh, hmi, hss, hcard, hsign,
    ht1, ht2, by simp [fileNameForm]⟩

/-- A match of the expression of `Parse` is a part of the text that is of the
grammar of the file names. -/
theorem regexFind_grammar (s : List Char) (segs : List (List Char))
    (h : regexFind fileNameRe s = some segs) :
    ∃ pre post, s = pre ++ segs.flatten ++ post ∧ InGrammar segs.flatten := by
  obtain ⟨pre, suf, hs, hm⟩ := regexFind_sound fileNameRe s segs h
  obtain ⟨hall, rest, hr⟩ := matchToks_sound fileNameRe suf segs hm
  exact ⟨pre, rest, by rw [hs, hr, List.append_assoc], fileNameRe_takes segs hall⟩

theorem regexFind_none_of_noGrammar (s : List Char) (h : NoGrammarSubstring s) :
    regexFind fileNameRe s = none := by
  cases hr : regexFind fileNameRe s with
  | none => rfl
  | some segs =>
    obtain ⟨pre, post, hs, hg⟩ := regexFind_grammar s segs hr
    exact absurd hg (h pre _ post hs)

/-- A file name that holds no part of the grammar is refused as unrecognised. -/
theorem Parse_error_of_noGrammar (fileName : String) (h : NoGrammarSubstring fileName.data) :
    TermopadFileName.Parse fileName
      = (TermopadFileName.zero, some "формат имени файла не распознан") := by
  unfold TermopadFileName.Parse FindStringSubmatch
  rw [regexFind_none_of_noGrammar _ h]

theorem Parse_error_of_dateToken (fileName : String) (h : DateTokenInvalid fileName.data) :
    TermopadFileName.Parse fileName
      = (TermopadFileName.zero, some "некорректный формат записи времени в имени файла") := by
  obtain ⟨segs, hr, e, he⟩ := h
  unfold TermopadFileName.Parse FindStringSubmatch
  rw [hr]
  simp only [List.range', List.map_cons, List.map_nil, he]

theorem InGrammar_dashes (t : List Char) (h : InGrammar t) : 10 ≤ t.count '-' := by
  obtain ⟨dd, mm, yyyy, hh, mi, ss, card, sign, t1, t2, -, -, -, -, -, -, -, -, -, -, rfl⟩ := h
  simp only [fileNameForm, List.count_append, List.count_cons_self, List.count_cons]
  omega

/-- A text with fewer than ten hyphens holds no part of the grammar. -/
theorem noGrammar_of_dashes (s : List Char) (h : s.count '-' < 10) : NoGrammarSubstring s := by
  intro pre mid post hs hg
  have := InGrammar_dashes mid hg
  rw [hs] at h
  simp only [List.count_append] at h
  omega

/-! ## The loop of the connection to a kiosk -/

/-- The body of the loop for a decoded message, with its cases side by
side. -/
theorem handleMessage_some (download : String → Option (List Nat)) (st : ConnState)
    (msg : TermopadAction) :
    handleMessage download st (some msg) =
      if msg.Validate = none ∧ msg.Action = "newImage" ∧ msg.FileName ≠ st.prevousFileName then
        if (TermopadFileName.Parse msg.FileName).2 = none then
          match download (imageUrl st.host msg.FileName) with
          | none => { st with prevousFileName := msg.FileName }
          | some content =>
            if st.resultChan.length < MaximumResultChan then
              { prevousFileName := msg.FileName
                resultChan := st.resultChan ++
                  [{ Temperature := (TermopadFileName.Parse msg.FileName).1.Temperature
                     Wigand := (TermopadFileName.Parse msg.FileName).1.Wigand
                     Image := content }]
                host := st.host }
            else { st with prevousFileName := msg.FileName }
        else { st with prevousFileName := msg.FileName }
      else st := by
  simp only [handleMessage]
  cases hv : msg.Validate with
  | some e => simp
  | none =>
    by_cases hc : msg.Action = "newImage" ∧ msg.FileName ≠ st.prevousFileName
    · rw [if_pos hc, if_pos ⟨rfl, hc⟩]
      cases hp : (TermopadFileName.Parse msg.FileName).2 with
      | some e => simp
      | none =>
        simp only [if_true]
    · rw [if_neg hc, if_neg (fun h => hc h.2)]

theorem handleMessage_other (download : String → Option (List Nat)) (st : ConnState)
    (msg : TermopadAction) (hact : msg.Action ≠ "newImage") :
    handleMessage download st (some msg) = st := by
  rw [handleMessage_some, if_neg (fun h => hact h.2.1)]

theorem handleMessage_same (download : String → Option (List Nat)) (st : ConnState)
    (msg : TermopadAction) (hname : msg.FileName = st.prevousFileName) :
    handleMessage download st (some msg) = st := by
  rw [handleMessage_some, if_neg (fun h => h.2.2 hname)]

theorem handleMessage_prev (download : String → Option (List Nat)) (st : ConnState)
    (msg : TermopadAction) (hvalid : msg.Validate = none) (hact : msg.Action = "newImage") :
    (handleMessage download st (some msg)).prevousFileName = msg.FileName := by
  by_cases hname : msg.FileName = st.prevousFileName
  · rw [handleMessage_same download st msg hname, hname]
  · rw [handleMessage_some, if_pos ⟨hvalid, hact, hname⟩]
    repeat' split
    all_goals rfl

/-- One frame puts at most one event in the queue. -/
theorem handleMessage_chan (download : String → Option (List Nat)) (st : ConnState)
    (decoded : Option TermopadAction) :
    (handleMessage download st decoded).resultChan = st.resultChan ∨
      ∃ e, (handleMessage download st decoded).resultChan = st.resultChan ++ [e] := by
  cases decoded with
  | none => exact Or.inl rfl
  | some msg =>
    rw [handleMessage_some]
    repeat' split
    all_goals first
      | exact Or.inl rfl
      | exact Or.inr ⟨_, rfl⟩

/-- A frame whose file name is refused by `Parse` puts nothing in the queue. -/
theorem handleMessage_unparsable (download : String → Option (List Nat)) (st : ConnState)
    (msg : TermopadAction) (herr : (TermopadFileName.Parse msg.FileName).2 ≠ none) :
    (handleMessage download st (some msg)).resultChan = st.resultChan := by
  rw [handleMessage_some, if_neg herr]
  split <;> rfl

/-- A new file name that is parsed and downloaded, with room in the queue,
puts its event in the queue. -/
theorem handleMessage_enqueues (download : String → Option (List Nat)) (st : ConnState)
    (msg : TermopadAction) (content : List Nat) (hvalid : msg.Validate = none)
    (hact : msg.Action = "newImage") (hname : msg.FileName ≠ st.prevousFileName)
    (hparse : (TermopadFileName.Parse msg.FileName).2 = none)
    (hdown : download (imageUrl st.host msg.FileName) = some content)
    (hroom : st.resultChan.length < MaximumResultChan) :
    (handleMessage download st (some msg)).resultChan = st.resultChan ++
      [{ Temperature := (TermopadFileName.Parse msg.FileName).1.Temperature
         Wigand := (TermopadFileName.Parse msg.FileName).1.Wigand
         Image := content }] := by
  rw [handleMessage_some, if_pos ⟨hvalid, hact, hname⟩, if_pos hparse]
  simp only [hdown]
  rw [if_pos hroom]

theorem handleMessages_append (download : String → Option (List Nat)) (st : ConnState)
    (l : List (Option TermopadAction)) (a : Option TermopadAction) :
    handleMessages download st (l ++ [a])
      = handleMessage download (handleMessages download st l) a := by
  simp [handleMessages, List.foldl_append]

theorem lastNewImage_append (l : List TermopadAction) (a : TermopadAction) :
    lastNewImage (l ++ [a])
      = if a.Action = "newImage" then some a.FileName else lastNewImage l := by
  unfold lastNewImage
  by_cases h : a.Action = "newImage"
  · simp [List.filter_append, List.filter_cons, h]
  · simp [List.filter_append, List.filter_cons, h]

/-- After a sequence of valid frames the loop remembers the file name of the
last `newImage` frame. -/
theorem handleMessages_prev (download : String → Option (List Nat)) (st : ConnState)
    (frames : List TermopadAction) (name : String)
    (hvalid : ∀ f ∈ frames, f.Validate = none) (hlast : lastNewImage frames = some name) :
    (handleMessages download st (frames.map some)).prevousFileName = name := by
  induction frames using List.reverseRecOn generalizing name with
  | nil => simp [lastNewImage] at hlast
  | append_singleton l a ih =>
    rw [List.map_append, List.map_singleton, handleMessages_append]
    rw [lastNewImage_append] at hlast
    by_cases h : a.Action = "newImage"
    · rw [if_pos h] at hlast
      rw [handleMessage_prev download _ a (hvalid a (by simp)) h]
      exact Option.some.inj hlast
    · rw [if_neg h] at hlast
      rw [handleMessage_other download _ a h]
      exact ih name (fun f hf => hvalid f (by simp [hf])) hlast

/-- A run of frames with one file name does what its first frame does. -/
theorem handleMessages_replicate (download : String → Option (List Nat)) (st : ConnState)
    (msg : TermopadAction) (hvalid : msg.Validate = none) (hact : msg.Action = "newImage")
    (k : Nat) :
    handleMessages download st (List.replicate (k + 1) (some msg))
      = handleMessage download st (some msg) := by
  induction k with
  | zero => simp [handleMessages]
  | succ k ih =>
    rw [List.replicate_succ', handleMessages_append, ih]
    exact handleMessage_same download _ msg (handleMessage_prev download st msg hvalid hact).symm

/-! ## The registry link -/

theorem NewSudos_example : NewSudos exampleScheme (some exampleConfig) = .ok freshSudos := rfl

theorem F64.not_ge_of_lt (a b : F64) (h : F64.lt a b = true) : F64.ge a b = false := by
  cases a <;> cases b <;> simp_all [F64.lt, F64.ge]

theorem F64.lt_of_not_ge (a b c : F64) (hb : b ≠ F64.nan) (hc : F64.lt a c = true)
    (h : F64.ge a b = false) : F64.lt a b = true := by
  cases a <;> cases b <;> cases c <;> simp_all [F64.lt, F64.ge]

theorem temperatureRequest_message (m : Sudos) (sprintf : String → F64 → String)
    (person : Person) (temperature : TemperatureEvent) (termopad : TermopadInfo) :
    ((m.temperatureRequest sprintf person temperature termopad).Message,
      (m.temperatureRequest sprintf person temperature termopad).AlarmStatus)
      = m.temperatureMessage sprintf temperature.Temperature := rfl

/-! ### Channels and the fan-out -/

theorem chanSend_get_self (cs : List (List SudosPersonResponse)) (c : Nat)
    (v : SudosPersonResponse) (h : cs.get? c = some []) :
    (chanSend cs c v).1.get? c = some [v] := by
  have hlt : c < cs.length := by
    rcases Nat.lt_or_ge c cs.length with h1 | h1
    · exact h1
    · rw [List.get?_eq_none.mpr h1] at h; cases h
  have h2 : cs[c]? = some [] := by simpa using h
  simp [chanSend, h2, List.getElem?_set_self hlt]

theorem chanSend_get_full (cs : List (List SudosPersonResponse)) (c : Nat)
    (v w : SudosPersonResponse) (h : cs.get? c = some [w]) :
    (chanSend cs c v).1 = cs := by
  have h2 : cs[c]? = some [w] := by simpa using h
  simp [chanSend, h2]

theorem chanSend_get_other (cs : List (List SudosPersonResponse)) (c c2 : Nat)
    (v : SudosPersonResponse) (h : c ≠ c2) :
    (chanSend cs c v).1.get? c2 = cs.get? c2 := by
  unfold chanSend
  split
  · rfl
  · split
    · simp [List.getElem?_set_ne h]
    · rfl

theorem chanSend_keeps (cs : List (List SudosPersonResponse)) (c c2 : Nat)
    (v : SudosPersonResponse) (h : cs.get? c2 = some [v]) :
    (chanSend cs c v).1.get? c2 = some [v] := by
  by_cases hc : c = c2
  · subst hc
    rw [chanSend_get_full cs c v v h]; exact h
  · rw [chanSend_get_other cs c c2 v hc]; exact h

theorem fanOut_keeps (channels : List Nat) (cs : List (List SudosPersonResponse)) (c2 : Nat)
    (v : SudosPersonResponse) (h : cs.get? c2 = some [v]) :
    (fanOut cs channels v).get? c2 = some [v] := by
  induction channels generalizing cs with
  | nil => exact h
  | cons c rest ih =>
    simp only [fanOut, List.foldl_cons]
    exact ih _ (chanSend_keeps cs c c2 v h)

theorem fanOut_other (channels : List Nat) (cs : List (List SudosPersonResponse)) (c2 : Nat)
    (v : SudosPersonResponse) (h : c2 ∉ channels) :
    (fanOut cs channels v).get? c2 = cs.get? c2 := by
  induction channels generalizing cs with
  | nil => rfl
  | cons c rest ih =>
    simp only [fanOut, List.foldl_cons]
    have hc : c ≠ c2 := fun e => h (by simp [e])
    have hr : c2 ∉ rest := fun e => h (by simp [e])
    have := ih (chanSend cs c v).1 hr
    simp only [fanOut] at this
    rw [this, chanSend_get_other cs c c2 v hc]

theorem fanOut_delivers (channels : List Nat) (cs : List (List SudosPersonResponse))
    (v : SudosPersonResponse)
    (h : ∀ c ∈ channels, cs.get? c = some [] ∨ cs.get? c = some [v]) :
    ∀ c ∈ channels, (fanOut cs channels v).get? c = some [v] := by
  induction channels generalizing cs with
  | nil => intro c hc; cases hc
  | cons c0 rest ih =>
    intro c hc
    have h0 : (chanSend cs c0 v).1.get? c0 = some [v] := by
      rcases h c0 (by simp) with h1 | h1
      · exact chanSend_get_self cs c0 v h1
      · exact chanSend_keeps cs c0 c0 v h1
    have hrest : ∀ c ∈ rest, (chanSend cs c0 v).1.get? c = some [] ∨
        (chanSend cs c0 v).1.get? c = some [v] := by
      intro c1 hc1
      by_cases e : c0 = c1
      · subst e; exact Or.inr h0
      · rw [chanSend_get_other cs c0 c1 v e]; exact h c1 (by simp [hc1])
    simp only [fanOut, List.foldl_cons]
    rcases List.mem_cons.mp hc with rfl | hc
    · exact fanOut_keeps rest _ c v h0
    · exact ih _ hrest c hc

theorem chanSend_get_busy (cs : List (List SudosPersonResponse)) (c : Nat)
    (v : SudosPersonResponse) (buf : List SudosPersonResponse) (hbuf : buf ≠ [])
    (h : cs.get? c = some buf) : (chanSend cs c v).1 = cs := by
  have h2 : cs[c]? = some buf := by simpa using h
  have hlen : ¬ buf.length < 1 := by
    cases buf with
    | nil => exact absurd rfl hbuf
    | cons x xs => simp
  simp [chanSend, h2, hlen]

theorem fanOut_skips (channels : List Nat) (cs : List (List SudosPersonResponse)) (c2 : Nat)
    (v : SudosPersonResponse) (buf : List SudosPersonResponse) (hbuf : buf ≠ [])
    (h : cs.get? c2 = some buf) : (fanOut cs channels v).get? c2 = some buf := by
  induction channels generalizing cs with
  | nil => exact h
  | cons c rest ih =>
    simp only [fanOut, List.foldl_cons]
    apply ih
    by_cases hc : c = c2
    · subst hc
      rw [chanSend_get_busy cs c v buf hbuf h]; exact h
    · rw [chanSend_get_other cs c c2 v hc]; exact h

theorem fanOut_fills (channels : List Nat) (cs : List (List SudosPersonResponse))
    (v : SudosPersonResponse) (c : Nat) (hc : c ∈ channels) (h : cs.get? c = some []) :
    (fanOut cs channels v).get? c = some [v] := by
  induction channels generalizing cs with
  | nil => cases hc
  | cons c0 rest ih =>
    simp only [fanOut, List.foldl_cons]
    by_cases e : c0 = c
    · subst e
      exact fanOut_keeps rest _ c0 v (chanSend_get_self cs c0 v h)
    · rcases List.mem_cons.mp hc with rfl | hc
      · exact absurd rfl e
      · apply ih _ hc
        rw [chanSend_get_other cs c0 c v e]; exact h

/-! ### The pending table -/

theorem lookup_mem (c : Cache) (k : String) (item : Item) (h : c.lookup k = some item) :
    (k, item) ∈ c := by
  induction c with
  | nil => simp at h
  | cons e rest ih =>
    obtain ⟨k2, i2⟩ := e
    simp only [List.lookup_cons] at h
    split at h
    · rename_i heq
      have : k = k2 := by simpa using heq
      cases h
      simp [this]
    · exact List.mem_cons_of_mem _ (ih h)

theorem Get_mem (c : Cache) (now : Int) (k : String) (channels : List Nat)
    (h : Cache.Get c now k = some channels) : ∃ item, (k, item) ∈ c ∧ item.Object = channels := by
  unfold Cache.Get at h
  split at h
  · cases h
  · rename_i item hl
    split at h
    · cases h
    · exact ⟨item, lookup_mem c k item hl, by simpa using h⟩

theorem lookup_Delete (c : Cache) (k : String) : (Cache.Delete c k).lookup k = none := by
  induction c with
  | nil => rfl
  | cons e rest ih =>
    obtain ⟨k2, i2⟩ := e
    simp only [Cache.Delete, List.filter_cons]
    split
    · rename_i hne
      have hne2 : k2 ≠ k := by simpa using hne
      have hb : (k == k2) = false := by
        simp only [beq_eq_false_iff_ne, ne_eq]
        exact fun h => hne2 h.symm
      simp only [List.lookup_cons, hb]
      exact ih
    · exact ih

theorem Get_Delete (c : Cache) (now : Int) (k : String) :
    Cache.Get (Cache.Delete c k) now k = none := by
  simp [Cache.Get, lookup_Delete]

theorem mem_Delete (c : Cache) (k : String) (e : String × Item) (h : e ∈ Cache.Delete c k) :
    e ∈ c ∧ e.1 ≠ k := by
  simpa [Cache.Delete] using h

theorem mem_Set (c : Cache) (now : Int) (d : Int) (k : String) (x : List Nat)
    (e : String × Item) (h : e ∈ Cache.Set c now d k x) :
    (e.1 = k ∧ e.2.Object = x) ∨ (e ∈ c ∧ e.1 ≠ k) := by
  simp only [Cache.Set, List.mem_cons, List.mem_filter, bne_iff_ne, ne_eq] at h
  rcases h with rfl | h
  · exact Or.inl ⟨rfl, rfl⟩
  · exact Or.inr h

/-! ### The invariant of the pending table -/

theorem Inv_congr (m m2 : Sudos) (hc : m2.cache = m.cache) (hs : m2.chans = m.chans)
    (h : m.Inv) : m2.Inv := by
  unfold Sudos.Inv Sudos.WaitersEmpty Sudos.WaitersApart at *
  rw [hc, hs]; exact h

theorem get?_append_new (cs : List (List SudosPersonResponse)) (c : Nat)
    (h : cs.get? c = some []) : (cs ++ [[]]).get? c = some [] := by
  have hlt : c < cs.length := by
    rcases Nat.lt_or_ge c cs.length with h1 | h1
    · exact h1
    · rw [List.get?_eq_none.mpr h1] at h; cases h
  have h2 : cs[c]? = some [] := by simpa using h
  simp [List.getElem?_append_left hlt, h2]

theorem Inv_register (m : Sudos) (now : Int) (d : Int) (key : String) (old : List Nat)
    (h : m.Inv) (hold : ∀ c ∈ old, ∃ item, (key, item) ∈ m.cache ∧ c ∈ item.Object)
    (m2 : Sudos) (hs : m2.chans = m.chans ++ [[]])
    (hc : m2.cache = Cache.Set m.cache now d key (old ++ [m.chans.length])) : m2.Inv := by
  obtain ⟨hE, hA⟩ := h
  have hnew : ∀ e ∈ m.cache, m.chans.length ∉ e.2.Object := by
    intro e he hmem
    have := hE e he _ hmem
    rw [List.get?_eq_none.mpr (le_refl _)] at this
    cases this
  constructor
  · intro e he c hcm
    rw [hs]
    rw [hc] at he
    rcases mem_Set _ _ _ _ _ _ he with ⟨_, hobj⟩ | ⟨hmem, _⟩
    · rw [hobj] at hcm
      rcases List.mem_append.mp hcm with h1 | h1
      · obtain ⟨item, hi, hci⟩ := hold c h1
        exact get?_append_new _ _ (hE _ hi c hci)
      · have : c = m.chans.length := by simpa using h1
        subst this
        simp
    · exact get?_append_new _ _ (hE e hmem c hcm)
  · intro e he e2 he2 c hc1 hc2
    rw [hc] at he he2
    rcases mem_Set _ _ _ _ _ _ he with ⟨hk, hobj⟩ | ⟨hmem, hne⟩
    · rcases mem_Set _ _ _ _ _ _ he2 with ⟨hk2, _⟩ | ⟨hmem2, hne2⟩
      · rw [hk, hk2]
      · rw [hobj] at hc1
        rcases List.mem_append.mp hc1 with h1 | h1
        · obtain ⟨item, hi, hci⟩ := hold c h1
          have := hA _ hi _ hmem2 c hci hc2
          rw [hk]; exact this
        · have : c = m.chans.length := by simpa using h1
          subst this
          exact absurd hc2 (hnew e2 hmem2)
    · rcases mem_Set _ _ _ _ _ _ he2 with ⟨hk2, hobj2⟩ | ⟨hmem2, _⟩
      · rw [hobj2] at hc2
        rcases List.mem_append.mp hc2 with h1 | h1
        · obtain ⟨item, hi, hci⟩ := hold c h1
          have := hA _ hmem _ hi c hc1 hci
          rw [hk2]; exact this
        · have : c = m.chans.length := by simpa using h1
          subst this
          exact absurd hc1 (hnew e hmem)
      · exact hA e hmem e2 hmem2 c hc1 hc2

theorem Inv_append (m : Sudos) (h : m.Inv) (m2 : Sudos) (hs : m2.chans = m.chans ++ [[]])
    (hc : m2.cache = m.cache) : m2.Inv := by
  obtain ⟨hE, hA⟩ := h
  constructor
  · intro e he c hcm
    rw [hs]; rw [hc] at he
    exact get?_append_new _ _ (hE e he c hcm)
  · intro e he e2 he2 c hc1 hc2
    rw [hc] at he he2
    exact hA e he e2 he2 c hc1 hc2

theorem Inv_PersonSend (m : Sudos) (now : Int) (wigand : Wigand) (h : m.Inv) :
    (m.PersonSend now wigand).1.Inv := by
  unfold Sudos.PersonSend
  split
  · exact h
  · simp only []
    cases hg : Cache.Get m.cache now (Sudos.key wigand) with
    | some channels =>
      simp only []
      have hold : ∀ c ∈ channels, ∃ item, (Sudos.key wigand, item) ∈ m.cache ∧ c ∈ item.Object := by
        intro c hcm
        obtain ⟨item, hi, ho⟩ := Get_mem _ _ _ _ hg
        exact ⟨item, hi, by rw [ho]; exact hcm⟩
      split <;> exact Inv_register m now cacheExpiration _ channels h hold _ rfl rfl
    | none =>
      simp only [Cache.Add, hg]
      have hold : ∀ c ∈ ([] : List Nat), ∃ item, (Sudos.key wigand, item) ∈ m.cache ∧
          c ∈ item.Object := by
        intro c hcm; cases hcm
      split <;> exact Inv_register m now cacheExpiration _ [] h hold _ rfl rfl

theorem Inv_readMessage (m : Sudos) (now : Int) (tpe : Nat)
    (decoded : Option SudosPersonResponse) (h : m.Inv) : (m.readMessage now tpe decoded).Inv := by
  unfold Sudos.readMessage
  split
  · exact h
  · split
    · exact h
    · rename_i person
      simp only []
      split
      · exact h
      · split
        · rename_i channels hg
          obtain ⟨item, hi, ho⟩ := Get_mem _ _ _ _ hg
          obtain ⟨hE, hA⟩ := h
          constructor
          · intro e he c hcm
            obtain ⟨hmem, hne⟩ := mem_Delete _ _ _ he
            have hnot : c ∉ channels := by
              intro hin
              rw [← ho] at hin
              exact hne (hA e hmem _ hi c hcm hin)
            show (fanOut m.chans channels person.conform).get? c = some []
            rw [fanOut_other channels m.chans c _ hnot]
            exact hE e hmem c hcm
          · intro e he e2 he2 c hc1 hc2
            exact hA e (mem_Delete _ _ _ he).1 e2 (mem_Delete _ _ _ he2).1 c hc1 hc2
        · exact h

theorem Inv_step (m : Sudos) (a : Action) (h : m.Inv) : (m.step a).Inv := by
  cases a with
  | person now wigand => exact Inv_PersonSend m now wigand h
  | read now tpe decoded => exact Inv_readMessage m now tpe decoded h
  | receive response =>
    simp only [Sudos.step]
    split
    · rename_i x rest hget
      obtain ⟨hE, hA⟩ := h
      constructor
      · intro e he c hcm
        have hc := hE e he c hcm
        have hne : response ≠ c := by
          intro heq
          rw [heq, hc] at hget
          cases hget
        show (m.chans.set response rest).get? c = some []
        have hc2 : m.chans[c]? = some [] := by simpa using hc
        simp [List.getElem?_set_ne hne, hc2]
      · exact hA
    · exact h
  | write =>
    apply Inv_congr m _ _ _ h
    · simp only [Sudos.step, Sudos.writeMessage]; split <;> rfl
    · simp only [Sudos.step, Sudos.writeMessage]; split <;> rfl
  | setTemperature sprintf ctxDone pickDone person temperature termopad =>
    apply Inv_congr m _ _ _ h
    · simp only [Sudos.step, Sudos.SetPersonTemperature]; split_ifs <;> rfl
    · simp only [Sudos.step, Sudos.SetPersonTemperature]; split_ifs <;> rfl
  | janitor now =>
    obtain ⟨hE, hA⟩ := h
    constructor
    · intro e he c hcm
      have : e ∈ m.cache := by
        simp only [Sudos.step, Cache.DeleteExpired] at he
        exact (List.mem_filter.mp he).1
      exact hE e this c hcm
    · intro e he e2 he2 c hc1 hc2
      have h1 : e ∈ m.cache := by
        simp only [Sudos.step, Cache.DeleteExpired] at he
        exact (List.mem_filter.mp he).1
      have h2 : e2 ∈ m.cache := by
        simp only [Sudos.step, Cache.DeleteExpired] at he2
        exact (List.mem_filter.mp he2).1
      exact hA e h1 e2 h2 c hc1 hc2

theorem Inv_run (acts : List Action) (m : Sudos) (h : m.Inv) : (m.run acts).Inv := by
  induction acts generalizing m with
  | nil => exact h
  | cons a rest ih =>
    simp only [Sudos.run, List.foldl_cons]
    exact ih _ (Inv_step m a h)

theorem NewSudos_cache (scheme : String → Option String) (config : Option ConfigSudos)
    (m : Sudos) (h : NewSudos scheme config = .ok m) : m.cache = [] := by
  cases config with
  | none => simp [NewSudos] at h
  | some cfg =>
    simp only [NewSudos] at h
    split_ifs at h <;> cases h <;> rfl

theorem Reachable_Inv (m : Sudos) (h : m.Reachable) : m.Inv := by
  obtain ⟨scheme, config, m0, acts, h0, rfl⟩ := h
  apply Inv_run
  have hc := NewSudos_cache scheme config m0 h0
  constructor
  · intro e he; rw [hc] at he; cases he
  · intro e he; rw [hc] at he; cases he

/-! ### Bursts of calls of `Person` -/

theorem filter_Set (c : Cache) (now : Int) (d : Int) (k : String) (x : List Nat) :
    ((Cache.Set c now d k x).filter (fun e => e.1 == k)).length = 1 := by
  have h : (c.filter (fun e => e.1 != k)).filter (fun e => e.1 == k) = [] := by
    rw [List.filter_eq_nil_iff]
    intro e he
    have := (List.mem_filter.mp he).2
    simp only [bne_iff_ne, ne_eq] at this
    simpa using this
  simp [Cache.Set, List.filter_cons, h]

theorem Get_Set (c : Cache) (now t : Int) (k : String) (x : List Nat)
    (ht : t ≤ now + cacheExpiration) :
    Cache.Get (Cache.Set c now cacheExpiration k x) t k = some x := by
  have hd : (0 : Int) < cacheExpiration := by decide
  have ht2 : (t : Int) ≤ (now : Int) + cacheExpiration := ht
  simp only [Cache.Get, Cache.Set, List.lookup_cons, beq_self_eq_true, if_pos hd]
  rw [if_neg]
  rintro ⟨_, h2⟩
  have h3 : (now : Int) + cacheExpiration < (t : Int) := h2
  omega

theorem PersonSend_cases (m : Sudos) (now a : Int) (wigand : Wigand) (old : List Nat)
    (hw : wigand.ID ≠ 0) (ha : a ≤ now) (hb : now ≤ a + cacheExpiration)
    (hp : m.Pending (Sudos.key wigand) a old)
    (hroom : m.writeChan.length < writeChanCapacity) :
    (m.PersonSend now wigand).1.writeChan = m.writeChan ++ [lookupRequest wigand] ∧
    (m.PersonSend now wigand).1.chans = m.chans ++ [[]] ∧
    (m.PersonSend now wigand).1.cache
      = Cache.Set m.cache now cacheExpiration (Sudos.key wigand) (old ++ [m.chans.length]) ∧
    (m.PersonSend now wigand).2 = .ok m.chans.length := by
  have hv : (!wigand.valid) = false := by simp [Wigand.valid, hw]
  rcases hp with ⟨hl, rfl⟩ | ⟨hg, _⟩
  · have hg : Cache.Get m.cache now (Sudos.key wigand) = none := by simp [Cache.Get, hl]
    simp only [Sudos.PersonSend, hv, hg, Cache.Add]
    simp [hroom, lookupRequest]
  · have hg2 := hg now ha hb
    simp only [Sudos.PersonSend, hv, hg2]
    simp [hroom, lookupRequest]

theorem personCalls_burst (ts : List Int) (m : Sudos) (a : Int) (wigand : Wigand)
    (old : List Nat) (hw : wigand.ID ≠ 0)
    (hts : ∀ t ∈ ts, a ≤ t ∧ t ≤ a + cacheExpiration)
    (hp : m.Pending (Sudos.key wigand) a old)
    (hroom : m.writeChan.length + ts.length ≤ writeChanCapacity) :
    (m.personCalls wigand ts).writeChan
      = m.writeChan ++ List.replicate ts.length (lookupRequest wigand) ∧
    (m.personCalls wigand ts).Pending (Sudos.key wigand) a
      (old ++ List.range' m.chans.length ts.length) := by
  induction ts generalizing m old with
  | nil => simpa [Sudos.personCalls] using hp
  | cons t rest ih =>
    obtain ⟨ha, hb⟩ := hts t (by simp)
    have hl : (t :: rest).length = rest.length + 1 := rfl
    rw [hl] at hroom
    have hroom1 : m.writeChan.length < writeChanCapacity := by omega
    obtain ⟨hwc, hch, hca, _⟩ := PersonSend_cases m t a wigand old hw ha hb hp hroom1
    have hp2 : (m.PersonSend t wigand).1.Pending (Sudos.key wigand) a (old ++ [m.chans.length]) := by
      right
      rw [hca]
      exact ⟨fun t2 _ h2 => Get_Set _ _ _ _ _ (by omega), filter_Set _ _ _ _ _⟩
    have := ih (m.PersonSend t wigand).1 (old ++ [m.chans.length])
      (fun t2 h2 => hts t2 (by simp [h2])) hp2
      (by rw [hwc]; simp only [List.length_append, List.length_cons, List.length_nil]
          omega)
    simp only [Sudos.personCalls, hl]
    rw [this.1, hwc]
    refine ⟨by simp [List.replicate_succ], ?_⟩
    have h2 := this.2
    rw [hch] at h2
    simpa [List.range'_succ, List.append_assoc] using h2

/-! ### The steps of a call of `Person` -/

theorem PersonSend_steps (m : Sudos) (now : Int) (wigand : Wigand) :
    m.PersonSend now wigand =
      match m.personLookup now wigand with
      | (m1, .error err) => (m1, .error err)
      | (m1, .ok call) =>
        match m1.personRegister now call with
        | (m2, some err) => (m2, .error err)
        | (m2, none) => m2.personWrite call := by
  unfold Sudos.PersonSend Sudos.personLookup
  by_cases hv : (!wigand.valid) = true
  · simp [hv]
  · simp only [hv, Bool.false_eq_true, if_false]
    unfold Sudos.personRegister
    cases hg : Cache.Get m.cache now (Sudos.key wigand) with
    | some channels => simp [Sudos.personWrite]
    | none =>
      simp only []
      cases ha : Cache.Add m.cache now cacheExpiration (Sudos.key wigand) [m.chans.length] with
      | error err => simp
      | ok c => simp [Sudos.personWrite]
/-! ## The event worker -/

theorem published_append (a b : List Call) : published (a ++ b) = published a ++ published b := by
  induction a with
  | nil => rfl
  | cons c rest ih => cases c <;> simp [published, ih]

theorem fetches_append (a b : List Call) : fetches (a ++ b) = fetches a ++ fetches b := by
  induction a with
  | nil => rfl
  | cons c rest ih => cases c <;> simp [fetches, ih]

theorem recordWrites_append (a b : List Call) :
    recordWrites (a ++ b) = recordWrites a ++ recordWrites b := by
  induction a with
  | nil => rfl
  | cons c rest ih => cases c <;> simp [recordWrites, ih]

theorem imageWrites_append (a b : List Call) :
    imageWrites (a ++ b) = imageWrites a + imageWrites b := by
  induction a with
  | nil => simp [imageWrites]
  | cons c rest ih =>
    cases c <;> simp [imageWrites, ih]
    omega

theorem notifies_append (a b : List Call) : notifies (a ++ b) = notifies a + notifies b := by
  induction a with
  | nil => simp [notifies]
  | cons c rest ih =>
    cases c <;> simp [notifies, ih]
    omega

theorem logAppends_append (a b : List Call) :
    logAppends (a ++ b) = logAppends a ++ logAppends b := by
  induction a with
  | nil => rfl
  | cons c rest ih => cases c <;> simp [logAppends, ih]

/-- The calls of the goroutine that reports the status. -/
theorem notifyTask_counts (env : Env) (person : Person) (temp : TermopadTemperatureEvent) :
    published (notifyTask env person temp) = [] ∧ fetches (notifyTask env person temp) = [] ∧
    recordWrites (notifyTask env person temp) = [] ∧ imageWrites (notifyTask env person temp) = 0 ∧
    notifies (notifyTask env person temp) = 1 ∧ logAppends (notifyTask env person temp) = [] := by
  unfold notifyTask
  cases env.setTemperatureErr <;>
    simp [published, fetches, recordWrites, imageWrites, notifies, logAppends]

/-- The calls at the end of the worker. -/
theorem logAndWait_counts (env : Env) (db : Db) (temp : TermopadTemperatureEvent) :
    published (logAndWait env db temp).2 = [] ∧ fetches (logAndWait env db temp).2 = [] ∧
    recordWrites (logAndWait env db temp).2 = [] ∧ imageWrites (logAndWait env db temp).2 = 0 ∧
    notifies (logAndWait env db temp).2 = 0 ∧
    logAppends (logAndWait env db temp).2 = [env.logFault.map (fun e => e.val)] ∧
    (logAndWait env db temp).2.getLast? = some Call.GroupWait ∧
    (logAndWait env db temp).1.persons = db.persons := by
  unfold logAndWait Db.SetTemperatureLog
  cases env.logFault <;>
    simp [published, fetches, recordWrites, imageWrites, notifies, logAppends]

/-- The calls of the two stores of a fetched person. -/
theorem storeFetched_counts (env : Env) (db : Db) (person : Person) (imageLog : List Call)
    (hl : published imageLog = [] ∧ fetches imageLog = [] ∧ recordWrites imageLog = [] ∧
      imageWrites imageLog = 0 ∧ notifies imageLog = 0 ∧ logAppends imageLog = []) :
    published (storeFetched env db person imageLog).2.1 = [] ∧
    fetches (storeFetched env db person imageLog).2.1 = [] ∧
    recordWrites (storeFetched env db person imageLog).2.1
      = [((storeFetched env db person imageLog).2.2.1, (storeFetched env db person imageLog).2.2.2)] ∧
    notifies (storeFetched env db person imageLog).2.1 = 0 ∧
    logAppends (storeFetched env db person imageLog).2.1 = [] := by
  obtain ⟨h1, h2, h3, h4, h5, h6⟩ := hl
  unfold storeFetched
  simp only []
  split
  · simp only [published_append, fetches_append, recordWrites_append, notifies_append,
      logAppends_append]
    split <;>
      simp [published, fetches, recordWrites, imageWrites, notifies, logAppends, h1, h2, h3, h5, h6]
  · simp [published, fetches, recordWrites, imageWrites, notifies, logAppends]

theorem warnLog_counts :
    published [Call.Log LogLevel.warn] = [] ∧ fetches [Call.Log LogLevel.warn] = [] ∧
    recordWrites [Call.Log LogLevel.warn] = [] ∧ imageWrites [Call.Log LogLevel.warn] = 0 ∧
    notifies [Call.Log LogLevel.warn] = 0 ∧ logAppends [Call.Log LogLevel.warn] = [] := by
  simp [published, fetches, recordWrites, imageWrites, notifies, logAppends]

/-- A person read from the store carries the instant of its last update. -/
theorem GetPerson_ok (db : Db) (fault : Option EngineError) (id : Nat) (person : Person)
    (h : db.GetPerson fault id = .ok person) :
    ∃ row, row ∈ db.persons ∧ person.UpdateAt = some row.UpdatedAt ∧ person.Name = row.Name ∧
      person.MiddleName = row.MiddleName ∧ person.Family = row.Family ∧
      person.Organization = row.Organization ∧ person.Department = row.Department ∧
      person.Position = row.Position := by
  unfold Db.GetPerson at h
  split at h
  · cases h
  · split at h
    · split at h <;> cases h
    · rename_i row hrow
      unfold Db.takeByWigand at hrow
      split at hrow
      · cases hrow
      · split at hrow
        · cases hrow
        · rename_i r hfind
          cases hrow
          cases h
          exact ⟨row, List.mem_of_find?_eq_some hfind, rfl, rfl, rfl, rfl, rfl, rfl, rfl⟩

theorem GetPerson_notFound (db : Db) (fault : Option EngineError) (id : Nat) (err : GoError)
    (h : db.GetPerson fault id = .error err) (hnf : IsNotFound err = true) :
    db.persons.find? (fun r => r.Wigand == toInt id) = none := by
  have herr : err = ErrRecordNotFound := by simpa [IsNotFound] using hnf
  subst herr
  unfold Db.GetPerson at h
  split at h
  · exact absurd (by injection h) (by decide : ¬ "передан некорректный номер wigand=0"
      = ErrRecordNotFound)
  · split at h
    · rename_i e2 htake
      have he2 : e2 = ErrRecordNotFound := by
        split at h
        · rename_i heq; simpa using heq
        · injection h
      subst he2
      unfold Db.takeByWigand at htake
      split at htake
      · rename_i e
        injection htake with h3
        exact absurd h3 e.property
      · split at htake
        · rename_i hfind
          exact hfind
        · cases htake
    · cases h

theorem SetPersonImage_persons (db : Db) (f1 f2 : Option GoError) (id : Nat)
    (content : List Nat) : (db.SetPersonImage f1 f2 id content).1.persons = db.persons := by
  unfold Db.SetPersonImage
  simp only []
  split
  · rfl
  · split
    · rfl
    · split <;> rfl

theorem SetPerson_created (db : Db) (now : Int) (tf wf : Option EngineError) (p : Person)
    (hfind : db.persons.find? (fun r => r.Wigand == toInt p.Wigand.ID) = none)
    (hok : (db.SetPerson now tf wf p).2.isOk = true) :
    ∃ row, (db.SetPerson now tf wf p).1.persons = db.persons ++ [row] ∧
      (db.SetPerson now tf wf p).2 = .ok (row.result, true) := by
  have hw : p.conform.Wigand = p.Wigand := rfl
  unfold Db.SetPerson at hok ⊢
  simp only [hw] at hok ⊢
  split
  · rename_i hv
    simp [hv, Except.isOk, Except.toBool] at hok
  · rename_i hv
    simp only [hv] at hok
    cases tf with
    | some e =>
      have hne : (e.val != ErrRecordNotFound) = true := by simpa using e.property
      simp [Db.takeByWigand, hne, Except.isOk, Except.toBool] at hok
    | none =>
      simp only [Db.takeByWigand, hfind] at hok ⊢
      cases wf with
      | some e => simp [Except.isOk, Except.toBool] at hok
      | none =>
        refine ⟨{ PersonRow.FromPerson p.conform with
          ID := nextID (db.persons.map (fun r => r.ID))
          CreatedAt := now
          UpdatedAt := now }, ?_, ?_⟩ <;> simp

/-- A record write that succeeds reports a creation exactly when the table
holds no row for the card at that moment. -/
theorem SetPerson_flag (db : Db) (now : Int) (tf wf : Option EngineError) (p : Person)
    (hok : (db.SetPerson now tf wf p).2.isOk = true) :
    ∃ stored, (db.SetPerson now tf wf p).2
      = .ok (stored, (db.persons.find? (fun r => r.Wigand == toInt p.Wigand.ID)).isNone) := by
  cases hfind : db.persons.find? (fun r => r.Wigand == toInt p.Wigand.ID) with
  | none =>
    obtain ⟨row, _, h2⟩ := SetPerson_created db now tf wf p hfind hok
    exact ⟨row.result, h2⟩
  | some found =>
    have hw : p.conform.Wigand = p.Wigand := rfl
    unfold Db.SetPerson at hok ⊢
    simp only [hw] at hok ⊢
    split
    · rename_i hv
      simp [hv, Except.isOk, Except.toBool] at hok
    · rename_i hv
      simp only [hv] at hok
      cases tf with
      | some e =>
        have hne : (e.val != ErrRecordNotFound) = true := by simpa using e.property
        simp [Db.takeByWigand, hne, Except.isOk, Except.toBool] at hok
      | none =>
        simp only [Db.takeByWigand, hfind] at hok ⊢
        cases wf with
        | some e => simp [Except.isOk, Except.toBool] at hok
        | none => exact ⟨_, rfl⟩

/-- What `storeFetched` does to the table of persons: a single `SetPerson`
on a store with the same persons. -/
theorem storeFetched_spec (env : Env) (db : Db) (person : Person) (imageLog : List Call) :
    ∃ db1 : Db, db1.persons = env.others db.persons ∧
      (storeFetched env db person imageLog).1
        = (db1.SetPerson env.now env.setPersonTakeFault env.setPersonWriteFault
            { person with Image := [] }).1 ∧
      (storeFetched env db person imageLog).2.2.2
        = (db1.SetPerson env.now env.setPersonTakeFault env.setPersonWriteFault
            { person with Image := [] }).2 ∧
      (storeFetched env db person imageLog).2.2.1 = { person with Image := [] } := by
  unfold storeFetched
  by_cases himg : person.Image.length ≠ 0
  · refine ⟨(Db.SetPersonImage { db with persons := env.others db.persons } env.imageDirFault
      env.imageWriteFault person.Wigand.ID person.Image).1, SetPersonImage_persons _ _ _ _ _, ?_⟩
    simp [himg]
  · refine ⟨{ db with persons := env.others db.persons }, rfl, ?_⟩
    simp [himg]

/-- The task of the unknown-card path when the registry answers. -/
theorem fetchTask_answered (env : Env) (db : Db) (temp : TermopadTemperatureEvent)
    (resp : SudosPersonResponse) (hreg : env.registry = PersonOutcome.answered resp) :
    recordWrites (fetchTask env db temp).2.1
      = [((storeFetched env db (Sudos.personOfResponse env.decode temp.Temperature.Wigand resp)
            [Call.Log LogLevel.warn]).2.2.1,
          (storeFetched env db (Sudos.personOfResponse env.decode temp.Temperature.Wigand resp)
            [Call.Log LogLevel.warn]).2.2.2)] ∧
    recordWrites (fetchTask env db temp).2.2 = [] ∧
    (fetchTask env db temp).1
      = (storeFetched env db (Sudos.personOfResponse env.decode temp.Temperature.Wigand resp)
          [Call.Log LogLevel.warn]).1 ∧
    ((storeFetched env db (Sudos.personOfResponse env.decode temp.Temperature.Wigand resp)
        [Call.Log LogLevel.warn]).2.2.2.isOk = true →
      published (fetchTask env db temp).2.1
        = [fetchedNotification env temp
            (Sudos.personOfResponse env.decode temp.Temperature.Wigand resp)] ∧
      published (fetchTask env db temp).2.2 = []) := by
  obtain ⟨hs1, -, hs3, -⟩ := storeFetched_counts env db
    (Sudos.personOfResponse env.decode temp.Temperature.Wigand resp) [Call.Log LogLevel.warn]
    warnLog_counts
  obtain ⟨_, _, _, _, hs4⟩ := storeFetched_spec env db
    (Sudos.personOfResponse env.decode temp.Temperature.Wigand resp) [Call.Log LogLevel.warn]
  simp only [fetchTask, Env.sudosPerson, hreg]
  generalize storeFetched env db (Sudos.personOfResponse env.decode temp.Temperature.Wigand resp)
    [Call.Log LogLevel.warn] = sf at hs1 hs3 hs4 ⊢
  obtain ⟨d, calls, p, res⟩ := sf
  simp only at hs1 hs3 hs4 ⊢
  obtain ⟨hn1, -, hn3, -⟩ := notifyTask_counts env p temp
  cases res with
  | error e =>
    simp [recordWrites, recordWrites_append, hs3, Except.isOk, Except.toBool]
  | ok q =>
    simp only []
    generalize notifyTask env p temp = nt at hn1 hn3 ⊢
    simp [recordWrites, recordWrites_append, published, published_append, hs1, hs3, hn1, hn3,
      fetchedNotification, hs4]

theorem SetPersonImage_congr (db db2 : Db) (f1 f2 : Option GoError) (id : Nat)
    (content : List Nat) (hp : db.persons = db2.persons) (hf : db.personFiles = db2.personFiles) :
    (db.SetPersonImage f1 f2 id content).2 = (db2.SetPersonImage f1 f2 id content).2 ∧
    (db.SetPersonImage f1 f2 id content).1.persons
      = (db2.SetPersonImage f1 f2 id content).1.persons ∧
    (db.SetPersonImage f1 f2 id content).1.personFiles
      = (db2.SetPersonImage f1 f2 id content).1.personFiles := by
  unfold Db.SetPersonImage
  simp only [hf]
  cases f1 with
  | some e => exact ⟨rfl, hp, hf⟩
  | none =>
    simp only []
    cases db2.personFiles.lookup (toString id ++ ".jpeg") with
    | some x => exact ⟨rfl, hp, hf⟩
    | none =>
      simp only []
      cases f2 with
      | some e => exact ⟨rfl, hp, hf⟩
      | none => exact ⟨rfl, hp, by simp [hf]⟩

theorem SetPerson_congr (db db2 : Db) (now : Int) (tf wf : Option EngineError) (p : Person)
    (hp : db.persons = db2.persons) :
    (db.SetPerson now tf wf p).2 = (db2.SetPerson now tf wf p).2 := by
  unfold Db.SetPerson Db.takeByWigand
  simp only [hp]
  cases tf <;> cases wf <;> simp only [] <;> (repeat' split) <;> rfl

/-- The calls of the two stores do not depend on the measurement log nor on
the fault met by the append to it. -/
theorem storeFetched_congr (env : Env) (fault : Option EngineError) (db db2 : Db)
    (person : Person) (l : List Call) (hp : db.persons = db2.persons)
    (hf : db.personFiles = db2.personFiles) :
    (storeFetched { env with logFault := fault } db person l).2
      = (storeFetched env db2 person l).2 := by
  unfold storeFetched
  simp only []
  have hp2 : ({ db with persons := env.others db.persons } : Db).persons
      = ({ db2 with persons := env.others db2.persons } : Db).persons := by
    simp only [hp]
  have hf2 : ({ db with persons := env.others db.persons } : Db).personFiles
      = ({ db2 with persons := env.others db2.persons } : Db).personFiles := hf
  by_cases himg : person.Image.length ≠ 0
  · obtain ⟨h1, h2, _⟩ := SetPersonImage_congr _ _ env.imageDirFault env.imageWriteFault
      person.Wigand.ID person.Image hp2 hf2
    have h3 := SetPerson_congr _ _ env.now env.setPersonTakeFault env.setPersonWriteFault
      { person with Image := [] } h2
    simp only [if_pos himg, h1, h3]
  · have h3 := SetPerson_congr _ _ env.now env.setPersonTakeFault env.setPersonWriteFault
      { person with Image := [] } hp2
    simp only [if_neg himg, h3]

theorem fetchTask_logAppends (env : Env) (db : Db) (temp : TermopadTemperatureEvent) :
    logAppends (fetchTask env db temp).2.1 = [] ∧ logAppends (fetchTask env db temp).2.2 = [] := by
  unfold fetchTask
  split
  · simp [logAppends]
  · rename_i p _
    obtain ⟨-, -, -, -, hs⟩ := storeFetched_counts env db p [Call.Log LogLevel.warn] warnLog_counts
    simp only []
    generalize storeFetched env db p [Call.Log LogLevel.warn] = sf at hs ⊢
    split
    · simp [logAppends, logAppends_append, hs]
    · obtain ⟨-, -, -, -, -, hn⟩ := notifyTask_counts env sf.2.2.1 temp
      generalize notifyTask env sf.2.2.1 temp = nt at hn ⊢
      simp [logAppends, logAppends_append, hs, hn]

theorem refreshTask_logAppends (env : Env) (db : Db) (temp : TermopadTemperatureEvent) :
    logAppends (refreshTask env db temp).2 = [] := by
  unfold refreshTask
  split
  · simp [logAppends]
  · rename_i p _
    obtain ⟨-, -, -, -, hs⟩ := storeFetched_counts env db p [Call.Log LogLevel.warn] warnLog_counts
    simp only []
    generalize storeFetched env db p [Call.Log LogLevel.warn] = sf at hs ⊢
    split
    · simp [logAppends, logAppends_append, hs]
    · split <;> simp [logAppends, logAppends_append, hs]

theorem fetchTask_congr (env : Env) (fault : Option EngineError) (db db2 : Db)
    (temp : TermopadTemperatureEvent) (hp : db.persons = db2.persons)
    (hf : db.personFiles = db2.personFiles) :
    (fetchTask { env with logFault := fault } db temp).2 = (fetchTask env db2 temp).2 := by
  unfold fetchTask
  have hsp : Env.sudosPerson { env with logFault := fault } temp.Temperature.Wigand
      = env.sudosPerson temp.Temperature.Wigand := rfl
  rw [hsp]
  cases env.sudosPerson temp.Temperature.Wigand with
  | error e => rfl
  | ok p =>
    simp only []
    rw [show (storeFetched { env with logFault := fault } db p [Call.Log LogLevel.warn])
        = ((storeFetched { env with logFault := fault } db p [Call.Log LogLevel.warn]).1,
           (storeFetched { env with logFault := fault } db p [Call.Log LogLevel.warn]).2) from rfl,
      storeFetched_congr env fault db db2 p _ hp hf]
    simp only []
    cases (storeFetched env db2 p [Call.Log LogLevel.warn]).2.2.2 <;> rfl

theorem refreshTask_congr (env : Env) (fault : Option EngineError) (db db2 : Db)
    (temp : TermopadTemperatureEvent) (hp : db.persons = db2.persons)
    (hf : db.personFiles = db2.personFiles) :
    (refreshTask { env with logFault := fault } db temp).2 = (refreshTask env db2 temp).2 := by
  unfold refreshTask
  have hsp : Env.sudosPerson { env with logFault := fault } temp.Temperature.Wigand
      = env.sudosPerson temp.Temperature.Wigand := rfl
  rw [hsp]
  cases env.sudosPerson temp.Temperature.Wigand with
  | error e => rfl
  | ok p =>
    simp only []
    rw [show (storeFetched { env with logFault := fault } db p [Call.Log LogLevel.warn])
        = ((storeFetched { env with logFault := fault } db p [Call.Log LogLevel.warn]).1,
           (storeFetched { env with logFault := fault } db p [Call.Log LogLevel.warn]).2) from rfl,
      storeFetched_congr env fault db db2 p _ hp hf]
    simp only []
    cases (storeFetched env db2 p [Call.Log LogLevel.warn]).2.2.2 <;> rfl

theorem logAndWait_store (env : Env) (db : Db) (temp : TermopadTemperatureEvent) :
    (logAndWait env db temp).1.persons = db.persons ∧
    (logAndWait env db temp).1.personFiles = db.personFiles := by
  unfold logAndWait Db.SetTemperatureLog
  cases env.logFault <;> exact ⟨rfl, rfl⟩

/-! ## `Manager.Serve` -/

theorem ServeState.step_returned (m : Manager) (s : ServeState) (a : ServeStep)
    (r : Option GoError) (h : s.housekeeper = .returned r) :
    (s.step m a).housekeeper = .returned r ∧ (s.step m a).sweeps = s.sweeps := by
  cases a with
  | emit res ctxDone pickDone =>
    simp only [ServeState.step]
    repeat' split
    all_goals exact ⟨h, rfl⟩
  | sweep clean =>
    simp [ServeState.step, h]
  | done =>
    simp only [ServeState.step]
    repeat' split
    all_goals exact ⟨h, rfl⟩
  | ctxDone =>
    simp only [ServeState.step]
    repeat' split
    all_goals exact ⟨h, rfl⟩
  | temp =>
    simp only [ServeState.step]
    repeat' split
    all_goals exact ⟨h, rfl⟩

/-- Once the housekeeping task has returned, no step calls `Clean`. -/
theorem ServeState.run_returned (m : Manager) (steps : List ServeStep) :
    ∀ (s : ServeState) (r : Option GoError), s.housekeeper = .returned r →
      (s.run m steps).housekeeper = .returned r ∧ (s.run m steps).sweeps = s.sweeps := by
  induction steps with
  | nil => intro s r h; exact ⟨h, rfl⟩
  | cons a rest ih =>
    intro s r h
    obtain ⟨h1, h2⟩ := ServeState.step_returned m s a r h
    obtain ⟨h3, h4⟩ := ih (s.step m a) r h1
    exact ⟨h3, by rw [← h2]; exact h4⟩

theorem groupKeep_some (x : GoError) (err : Option GoError) : groupKeep (some x) err = some x :=
  rfl

/-- The group keeps its first error. -/
theorem ServeState.step_groupErr (m : Manager) (s : ServeState) (a : ServeStep) (x : GoError)
    (h : s.groupErr = some x) : (s.step m a).groupErr = some x := by
  cases a <;> simp only [ServeState.step] <;> (repeat' split) <;>
    simp only [h, groupKeep_some]

theorem ServeState.run_groupErr (m : Manager) (steps : List ServeStep) :
    ∀ (s : ServeState) (x : GoError), s.groupErr = some x → (s.run m steps).groupErr = some x := by
  induction steps with
  | nil => intro s x h; exact h
  | cons a rest ih => intro s x h; exact ih _ x (ServeState.step_groupErr m s a x h)

/-- `Serve` returns an error only through `done`, after both tasks have
returned. -/
theorem ServeState.step_settled (m : Manager) (s : ServeState) (a : ServeStep)
    (h : s.Settled) : (s.step m a).Settled := by
  rcases h with h | h | ⟨r, r2, hp, hh, hr⟩
  · cases a with
    | emit res ctxDone pickDone =>
      simp only [ServeState.step]
      repeat' split
      all_goals exact Or.inl h
    | sweep clean =>
      simp only [ServeState.step]
      repeat' split
      all_goals exact Or.inl h
    | done =>
      simp only [ServeState.step]
      split
      · rename_i r r2 _ hp hh
        exact Or.inr (Or.inr ⟨r, r2, hp, hh, rfl⟩)
      · exact Or.inl h
    | ctxDone =>
      simp only [ServeState.step, h]
      exact Or.inr (Or.inl rfl)
    | temp =>
      simp only [ServeState.step]
      split
      · exact Or.inl h
      · exact Or.inl h
  · cases a with
    | emit res ctxDone pickDone =>
      simp only [ServeState.step]
      repeat' split
      all_goals exact Or.inr (Or.inl h)
    | sweep clean =>
      simp only [ServeState.step]
      repeat' split
      all_goals exact Or.inr (Or.inl h)
    | done =>
      simp only [ServeState.step, h]
      exact Or.inr (Or.inl h)
    | ctxDone =>
      simp only [ServeState.step, h]
      exact Or.inr (Or.inl h)
    | temp =>
      simp only [ServeState.step, h]
      exact Or.inr (Or.inl h)
  · have hsame : s.step m a = s := by
      cases a with
      | emit res ctxDone pickDone => simp only [ServeState.step, hp]
      | sweep clean => simp only [ServeState.step, hh]
      | done => simp only [ServeState.step, hr]
      | ctxDone => simp only [ServeState.step, hr]
      | temp => simp only [ServeState.step, hr]
    rw [hsame]
    exact Or.inr (Or.inr ⟨r, r2, hp, hh, hr⟩)

theorem ServeState.run_settled (m : Manager) (steps : List ServeStep) :
    ∀ s : ServeState, s.Settled → (s.run m steps).Settled := by
  induction steps with
  | nil => intro s h; exact h
  | cons a rest ih => intro s h; exact ih _ (ServeState.step_settled m s a h)

/-! ## The daily compaction of the log -/

theorem F64.ge_refl (a : F64) (h : a ≠ F64.nan) : F64.ge a a = true := by
  cases a <;> simp_all [F64.ge]

theorem F64.ge_of_lt (a b : F64) (h : F64.lt a b = true) : F64.ge b a = true := by
  cases a <;> cases b <;> simp_all [F64.lt, F64.ge]
  exact le_of_lt h

theorem F64.ge_of_not_lt (a b : F64) (ha : a ≠ F64.nan) (hb : b ≠ F64.nan)
    (h : ¬ F64.lt a b = true) : F64.ge a b = true := by
  cases a <;> cases b <;> simp_all [F64.lt, F64.ge]

theorem F64.ge_trans (a b c : F64) (h1 : F64.ge a b = true) (h2 : F64.ge b c = true) :
    F64.ge a c = true := by
  cases a <;> cases b <;> cases c <;> simp_all [F64.ge]
  exact le_trans h2 h1

theorem lookup_eq_none_of_not_mem {α β : Type} [DecidableEq α] (l : List (α × β)) (k : α) :
    l.lookup k = none ↔ k ∉ l.map Prod.fst := by
  induction l with
  | nil => simp
  | cons e rest ih =>
    obtain ⟨k2, c⟩ := e
    simp only [List.lookup_cons, List.map_cons, List.mem_cons, not_or]
    by_cases h : k = k2
    · subst h; simp
    · have hb : (k == k2) = false := by simpa using h
      rw [hb]
      simp only [ih]
      exact ⟨fun hm => ⟨h, hm⟩, fun hm => hm.2⟩

theorem lookup_some_mem {α β : Type} [DecidableEq α] (l : List (α × β)) (k : α) (c : β)
    (h : l.lookup k = some c) : (k, c) ∈ l := by
  induction l with
  | nil => simp at h
  | cons e rest ih =>
    obtain ⟨k2, c2⟩ := e
    simp only [List.lookup_cons] at h
    by_cases hk : k = k2
    · subst hk
      simp only [beq_self_eq_true, Option.some.injEq] at h
      subst h
      simp
    · have hb : (k == k2) = false := by simpa using hk
      rw [hb] at h
      exact List.mem_cons_of_mem _ (ih h)

theorem mem_unique_of_nodup {α β : Type} (l : List (α × β)) (h : (l.map Prod.fst).Nodup)
    (k : α) (c1 c2 : β) (h1 : (k, c1) ∈ l) (h2 : (k, c2) ∈ l) : c1 = c2 := by
  induction l with
  | nil => simp at h1
  | cons e rest ih =>
    simp only [List.map_cons, List.nodup_cons] at h
    simp only [List.mem_cons] at h1 h2
    rcases h1 with h1 | h1 <;> rcases h2 with h2 | h2
    · rw [← h1] at h2; exact (Prod.mk.inj h2).2.symm ▸ rfl
    · exact absurd (List.mem_map_of_mem Prod.fst h2) (by rw [← h1] at h; exact h.1)
    · exact absurd (List.mem_map_of_mem Prod.fst h1) (by rw [← h2] at h; exact h.1)
    · exact ih h.2 h1 h2

theorem Summarises.other {k : DateTime} {c : TemperatureMetric} {l : List TemperatureMetric}
    (h : Summarises k c l) (v : TemperatureMetric) (hk : RoundToDate v.Date ≠ k) :
    Summarises k c (l ++ [v]) := by
  obtain ⟨hd, ⟨a, ha, hak, hat⟩, ⟨b, hb, hbk, hbt⟩, hall⟩ := h
  refine ⟨hd, ⟨a, by simp [ha], hak, hat⟩, ⟨b, by simp [hb], hbk, hbt⟩, ?_⟩
  intro x hx hxk
  rcases List.mem_append.mp hx with hx | hx
  · exact hall x hx hxk
  · simp only [List.mem_singleton] at hx
    subst hx
    exact absurd hxk hk

theorem Summarises.new (l : List TemperatureMetric) (v : TemperatureMetric)
    (hnum : v.Temperature ≠ F64.nan) (hfresh : ¬ ∃ x ∈ l, RoundToDate x.Date = RoundToDate v.Date) :
    Summarises (RoundToDate v.Date)
      { v with Date := RoundToDate v.Date, TemperatureMax := v.Temperature,
               TemperatureMin := v.Temperature } (l ++ [v]) := by
  refine ⟨rfl, ⟨v, by simp, rfl, rfl⟩, ⟨v, by simp, rfl, rfl⟩, ?_⟩
  intro x hx hxk
  rcases List.mem_append.mp hx with hx | hx
  · exact absurd ⟨x, hx, hxk⟩ hfresh
  · simp only [List.mem_singleton] at hx
    subst hx
    exact ⟨F64.ge_refl _ hnum, F64.ge_refl _ hnum⟩

theorem Summarises.update {c : TemperatureMetric} {l : List TemperatureMetric}
    (v : TemperatureMetric) (h : Summarises (RoundToDate v.Date) c l)
    (hl : ∀ x ∈ l, x.Temperature ≠ F64.nan) (hnum : v.Temperature ≠ F64.nan) :
    Summarises (RoundToDate v.Date)
      (if F64.lt c.TemperatureMax v.Temperature then { c with TemperatureMax := v.Temperature }
        else if F64.lt v.Temperature c.TemperatureMin then
          { c with TemperatureMin := v.Temperature }
        else c) (l ++ [v]) := by
  obtain ⟨hd, ⟨a, ha, hak, hat⟩, ⟨b, hb, hbk, hbt⟩, hall⟩ := h
  have hmaxnum : c.TemperatureMax ≠ F64.nan := by rw [← hat]; exact hl a ha
  have hminnum : c.TemperatureMin ≠ F64.nan := by rw [← hbt]; exact hl b hb
  have hmm : F64.ge c.TemperatureMax c.TemperatureMin = true := by
    have := (hall a ha hak).2
    rw [hat] at this
    exact this
  by_cases h1 : F64.lt c.TemperatureMax v.Temperature = true
  · rw [if_pos h1]
    have hge := F64.ge_of_lt _ _ h1
    refine ⟨hd, ⟨v, by simp, rfl, rfl⟩, ⟨b, by simp [hb], hbk, hbt⟩, ?_⟩
    intro x hx hxk
    rcases List.mem_append.mp hx with hx | hx
    · exact ⟨F64.ge_trans _ _ _ hge (hall x hx hxk).1, (hall x hx hxk).2⟩
    · simp only [List.mem_singleton] at hx
      subst hx
      exact ⟨F64.ge_refl _ hnum, F64.ge_trans _ _ _ hge hmm⟩
  · rw [if_neg h1]
    have hge1 : F64.ge c.TemperatureMax v.Temperature = true :=
      F64.ge_of_not_lt _ _ hmaxnum hnum h1
    by_cases h2 : F64.lt v.Temperature c.TemperatureMin = true
    · rw [if_pos h2]
      have hge := F64.ge_of_lt _ _ h2
      refine ⟨hd, ⟨a, by simp [ha], hak, hat⟩, ⟨v, by simp, rfl, rfl⟩, ?_⟩
      intro x hx hxk
      rcases List.mem_append.mp hx with hx | hx
      · exact ⟨(hall x hx hxk).1, F64.ge_trans _ _ _ (hall x hx hxk).2 hge⟩
      · simp only [List.mem_singleton] at hx
        subst hx
        exact ⟨hge1, F64.ge_refl _ hnum⟩
    · rw [if_neg h2]
      have hge2 : F64.ge v.Temperature c.TemperatureMin = true :=
        F64.ge_of_not_lt _ _ hnum hminnum h2
      refine ⟨hd, ⟨a, by simp [ha], hak, hat⟩, ⟨b, by simp [hb], hbk, hbt⟩, ?_⟩
      intro x hx hxk
      rcases List.mem_append.mp hx with hx | hx
      · exact hall x hx hxk
      · simp only [List.mem_singleton] at hx
        subst hx
        exact ⟨hge1, hge2⟩

/-- One element more keeps the map in step with the list. -/
theorem CompactInv.step {cacheLoc : List (DateTime × TemperatureMetric)}
    {l : List TemperatureMetric} (h : CompactInv cacheLoc l) (v : TemperatureMetric)
    (hl : ∀ x ∈ l, x.Temperature ≠ F64.nan) (hnum : v.Temperature ≠ F64.nan) :
    CompactInv (compactStep cacheLoc v) (l ++ [v]) := by
  obtain ⟨hnd, hkeys, hsum⟩ := h
  simp only [compactStep]
  cases hlk : cacheLoc.lookup (RoundToDate v.Date) with
  | none =>
    have hnot : RoundToDate v.Date ∉ cacheLoc.map Prod.fst :=
      (lookup_eq_none_of_not_mem _ _).mp hlk
    have hfresh : ¬ ∃ x ∈ l, RoundToDate x.Date = RoundToDate v.Date :=
      fun hx => hnot ((hkeys _).mpr hx)
    refine ⟨?_, ?_, ?_⟩
    · simp only [List.map_append, List.map_cons, List.map_nil]
      rw [List.nodup_append]
      refine ⟨hnd, by simp, ?_⟩
      intro a ha hb
      simp only [List.mem_singleton] at hb
      subst hb
      exact absurd ha hnot
    · intro k
      simp only [List.map_append, List.map_cons, List.map_nil, List.mem_append,
        List.mem_singleton]
      constructor
      · rintro (hk | hk)
        · obtain ⟨x, hx, hxk⟩ := (hkeys k).mp hk
          exact ⟨x, Or.inl hx, hxk⟩
        · exact ⟨v, Or.inr rfl, hk.symm⟩
      · rintro ⟨x, hx | hx, hxk⟩
        · exact Or.inl ((hkeys k).mpr ⟨x, hx, hxk⟩)
        · subst hx
          exact Or.inr hxk.symm
    · intro e he
      rcases List.mem_append.mp he with he | he
      · refine (hsum e he).other v ?_
        intro hk
        exact hnot (hk ▸ List.mem_map_of_mem Prod.fst he)
      · simp only [List.mem_singleton] at he
        subst he
        exact Summarises.new l v hnum hfresh
  | some cached =>
    have hmem : (RoundToDate v.Date, cached) ∈ cacheLoc := lookup_some_mem _ _ _ hlk
    have hmap : ∀ (c : TemperatureMetric),
        (cacheLoc.map (fun e => if e.1 = RoundToDate v.Date then (e.1, c) else e)).map Prod.fst
          = cacheLoc.map Prod.fst := by
      intro c
      rw [List.map_map]
      apply List.map_congr_left
      intro e _
      simp only [Function.comp]
      split <;> rfl
    refine ⟨?_, ?_, ?_⟩
    · simp only []
      rw [hmap]; exact hnd
    · intro k
      simp only []
      rw [hmap]
      constructor
      · intro hk
        obtain ⟨x, hx, hxk⟩ := (hkeys k).mp hk
        exact ⟨x, List.mem_append.mpr (Or.inl hx), hxk⟩
      · rintro ⟨x, hx, hxk⟩
        rcases List.mem_append.mp hx with hx | hx
        · exact (hkeys k).mpr ⟨x, hx, hxk⟩
        · simp only [List.mem_singleton] at hx
          subst hx
          rw [← hxk]
          exact List.mem_map_of_mem Prod.fst hmem
    · intro e he
      simp only [] at he
      obtain ⟨e0, he0, rfl⟩ := List.mem_map.mp he
      by_cases hk : e0.1 = RoundToDate v.Date
      · rw [if_pos hk]
        simp only []
        have hc : e0.2 = cached :=
          mem_unique_of_nodup cacheLoc hnd (RoundToDate v.Date) e0.2 cached
            (by rw [← hk]; exact he0) hmem
        have hs := hsum e0 he0
        rw [hk, hc] at hs
        rw [hk]
        exact Summarises.update v hs hl hnum
      · rw [if_neg hk]
        exact (hsum e0 he0).other v (fun h => hk h.symm)

theorem CompactInv.foldl (vs : List TemperatureMetric) :
    ∀ (cacheLoc : List (DateTime × TemperatureMetric)) (l : List TemperatureMetric),
      CompactInv cacheLoc l → (∀ x ∈ l, x.Temperature ≠ F64.nan) →
      (∀ x ∈ vs, x.Temperature ≠ F64.nan) →
      CompactInv (vs.foldl compactStep cacheLoc) (l ++ vs) := by
  induction vs with
  | nil => intro cacheLoc l h _ _; simpa using h
  | cons v rest ih =>
    intro cacheLoc l h hl hvs
    have hv := hvs v (by simp)
    have := ih (compactStep cacheLoc v) (l ++ [v]) (h.step v hl hv)
      (by
        intro x hx
        rcases List.mem_append.mp hx with hx | hx
        · exact hl x hx
        · simp only [List.mem_singleton] at hx
          subst hx; exact hv)
      (fun x hx => hvs x (by simp [hx]))
    simpa using this

/-- The map built by the first loop of `compactTemperature`. -/
theorem compact_cache (l : List TemperatureMetric) (hnum : ∀ v ∈ l, v.Temperature ≠ F64.nan) :
    CompactInv (l.foldl compactStep []) l := by
  have h0 : CompactInv [] [] := by
    refine ⟨by simp, ?_, ?_⟩
    · intro k; simp
    · intro e he; simp at he
  have := CompactInv.foldl l [] [] h0 (by simp) hnum
  simpa using this

/-- What `compactTemperature` returns is, in some order, the entries of the
map with their temperature and person cleared. -/
theorem compactTemperature_perm (l : List TemperatureMetric) :
    (compactTemperature l).Perm ((l.foldl compactStep []).map (fun e => compactClear e.2)) := by
  unfold compactTemperature
  exact List.perm_insertionSort _ _

/-! ## Claims about the card-number codec -/

/-- C8: for every facility `f` and number `n` below `2^16`, after
`Wigand.Parse(f, n)` the accessors return `Fasality() = f` and `Number() = n`. -/
theorem C8_parse_then_accessors (f n : Nat) (hf : f < 2 ^ 16) (hn : n < 2 ^ 16) :
    (Wigand.Parse f n).Fasality = f ∧ (Wigand.Parse f n).Number = n := by
  have hf1 : f < 65536 := by simpa using hf
  have hn1 : n < 65536 := by simpa using hn
  have hid := Parse_ID f n hf1 hn1
  have hp : (Wigand.Parse f n).parse = (f, n) := by
    have h := parse_eq (f * 65536 + n) (by unfold uintMod; omega)
    rw [← hid] at h
    rw [h, hid]
    congr 1 <;> omega
  simp [Wigand.Fasality, Wigand.Number, hp]

/-- Instance of C8 at facility 12 and number 34567. -/
theorem C8_parse_then_accessors_witness :
    (Wigand.Parse 12 34567).Fasality = 12 ∧ (Wigand.Parse 12 34567).Number = 34567 :=
  C8_parse_then_accessors 12 34567 (by decide) (by decide)

/-- C9: for every `f` and `n` below `2^16`, `Wigand.Parse(f, n)` and
`tool.WigantFasalityToUint(f, n)` both yield `f * 2^16 + n`, which is
`f<<16 | n`; packing `(0, 0)` yields id 0, for which `IsEmpty()` is true. -/
theorem C9_packing_formula (f n : Nat) (hf : f < 2 ^ 16) (hn : n < 2 ^ 16) :
    (Wigand.Parse f n).ID = f * 2 ^ 16 + n ∧
    WigantFasalityToUint f n = f * 2 ^ 16 + n ∧
    f * 2 ^ 16 + n = (f <<< 16) ||| n ∧
    (Wigand.Parse 0 0).ID = 0 ∧ (Wigand.Parse 0 0).IsEmpty = true := by
  have hf1 : f < 65536 := by simpa using hf
  have hn1 : n < 65536 := by simpa using hn
  refine ⟨?_, ?_, ?_, by decide, by decide⟩
  · rw [Parse_ID f n hf1 hn1]; norm_num
  · unfold WigantFasalityToUint
    rw [sprintf_val f n hf1 hn1]; norm_num
  · rw [Nat.shiftLeft_eq, Nat.mul_comm f (2 ^ 16)]
    exact Nat.mul_add_lt_is_or hn f

/-- Instance of C9 at facility 513 and number 9. -/
theorem C9_packing_formula_witness :
    (Wigand.Parse 513 9).ID = 513 * 2 ^ 16 + 9 ∧
    WigantFasalityToUint 513 9 = 513 * 2 ^ 16 + 9 ∧
    513 * 2 ^ 16 + 9 = (513 <<< 16) ||| 9 ∧
    (Wigand.Parse 0 0).ID = 0 ∧ (Wigand.Parse 0 0).IsEmpty = true :=
  C9_packing_formula 513 9 (by decide) (by decide)

/-- C10: for every id below `2^32`, the pair `(Fasality(), Number())` of
`Wigand{ID}` has both components below `2^16` and `Wigand.Parse` applied to
that pair gives back exactly the id; the same holds for the pair of functions
of package `tool`. -/
theorem C10_accessors_then_parse (id : Nat) (hid : id < 2 ^ 32) :
    (Wigand.mk id).Fasality < 2 ^ 16 ∧ (Wigand.mk id).Number < 2 ^ 16 ∧
    Wigand.Parse (Wigand.mk id).Fasality (Wigand.mk id).Number = Wigand.mk id ∧
    (WigantUintToFasality id).1 < 2 ^ 16 ∧ (WigantUintToFasality id).2 < 2 ^ 16 ∧
    WigantFasalityToUint (WigantUintToFasality id).1 (WigantUintToFasality id).2 = id := by
  have hid1 : id < 4294967296 := by simpa using hid
  have hp := parse_eq id (by unfold uintMod; omega)
  have ht : WigantUintToFasality id = (id / 65536, id % 65536) := by
    have : WigantUintToFasality id = (Wigand.mk id).parse := rfl
    rw [this, hp]
  have h1 : id / 65536 < 65536 := by omega
  have h2 : id % 65536 < 65536 := by omega
  have hsum : id / 65536 * 65536 + id % 65536 = id := by omega
  simp only [Wigand.Fasality, Wigand.Number, hp, ht]
  refine ⟨by simpa using h1, by simpa using h2, ?_, by simpa using h1, by simpa using h2, ?_⟩
  · have := Parse_ID _ _ h1 h2
    rw [hsum] at this
    cases hw : Wigand.Parse (id / 65536) (id % 65536) with
    | mk x => rw [hw] at this; simp only at this; rw [this]
  · unfold WigantFasalityToUint
    rw [sprintf_val _ _ h1 h2]
    exact hsum

/-- Instance of C10 at id 123456789. -/
theorem C10_accessors_then_parse_witness :
    (Wigand.mk 123456789).Fasality < 2 ^ 16 ∧ (Wigand.mk 123456789).Number < 2 ^ 16 ∧
    Wigand.Parse (Wigand.mk 123456789).Fasality (Wigand.mk 123456789).Number
      = Wigand.mk 123456789 ∧
    (WigantUintToFasality 123456789).1 < 2 ^ 16 ∧ (WigantUintToFasality 123456789).2 < 2 ^ 16 ∧
    WigantFasalityToUint (WigantUintToFasality 123456789).1 (WigantUintToFasality 123456789).2
      = 123456789 :=
  C10_accessors_then_parse 123456789 (by decide)

/-! ## Claims about the registry link -/

/-- C7: status message policy of `SetPersonTemperature`. For every
temperature `t` and thresholds `max` and `min` (the maximum being a number),
the request uses the alarm template with `alarm = true` when `t >= max`, the
low-temperature template with `alarm = false` when `t < max` and `t < min`,
and the normal template with `alarm = false` otherwise; so `alarm` is true
exactly when `t >= max`. The request is the only message the call can put on
the outbound queue. -/
theorem C7_status_message_policy (m : Sudos) (sprintf : String → F64 → String)
    (person : Person) (temperature : TemperatureEvent) (termopad : TermopadInfo)
    (hmax : m.maxTemperature ≠ F64.nan) :
    (F64.ge temperature.Temperature m.maxTemperature = true →
      (m.temperatureRequest sprintf person temperature termopad).Message
        = sprintf m.templateAlarm temperature.Temperature ∧
      (m.temperatureRequest sprintf person temperature termopad).AlarmStatus = true) ∧
    (F64.lt temperature.Temperature m.maxTemperature = true ∧
      F64.lt temperature.Temperature m.minTemperature = true →
      (m.temperatureRequest sprintf person temperature termopad).Message
        = sprintf m.templateLower temperature.Temperature ∧
      (m.temperatureRequest sprintf person temperature termopad).AlarmStatus = false) ∧
    (F64.ge temperature.Temperature m.maxTemperature = false ∧
      ¬ (F64.lt temperature.Temperature m.maxTemperature = true ∧
        F64.lt temperature.Temperature m.minTemperature = true) →
      (m.temperatureRequest sprintf person temperature termopad).Message
        = sprintf m.templateNormal temperature.Temperature ∧
      (m.temperatureRequest sprintf person temperature termopad).AlarmStatus = false) ∧
    ((m.temperatureRequest sprintf person temperature termopad).AlarmStatus = true ↔
      F64.ge temperature.Temperature m.maxTemperature = true) ∧
    (∀ ctxDone pickDone : Bool,
      (m.SetPersonTemperature sprintf ctxDone pickDone person temperature termopad).1.writeChan
        = m.writeChan ∨
      (m.SetPersonTemperature sprintf ctxDone pickDone person temperature termopad).1.writeChan
        = m.writeChan ++ [m.temperatureRequest sprintf person temperature termopad]) := by
  refine ⟨?_, ?_, ?_, ?_, ?_⟩
  · intro h
    simp [Sudos.temperatureRequest, Sudos.temperatureMessage, h]
  · rintro ⟨h1, h2⟩
    have h3 := F64.not_ge_of_lt _ _ h1
    simp [Sudos.temperatureRequest, Sudos.temperatureMessage, h2, h3]
  · rintro ⟨h1, h2⟩
    have h3 : F64.lt temperature.Temperature m.minTemperature = false := by
      by_contra hlt
      have hlt2 : F64.lt temperature.Temperature m.minTemperature = true := by
        simpa using hlt
      exact h2 ⟨F64.lt_of_not_ge _ _ _ hmax hlt2 h1, hlt2⟩
    simp [Sudos.temperatureRequest, Sudos.temperatureMessage, h1, h3]
  · simp only [Sudos.temperatureRequest, Sudos.temperatureMessage]
    split
    · simp_all
    · split <;> simp_all
  · intro ctxDone pickDone
    simp only [Sudos.SetPersonTemperature]
    split_ifs <;> simp

/-- Instance of C7 at the freshly built `Sudos` (thresholds 37.5 and 34.0)
for a reading of 38.2 degrees. -/
theorem C7_status_message_policy_witness :
    freshSudos.maxTemperature ≠ F64.nan ∧
    (freshSudos.temperatureRequest exampleSprintf
      { CreateAt := none, UpdateAt := none, Wigand := { ID := 65538 }, Family := "F", Name := "N",
        MiddleName := "", Organization := "", Department := "", Position := "", Image := [] }
      { Temperature := F64.fin (191 / 5), Wigand := { ID := 65538 }, Image := [] }
      { ID := 1, URL := "ws://kiosk/feed", SudosID := 4, Name := "K", SerialNumber := 0,
        Description := "" }).AlarmStatus = true :=
  ⟨by decide,
    ((C7_status_message_policy freshSudos exampleSprintf _ _ _ (by decide)).2.2.2.1).mpr
      (by norm_num [F64.ge, freshSudos, maxTemperature])⟩

/-- C1 (the code at the failing input): on a freshly built `Sudos`, a call of
`Person` for card 7 followed, with no response in between, by a second call
for the same card leaves two request messages for key `"7"` on the outbound
queue, not one: the second call finds the pending entry, attaches its channel
to it, and then sends its own request all the same. -/
theorem C1_two_calls_two_requests :
    NewSudos exampleScheme (some exampleConfig) = .ok freshSudos ∧
    Cache.Get (freshSudos.personCalls { ID := 7 } [0]).cache 0 "7" = some [0] ∧
    (freshSudos.personCalls { ID := 7 } [0, 0]).writeChan
      = [lookupRequest { ID := 7 }, lookupRequest { ID := 7 }] ∧
    (lookupRequest { ID := 7 }).UidRequest = "7" ∧
    ((freshSudos.personCalls { ID := 7 } [0, 0]).writeChan.filter
      (fun r => r.UidRequest == "7")).length ≠ 1 ∧
    Cache.Get (freshSudos.personCalls { ID := 7 } [0, 0]).cache 0 "7" = some [0, 1] := by
  refine ⟨rfl, by decide, by decide, by decide, by decide, by decide⟩

/-- C2, refuted as stated: a first call of `Person` for card 7 sends its
request; a second call for the same card does its lookup and finds channel 0
waiting; the response arrives and is put on channel 0, and the entry is
deleted; the second call then stores the entry with the channels 0 and 1 and
sends its request. When the second response arrives, both waiters are attached
to the pending entry for `"7"`, but the queue of channel 0 still holds the
first response, so the delivery to it is skipped: that waiter does not receive
the arriving value. -/
theorem C2_full_queue_is_skipped :
    ((freshSudos.PersonSend 0 { ID := 7 }).1.personLookup 1 { ID := 7 }).2
      = .ok overlappingCall ∧
    Cache.Get overlappedSudos.cache 4 "7" = some [0, 1] ∧
    staffFrame.conform.valid = true ∧ staffFrame.conform.UidRequest = "7" ∧
    overlappedSudos.chans.get? 0 = some [exampleFrame.conform] ∧
    (overlappedSudos.readMessage 4 1 (some staffFrame)).chans.get? 0
      = some [exampleFrame.conform] ∧
    (overlappedSudos.readMessage 4 1 (some staffFrame)).chans.get? 0
      ≠ some [staffFrame.conform] ∧
    (overlappedSudos.readMessage 4 1 (some staffFrame)).chans.get? 1
      = some [staffFrame.conform] := by
  refine ⟨rfl, by decide, by decide, by decide, by decide, by decide, by decide, by decide⟩

/-- C2 (amended): when a valid response frame whose `uid_request` is the key
`k` arrives while waiters are attached to the pending entry for `k`, every one
of these waiters whose one-slot queue is empty receives that same response
value (and its wait then ends with the person built from that value); the
delivery to a waiter whose queue already holds a value is skipped, and that
waiter keeps the value it holds; afterwards the pending table holds no entry
for `k`. This holds in every state of the service, whatever ran before. -/
theorem C2_response_fan_out (m : Sudos) (now : Int)
    (frame : SudosPersonResponse) (k : String) (channels : List Nat)
    (hvalid : frame.conform.valid = true) (hk : frame.conform.UidRequest = k)
    (hpending : Cache.Get m.cache now k = some channels) :
    (∀ c ∈ channels, m.chans.get? c = some [] →
      (m.readMessage now 1 (some frame)).chans.get? c = some [frame.conform] ∧
      ∀ (decode : String → Option (List Nat)) (wigand : Wigand), ∃ m2,
        (m.readMessage now 1 (some frame)).PersonWait decode wigand c WaitCase.response
          = some (m2, .ok (Sudos.personOfResponse decode wigand frame.conform))) ∧
    (∀ c ∈ channels, ∀ (held : SudosPersonResponse) (rest : List SudosPersonResponse),
      m.chans.get? c = some (held :: rest) →
      (m.readMessage now 1 (some frame)).chans.get? c = some (held :: rest) ∧
      ∀ (decode : String → Option (List Nat)) (wigand : Wigand), ∃ m2,
        (m.readMessage now 1 (some frame)).PersonWait decode wigand c WaitCase.response
          = some (m2, .ok (Sudos.personOfResponse decode wigand held))) ∧
    (m.readMessage now 1 (some frame)).cache.lookup k = none ∧
    (∀ t, Cache.Get (m.readMessage now 1 (some frame)).cache t k = none) := by
  have hread : m.readMessage now 1 (some frame) =
      { m with
        chans := fanOut m.chans channels frame.conform
        cache := Cache.Delete m.cache k } := by
    subst hk
    simp [Sudos.readMessage, hvalid, hpending]
  rw [hread]
  refine ⟨?_, ?_, lookup_Delete _ _, fun t => Get_Delete _ _ _⟩
  · intro c hc hempty
    have := fanOut_fills channels m.chans frame.conform c hc hempty
    refine ⟨this, ?_⟩
    intro decode wigand
    simp only [Sudos.PersonWait, this]
    exact ⟨_, rfl⟩
  · intro c _ held rest hheld
    have := fanOut_skips channels m.chans c frame.conform (held :: rest)
      (List.cons_ne_nil _ _) hheld
    refine ⟨this, ?_⟩
    intro decode wigand
    simp only [Sudos.PersonWait, this]
    exact ⟨_, rfl⟩

/-- Instance of the amended C2: the second response for card 7 arrives while
channel 0 still holds the first one and channel 1 is empty. -/
theorem C2_response_fan_out_witness :
    (overlappedSudos.readMessage 4 1 (some staffFrame)).chans.get? 1
      = some [staffFrame.conform] ∧
    (overlappedSudos.readMessage 4 1 (some staffFrame)).chans.get? 0
      = some [exampleFrame.conform] ∧
    (overlappedSudos.readMessage 4 1 (some staffFrame)).cache.lookup "7" = none :=
  have h := C2_response_fan_out overlappedSudos 4 staffFrame "7" [0, 1]
    (by decide) (by decide) (by decide)
  ⟨(h.1 1 (by decide) (by decide)).1,
    (h.2.1 0 (by decide) exampleFrame.conform [] (by decide)).1, h.2.2.1⟩
/-! ## Claims about the event worker -/

/-- C3: for every event whose card number is found in the record store
(`GetPerson` succeeds), `temperatureInWorker` publishes exactly one
notification, populated with the stored identity; it issues a registry fetch
(`SudosSvc.Person`) exactly once if `time.Since(UpdateAt)` exceeds
`updatePersonInterval`, and no registry fetch at all otherwise. For every
interval below the largest `Duration`, `time.Since(UpdateAt)` exceeds it
exactly when `now - UpdateAt` does. -/
theorem C3_known_identity (m : Manager) (env : Env) (db : Db) (temp : TermopadTemperatureEvent)
    (person : Person)
    (hget : db.GetPerson env.getPersonFault temp.Temperature.Wigand.ID = .ok person) :
    ∃ updateAt, person.UpdateAt = some updateAt ∧
      published (m.temperatureInWorker env db temp).2.all = [enriched env temp person] ∧
      (m.updatePersonInterval < timeSince env.now updateAt →
        fetches (m.temperatureInWorker env db temp).2.all = [temp.Temperature.Wigand]) ∧
      (¬ m.updatePersonInterval < timeSince env.now updateAt →
        fetches (m.temperatureInWorker env db temp).2.all = []) ∧
      (-9223372036854775808 ≤ m.updatePersonInterval →
        m.updatePersonInterval < 9223372036854775807 →
        (m.updatePersonInterval < timeSince env.now updateAt ↔
          m.updatePersonInterval < env.now - updateAt)) := by
  obtain ⟨row, _, hup, _⟩ := GetPerson_ok db _ _ person hget
  refine ⟨row.UpdatedAt, hup, ?_⟩
  rw [← and_assoc, ← and_assoc]
  refine ⟨?_, fun hlo hhi => by unfold timeSince; split_ifs <;> constructor <;> intro h <;> omega⟩
  rw [and_assoc]
  obtain ⟨hn1, hn2, -⟩ := notifyTask_counts env person temp
  obtain ⟨hl1, hl2, -⟩ := logAndWait_counts env db temp
  simp only [Manager.temperatureInWorker, hget, hup]
  split
  · rename_i hstale
    have hpub : published (refreshTask env (logAndWait env db temp).1 temp).2 = [] ∧
        fetches (refreshTask env (logAndWait env db temp).1 temp).2 = [temp.Temperature.Wigand] := by
      unfold refreshTask
      split
      · simp [published, fetches]
      · rename_i p _
        obtain ⟨hs1, hs2, -⟩ := storeFetched_counts env (logAndWait env db temp).1 p
          [Call.Log LogLevel.warn] warnLog_counts
        simp only []
        generalize storeFetched env (logAndWait env db temp).1 p [Call.Log LogLevel.warn] = sf
          at hs1 hs2 ⊢
        split
        · simp [published, fetches, published_append, fetches_append, hs1, hs2]
        · split <;> simp [published, fetches, published_append, fetches_append, hs1, hs2]
    obtain ⟨hp1, hp2⟩ := hpub
    simp only [Run.all]
    generalize refreshTask env (logAndWait env db temp).1 temp = rt at hp1 hp2 ⊢
    generalize logAndWait env db temp = lw at hl1 hl2 ⊢
    generalize notifyTask env person temp = nt at hn1 hn2 ⊢
    simp [published_append, fetches_append, published, fetches, hn1, hn2, hl1, hl2, hp1, hp2,
      enriched, hstale]
  · rename_i hfresh
    simp only [Run.all]
    generalize logAndWait env db temp = lw at hl1 hl2 ⊢
    generalize notifyTask env person temp = nt at hn1 hn2 ⊢
    simp [published_append, fetches_append, published, fetches, hn1, hn2, hl1, hl2,
      enriched, hfresh]

/-- C5: for every event whose card lookup returns NotFound and whose registry
request returns an error, `temperatureInWorker` creates no record (`SetPerson`
and `SetPersonImage` are never called), publishes only the placeholder
notification, and sends no status notify (`SetPersonTemperature` is not
called). -/
theorem C5_unknown_card_failed_fetch (m : Manager) (env : Env) (db : Db)
    (temp : TermopadTemperatureEvent) (err regErr : GoError)
    (hget : db.GetPerson env.getPersonFault temp.Temperature.Wigand.ID = .error err)
    (hnf : IsNotFound err = true) (hreg : env.registry = PersonOutcome.failed regErr) :
    recordWrites (m.temperatureInWorker env db temp).2.all = [] ∧
    imageWrites (m.temperatureInWorker env db temp).2.all = 0 ∧
    published (m.temperatureInWorker env db temp).2.all = [placeholder env temp] ∧
    notifies (m.temperatureInWorker env db temp).2.all = 0 ∧
    (m.temperatureInWorker env db temp).1.persons = db.persons ∧
    (m.temperatureInWorker env db temp).1.personFiles = db.personFiles := by
  obtain ⟨hl1, -, hl3, hl4, hl5, -, -, hl8⟩ := logAndWait_counts env db temp
  have hfiles : (logAndWait env db temp).1.personFiles = db.personFiles := by
    unfold logAndWait Db.SetTemperatureLog
    cases env.logFault <;> rfl
  simp only [Manager.temperatureInWorker, hget, hnf, if_true, fetchTask, Env.sudosPerson, hreg,
    Run.all]
  generalize logAndWait env db temp = lw at hl1 hl3 hl4 hl5 hl8 hfiles ⊢
  simp [published_append, recordWrites_append, imageWrites_append, notifies_append,
    published, recordWrites, imageWrites, notifies, hl1, hl3, hl4, hl5, hl8, hfiles, placeholder]

/-- C4, refuted as stated: two events for card 7, unknown to the store, are
handled by two workers at once. Both lookups return NotFound, both registry
requests and both record writes succeed; the first worker has stored the
record when the task of the second one writes, so the `SetPerson` of the second
worker reports `wasCreated = false`. -/
theorem C4_second_worker_updates :
    exampleDb.GetPerson lateEnv.getPersonFault (exampleEvent 7).Temperature.Wigand.ID
      = .error ErrRecordNotFound ∧
    IsNotFound ErrRecordNotFound = true ∧
    lateEnv.registry = PersonOutcome.answered exampleFrame.conform ∧
    (∀ x ∈ recordWrites (exampleManager.temperatureInWorker lateEnv exampleDb
      (exampleEvent 7)).2.all, x.2.isOk = true) ∧
    (recordWrites (exampleManager.temperatureInWorker lateEnv exampleDb
      (exampleEvent 7)).2.all).map (fun x => x.2.toOption.map Prod.snd) = [some false] := by
  refine ⟨rfl, rfl, rfl, by decide, by decide⟩

/-- C4 (amended): for every event whose card lookup returns NotFound and whose
registry request and record write both succeed, `temperatureInWorker` publishes
exactly two notifications in this order: first, before the task is started, a
placeholder with all identity fields empty, then, in the task, the one built
from the fetched person; and it persists exactly one record via `SetPerson`,
which reports `wasCreated = true` when the table of persons holds no record
for the card at the time of the write, as is the case when no other worker has
written to the table since the lookup (the record is then added to the table),
and `wasCreated = false` when another worker has stored a record for the card
in between. -/
theorem C4_unknown_card_fetched (m : Manager) (env : Env) (db : Db)
    (temp : TermopadTemperatureEvent) (err : GoError) (resp : SudosPersonResponse)
    (hget : db.GetPerson env.getPersonFault temp.Temperature.Wigand.ID = .error err)
    (hnf : IsNotFound err = true) (hreg : env.registry = PersonOutcome.answered resp)
    (hwrite : ∀ x ∈ recordWrites (m.temperatureInWorker env db temp).2.all, x.2.isOk = true) :
    ∃ stored,
      recordWrites (m.temperatureInWorker env db temp).2.all
        = [({ Sudos.personOfResponse env.decode temp.Temperature.Wigand resp with Image := [] },
            .ok (stored,
              ((env.others db.persons).find?
                (fun r => r.Wigand == toInt temp.Temperature.Wigand.ID)).isNone))] ∧
      (env.others db.persons = db.persons →
        ((env.others db.persons).find?
          (fun r => r.Wigand == toInt temp.Temperature.Wigand.ID)).isNone = true ∧
        ∃ row, stored = row.result ∧
          (m.temperatureInWorker env db temp).1.persons = db.persons ++ [row]) ∧
      published (beforeGroup (m.temperatureInWorker env db temp).2.main) = [placeholder env temp] ∧
      published (m.temperatureInWorker env db temp).2.main = [placeholder env temp] ∧
      published (m.temperatureInWorker env db temp).2.group
        = [fetchedNotification env temp
            (Sudos.personOfResponse env.decode temp.Temperature.Wigand resp)] ∧
      published (m.temperatureInWorker env db temp).2.detached = [] ∧
      (placeholder env temp).NameFirst = "" ∧ (placeholder env temp).NameMiddle = "" ∧
      (placeholder env temp).NameLast = "" ∧ (placeholder env temp).Organization = "" ∧
      (placeholder env temp).Departament = "" ∧ (placeholder env temp).Postion = "" := by
  have hfind := GetPerson_notFound db _ _ err hget hnf
  obtain ⟨hl1, -, hl3, -, -, -, -, hl8⟩ := logAndWait_counts env db temp
  obtain ⟨hf1, hf2, hf3, hf4⟩ := fetchTask_answered env (logAndWait env db temp).1 temp resp hreg
  obtain ⟨db1, hd1, hd2, hd3, hd4⟩ := storeFetched_spec env (logAndWait env db temp).1
    (Sudos.personOfResponse env.decode temp.Temperature.Wigand resp) [Call.Log LogLevel.warn]
  simp only [Manager.temperatureInWorker, hget, hnf, if_true, Run.all] at hwrite ⊢
  have hrw : recordWrites
      ([Call.GetPerson temp.Temperature.Wigand.ID,
        Call.TemperatureChanged (placeholder env temp), Call.GroupGo]
        ++ (logAndWait env db temp).2) = [] := by
    rw [recordWrites_append, hl3]; rfl
  have hpm : published
      ([Call.GetPerson temp.Temperature.Wigand.ID,
        Call.TemperatureChanged (placeholder env temp), Call.GroupGo]
        ++ (logAndWait env db temp).2) = [placeholder env temp] := by
    rw [published_append, hl1]; rfl
  have hall : recordWrites
      (([Call.GetPerson temp.Temperature.Wigand.ID,
        Call.TemperatureChanged (placeholder env temp), Call.GroupGo]
        ++ (logAndWait env db temp).2) ++ (fetchTask env (logAndWait env db temp).1 temp).2.1
        ++ (fetchTask env (logAndWait env db temp).1 temp).2.2)
      = [((storeFetched env (logAndWait env db temp).1
            (Sudos.personOfResponse env.decode temp.Temperature.Wigand resp)
            [Call.Log LogLevel.warn]).2.2.1,
          (storeFetched env (logAndWait env db temp).1
            (Sudos.personOfResponse env.decode temp.Temperature.Wigand resp)
            [Call.Log LogLevel.warn]).2.2.2)] := by
    rw [recordWrites_append, recordWrites_append, hrw, hf1, hf2]; rfl
  have hok := hwrite
    ((storeFetched env (logAndWait env db temp).1
        (Sudos.personOfResponse env.decode temp.Temperature.Wigand resp)
        [Call.Log LogLevel.warn]).2.2.1,
     (storeFetched env (logAndWait env db temp).1
        (Sudos.personOfResponse env.decode temp.Temperature.Wigand resp)
        [Call.Log LogLevel.warn]).2.2.2) (by
    erw [hall]; exact List.mem_singleton.mpr rfl)
  simp only at hok
  rw [hd3] at hok
  obtain ⟨stored, hflag⟩ := SetPerson_flag db1 env.now _ _
    { Sudos.personOfResponse env.decode temp.Temperature.Wigand resp with Image := [] } hok
  have hflag2 : (db1.SetPerson env.now env.setPersonTakeFault env.setPersonWriteFault
      { Sudos.personOfResponse env.decode temp.Temperature.Wigand resp with Image := [] }).2
      = .ok (stored, ((env.others db.persons).find?
          (fun r => r.Wigand == toInt temp.Temperature.Wigand.ID)).isNone) := by
    rw [hflag, hd1, hl8]; rfl
  obtain ⟨hp1, hp2⟩ := hf4 (by rw [hd3]; exact hok)
  refine ⟨stored, ?_, ?_, ?_, hpm, hp1, hp2, rfl, rfl, rfl, rfl, rfl, rfl⟩
  · erw [hall, hd4, hd3, hflag2]
  · intro hsame
    rw [hsame]
    refine ⟨by rw [hfind]; rfl, ?_⟩
    obtain ⟨row, hrow1, hrow2⟩ := SetPerson_created db1 env.now env.setPersonTakeFault
      env.setPersonWriteFault
      { Sudos.personOfResponse env.decode temp.Temperature.Wigand resp with Image := [] }
      (by rw [hd1, hl8, hsame]; exact hfind) hok
    have heq := hflag.symm.trans hrow2
    simp only [Except.ok.injEq, Prod.mk.injEq] at heq
    refine ⟨row, heq.1, ?_⟩
    rw [hf3, hd2, hrow1, hd1, hl8, hsame]
  · rfl

/-- C6, refuted as stated: for an event that carries card number 0 the lookup
ends with an error that is not NotFound, and the run of the worker contains no
append to the measurement log at all. -/
theorem C6_no_append_on_lookup_error :
    exampleDb.GetPerson none 0 = .error "передан некорректный номер wigand=0" ∧
    IsNotFound "передан некорректный номер wigand=0" = false ∧
    logAppends (exampleManager.temperatureInWorker
      (exampleEnv 5000 (PersonOutcome.answered exampleFrame)) exampleDb (exampleEvent 0)).2.all
      = [] := by
  refine ⟨rfl, by decide, by decide⟩

/-- C6, amended: for every aggregated event whose identity lookup ends with
found or with not found, whatever the outcome of the registry request,
`temperatureInWorker` appends exactly one measurement log entry (one call of
`SetTemperatureLog`), and a failure of that append is not propagated: the
worker goes on to join its task, and the task, the status goroutine and the
notifications are the same whatever fault the append meets. When the lookup
ends with another error, the worker returns without an append. -/
theorem C6_append_once (m : Manager) (env : Env) (db : Db) (temp : TermopadTemperatureEvent) :
    (((∃ person, db.GetPerson env.getPersonFault temp.Temperature.Wigand.ID = .ok person) ∨
      (∃ err, db.GetPerson env.getPersonFault temp.Temperature.Wigand.ID = .error err ∧
        IsNotFound err = true)) →
      logAppends (m.temperatureInWorker env db temp).2.all
        = [env.logFault.map (fun e => e.val)] ∧
      (m.temperatureInWorker env db temp).2.main.getLast? = some Call.GroupWait ∧
      (∀ fault : Option EngineError,
        (m.temperatureInWorker { env with logFault := fault } db temp).2.group
          = (m.temperatureInWorker env db temp).2.group ∧
        (m.temperatureInWorker { env with logFault := fault } db temp).2.detached
          = (m.temperatureInWorker env db temp).2.detached ∧
        published (m.temperatureInWorker { env with logFault := fault } db temp).2.main
          = published (m.temperatureInWorker env db temp).2.main)) ∧
    (∀ err, db.GetPerson env.getPersonFault temp.Temperature.Wigand.ID = .error err →
      IsNotFound err = false →
      logAppends (m.temperatureInWorker env db temp).2.all = []) := by
  constructor
  · intro hlookup
    have hlw : ∀ e : Env, logAppends (logAndWait e db temp).2 = [e.logFault.map (fun x => x.val)] ∧
        (logAndWait e db temp).2.getLast? = some Call.GroupWait ∧
        published (logAndWait e db temp).2 = [] := fun e =>
      ⟨(logAndWait_counts e db temp).2.2.2.2.2.1, (logAndWait_counts e db temp).2.2.2.2.2.2.1,
        (logAndWait_counts e db temp).1⟩
    have hst : ∀ e : Env, (logAndWait e db temp).1.persons = db.persons ∧
        (logAndWait e db temp).1.personFiles = db.personFiles := fun e => logAndWait_store e db temp
    rcases hlookup with ⟨person, hget⟩ | ⟨err, hget, hnf⟩
    · obtain ⟨row, _, hup, _⟩ := GetPerson_ok db _ _ person hget
      obtain ⟨-, -, -, -, -, hn⟩ := notifyTask_counts env person temp
      have hget2 : ∀ fault : Option EngineError,
          db.GetPerson ({ env with logFault := fault } : Env).getPersonFault
            temp.Temperature.Wigand.ID = .ok person := fun _ => hget
      by_cases hstale : m.updatePersonInterval < timeSince env.now row.UpdatedAt
      · have hstale2 : ∀ fault : Option EngineError, m.updatePersonInterval
            < timeSince ({ env with logFault := fault } : Env).now row.UpdatedAt := fun _ => hstale
        have hrl := refreshTask_logAppends env (logAndWait env db temp).1 temp
        refine ⟨?_, ?_, ?_⟩
        · simp only [Manager.temperatureInWorker, hget, hup, hstale, if_true, Run.all]
          obtain ⟨h1, -, -⟩ := hlw env
          generalize refreshTask env (logAndWait env db temp).1 temp = rt at hrl ⊢
          generalize logAndWait env db temp = lw at h1 ⊢
          generalize notifyTask env person temp = nt at hn ⊢
          simp [logAppends, logAppends_append, h1, hn, hrl]
        · simp only [Manager.temperatureInWorker, hget, hup, hstale, if_true]
          obtain ⟨-, h2, -⟩ := hlw env
          generalize logAndWait env db temp = lw at h2 ⊢
          rw [List.getLast?_append, h2]; rfl
        · intro fault
          simp only [Manager.temperatureInWorker, hget, hget2 fault, hup, hstale, hstale2 fault,
            if_true]
          refine ⟨?_, rfl, ?_⟩
          · exact refreshTask_congr env fault _ _ temp
              ((hst _).1.trans (hst env).1.symm) ((hst _).2.trans (hst env).2.symm)
          · obtain ⟨-, -, h3⟩ := hlw env
            obtain ⟨-, -, h4⟩ := hlw { env with logFault := fault }
            simp only [published_append, h3, h4]
      · have hstale2 : ∀ fault : Option EngineError, ¬ m.updatePersonInterval
            < timeSince ({ env with logFault := fault } : Env).now row.UpdatedAt := fun _ => hstale
        refine ⟨?_, ?_, ?_⟩
        · simp only [Manager.temperatureInWorker, hget, hup, hstale, if_false, Run.all]
          obtain ⟨h1, -, -⟩ := hlw env
          generalize logAndWait env db temp = lw at h1 ⊢
          generalize notifyTask env person temp = nt at hn ⊢
          simp [logAppends, logAppends_append, h1, hn]
        · simp only [Manager.temperatureInWorker, hget, hup, hstale, if_false]
          obtain ⟨-, h2, -⟩ := hlw env
          generalize logAndWait env db temp = lw at h2 ⊢
          rw [List.getLast?_append, h2]; rfl
        · intro fault
          obtain ⟨-, -, h3⟩ := hlw env
          obtain ⟨-, -, h4⟩ := hlw { env with logFault := fault }
          refine ⟨?_, ?_, ?_⟩
          · simp only [Manager.temperatureInWorker, hget, hget2 fault, hup, hstale,
              hstale2 fault, if_false]
          · simp only [Manager.temperatureInWorker, hget, hget2 fault, hup, hstale,
              hstale2 fault, if_false]
            rfl
          · simp only [Manager.temperatureInWorker, hget, hget2 fault, hup, hstale,
              hstale2 fault, if_false, published_append, h3, h4]
    · have hget2 : ∀ fault : Option EngineError,
          db.GetPerson ({ env with logFault := fault } : Env).getPersonFault
            temp.Temperature.Wigand.ID = .error err := fun _ => hget
      obtain ⟨hf1, hf2⟩ := fetchTask_logAppends env (logAndWait env db temp).1 temp
      refine ⟨?_, ?_, ?_⟩
      · simp only [Manager.temperatureInWorker, hget, hnf, if_true, Run.all]
        obtain ⟨h1, -, -⟩ := hlw env
        generalize fetchTask env (logAndWait env db temp).1 temp = ft at hf1 hf2 ⊢
        generalize logAndWait env db temp = lw at h1 ⊢
        simp [logAppends, logAppends_append, h1, hf1, hf2]
      · simp only [Manager.temperatureInWorker, hget, hnf, if_true]
        obtain ⟨-, h2, -⟩ := hlw env
        generalize logAndWait env db temp = lw at h2 ⊢
        rw [List.getLast?_append, h2]; rfl
      · intro fault
        simp only [Manager.temperatureInWorker, hget, hget2 fault, hnf, if_true]
        have hc := fetchTask_congr env fault (logAndWait { env with logFault := fault } db temp).1
          (logAndWait env db temp).1 temp
          ((hst _).1.trans (hst env).1.symm) ((hst _).2.trans (hst env).2.symm)
        refine ⟨congrArg Prod.fst hc, congrArg Prod.snd hc, ?_⟩
        obtain ⟨-, -, h3⟩ := hlw env
        obtain ⟨-, -, h4⟩ := hlw { env with logFault := fault }
        simp only [published_append, h3, h4]
  · intro err hget hnf
    simp [Manager.temperatureInWorker, hget, hnf, Run.all, logAppends]

/-- Instance of the amended C6: an event for the stored card 65538. -/
theorem C6_append_once_witness :
    logAppends (exampleManager.temperatureInWorker
      (exampleEnv 5000 (PersonOutcome.answered exampleFrame)) exampleDb (exampleEvent 65538)).2.all
      = [none] :=
  ((C6_append_once exampleManager (exampleEnv 5000 (PersonOutcome.answered exampleFrame))
    exampleDb (exampleEvent 65538)).1 (Or.inl ⟨examplePerson, rfl⟩)).1

/-- Instance of C3: the stored record of card 65538 is two hours old when the
event arrives, so one fetch is issued next to the single notification. -/
theorem C3_known_identity_witness :
    exampleDb.GetPerson none 65538 = .ok examplePerson ∧
    ∃ updateAt, examplePerson.UpdateAt = some updateAt ∧
      published (exampleManager.temperatureInWorker
        (exampleEnv (1000 + 2 * hour) (PersonOutcome.answered exampleFrame)) exampleDb
        (exampleEvent 65538)).2.all
        = [enriched (exampleEnv (1000 + 2 * hour) (PersonOutcome.answered exampleFrame))
            (exampleEvent 65538) examplePerson] ∧
      (exampleManager.updatePersonInterval
          < timeSince (exampleEnv (1000 + 2 * hour) (PersonOutcome.answered exampleFrame)).now
            updateAt →
        fetches (exampleManager.temperatureInWorker
          (exampleEnv (1000 + 2 * hour) (PersonOutcome.answered exampleFrame)) exampleDb
          (exampleEvent 65538)).2.all = [(exampleEvent 65538).Temperature.Wigand]) ∧
      (¬ exampleManager.updatePersonInterval
          < timeSince (exampleEnv (1000 + 2 * hour) (PersonOutcome.answered exampleFrame)).now
            updateAt →
        fetches (exampleManager.temperatureInWorker
          (exampleEnv (1000 + 2 * hour) (PersonOutcome.answered exampleFrame)) exampleDb
          (exampleEvent 65538)).2.all = []) :=
  ⟨rfl, (C3_known_identity exampleManager
    (exampleEnv (1000 + 2 * hour) (PersonOutcome.answered exampleFrame)) exampleDb
    (exampleEvent 65538) examplePerson rfl).imp (fun _ h => ⟨h.1, h.2.1, h.2.2.1, h.2.2.2.1⟩)⟩

/-- Instance of the amended C4: an event for card 7, unknown to the store,
with the registry answering `exampleFrame` and no other worker writing. -/
theorem C4_unknown_card_fetched_witness :
    exampleDb.GetPerson none 7 = .error ErrRecordNotFound ∧
    ∃ stored : Person,
      recordWrites (exampleManager.temperatureInWorker
        (exampleEnv 5000 (PersonOutcome.answered exampleFrame.conform)) exampleDb
        (exampleEvent 7)).2.all
        = [({ Sudos.personOfResponse (fun _ => none) { ID := 7 } exampleFrame.conform with
              Image := [] }, .ok (stored, true))] :=
  ⟨rfl,
    (C4_unknown_card_fetched exampleManager
      (exampleEnv 5000 (PersonOutcome.answered exampleFrame.conform)) exampleDb (exampleEvent 7)
      ErrRecordNotFound exampleFrame.conform rfl rfl rfl (by decide)).imp (fun _ h => h.1)⟩

/-- Instance of C5: an event for card 7, unknown to the store, with the
registry request timing out. -/
theorem C5_unknown_card_failed_fetch_witness :
    exampleDb.GetPerson none 7 = .error ErrRecordNotFound ∧
    recordWrites (exampleManager.temperatureInWorker
      (exampleEnv 5000 (PersonOutcome.failed "timeout")) exampleDb (exampleEvent 7)).2.all = [] ∧
    notifies (exampleManager.temperatureInWorker
      (exampleEnv 5000 (PersonOutcome.failed "timeout")) exampleDb (exampleEvent 7)).2.all = 0 :=
  have h := C5_unknown_card_failed_fetch exampleManager
    (exampleEnv 5000 (PersonOutcome.failed "timeout")) exampleDb (exampleEvent 7)
    ErrRecordNotFound "timeout" rfl rfl rfl
  ⟨rfl, h.1, h.2.2.2.1⟩
/-! ## Claims on the file-name parser -/

/-- C11 (as stated, refuted): the file name `27-11-2020--1234--36.5.jpg` holds
no time of the day, the expression of `Parse` finds no match in it and `Parse`
returns the error of an unrecognised format. -/
theorem C11_name_without_time_refused :
    (TermopadFileName.Parse "27-11-2020--1234--36.5.jpg").2
      = some "формат имени файла не распознан" := by
  decide

/-- C11 (amended): `Parse` applied to `27-11-2020--12-37-54--1234--36.5.jpg`
returns no error and yields the time 2020-11-27 12:37:54, the card number 1234
and the temperature 36.5, with the file name kept. -/
theorem C11_name_with_time_parsed :
    (TermopadFileName.Parse "27-11-2020--12-37-54--1234--36.5.jpg").2 = none ∧
    (TermopadFileName.Parse "27-11-2020--12-37-54--1234--36.5.jpg").1.Time
      = { year := 2020, month := 11, day := 27, hour := 12, minute := 37, second := 54 } ∧
    (TermopadFileName.Parse "27-11-2020--12-37-54--1234--36.5.jpg").1.Wigand.ID = 1234 ∧
    (TermopadFileName.Parse "27-11-2020--12-37-54--1234--36.5.jpg").1.Temperature
      = F64.fin (73 / 2) ∧
    (TermopadFileName.Parse "27-11-2020--12-37-54--1234--36.5.jpg").1.FileName
      = "27-11-2020--12-37-54--1234--36.5.jpg" :=
  ⟨by decide, by decide, by decide, by decide!, by decide⟩

/-- C12 (as stated, refuted): a file name of the form with a valid date and
time and the card number 1234 whose temperature is written with 40 digits
before the point is beyond the range of `float32`; `ParseFloat` reports a range
error and `Parse` returns an error. -/
theorem C12_temperature_out_of_range :
    (TermopadFileName.Parse
      "27-11-2020--12-37-54--1234--1000000000000000000000000000000000000000.0.jpg").2
      = some "в имени файла не удалось расознать температуту" := by
  decide

/-- C12 (amended): for every file name `DD-MM-YYYY--HH-MM-SS--C--T1.T2.jpg` in
which the date and time are valid and written with two-digit day, month, hour,
minute and second and a four-digit year, `C` is a non-empty text of digits
whose value fits in an `int`, and `T1`, `T2` are non-empty texts of digits with
at most 38 digits in `T1`, `Parse` returns no error, the time is that date and
time, the card number is the value of `C`, the temperature is the `float32`
nearest to `T1.T2`, and the file name is the input. -/
theorem C12_parse_exact_form (w : Stamp) (card t1 t2 : List Char) (hw : w.Valid)
    (hcard : IsRun isDigit card) (hfit : decimalVal card ≤ 9223372036854775807)
    (h1 : IsRun isDigit t1) (h2 : IsRun isDigit t2) (hlen : t1.length ≤ 38) :
    TermopadFileName.Parse (w.fileName card [] t1 t2)
      = ({ Time := w.time
           Wigand := { ID := decimalVal card }
           Temperature := F64.fin (nearestFloat32 (decimalVal (t1 ++ t2)) (10 ^ t2.length))
           FileName := w.fileName card [] t1 t2 }, none) := by
  rw [Parse_stamp w card [] t1 t2 hw hcard.card (Or.inl rfl) h1 h2]
  unfold parseRest
  simp only [ParseFloat32_digits t1 t2 h1 h2 hlen, Atoi_digits card hcard hfit]
  rw [toUint_natCast _ (by unfold uintMod; omega)]
  simp [TermopadFileName.zero]

/-- Instance of C12 at `27-11-2020--12-37-54--1234--36.5.jpg`. -/
theorem C12_parse_exact_form_witness :
    exampleStamp.fileName "1234".data [] "36".data "5".data
      = "27-11-2020--12-37-54--1234--36.5.jpg" ∧
    TermopadFileName.Parse (exampleStamp.fileName "1234".data [] "36".data "5".data)
      = ({ Time := exampleStamp.time
           Wigand := { ID := decimalVal "1234".data }
           Temperature :=
             F64.fin (nearestFloat32 (decimalVal ("36".data ++ "5".data)) (10 ^ "5".data.length))
           FileName := exampleStamp.fileName "1234".data [] "36".data "5".data }, none) :=
  ⟨by decide, C12_parse_exact_form exampleStamp "1234".data "36".data "5".data (by decide)
    (by decide) (by decide) (by decide) (by decide) (by decide)⟩

/-- C13 (as stated, refuted): a file name of the form with a valid date and
time and the card token `Unknown` whose temperature is written with 40 digits
before the point is refused: `ParseFloat` reports a range error. -/
theorem C13_unknown_with_temperature_out_of_range :
    (TermopadFileName.Parse
      "27-11-2020--12-37-54--Unknown--1000000000000000000000000000000000000000.0.jpg").2
      = some "в имени файла не удалось расознать температуту" := by
  decide

/-- C13 (amended): for every file name of the grammar with a valid date and
time (written as in C12) whose card token is the word `unknown` in any letter
case, and whose temperature either follows a minus sign or has at most 38
digits before the point, `Parse` returns no error and sets the card number to
0, so that `IsEmpty` is true. For every file name of the grammar, whatever its
date and time, whose card token is not that word in any letter case and is not
a text of decimal digits, `Parse` returns an error. -/
theorem C13_unknown_card (card sign t1 t2 : List Char) (hsign : sign = [] ∨ sign = ['-'])
    (h1 : IsRun isDigit t1) (h2 : IsRun isDigit t2) :
    (∀ w : Stamp, w.Valid → ToLower card = "unknown".data → (sign = ['-'] ∨ t1.length ≤ 38) →
      (TermopadFileName.Parse (w.fileName card sign t1 t2)).2 = none ∧
      (TermopadFileName.Parse (w.fileName card sign t1 t2)).1.Wigand.ID = 0 ∧
      (TermopadFileName.Parse (w.fileName card sign t1 t2)).1.Wigand.IsEmpty = true) ∧
    (∀ dd mm yyyy hh mi ss : List Char, IsRun isDigit dd → IsRun isDigit mm →
      IsRun isDigit yyyy → IsRun isDigit hh → IsRun isDigit mi → IsRun isDigit ss →
      IsRun isCard card → ToLower card ≠ "unknown".data → ¬ card.all isDigit = true →
      (TermopadFileName.Parse
        (String.mk (fileNameForm dd mm yyyy hh mi ss card sign t1 t2))).2 ≠ none) := by
  constructor
  · intro w hw hu htemp
    obtain ⟨hcard, hatoi⟩ := ToLower_unknown card hu
    rw [Parse_stamp w card sign t1 t2 hw hcard hsign h1 h2]
    unfold parseRest
    rcases htemp with rfl | hlen
    · simp [hatoi, hu, toUint, Wigand.IsEmpty]
    · rcases hsign with rfl | rfl
      · simp [ParseFloat32_digits t1 t2 h1 h2 hlen, hatoi, hu, toUint, Wigand.IsEmpty]
      · simp [hatoi, hu, toUint, Wigand.IsEmpty]
  · intro dd mm yyyy hh mi ss hdd hmm hyy hhh hmi hss hcard hnu hnd
    rw [Parse_form dd mm yyyy hh mi ss card sign t1 t2 hdd hmm hyy hhh hmi hss hcard hsign h1 h2]
    have hatoi := Atoi_not_digits card hcard hnd
    cases parseTime
        (dd ++ '-' :: (mm ++ '-' :: (yyyy ++ '-' :: '-' :: (hh ++ '-' :: (mi ++ '-' :: ss)))))
      with
    | error e => simp
    | ok t =>
      simp only [parseRest]
      split
      · simp
      · rw [if_pos ⟨hatoi, hnu⟩]
        simp

/-- Instance of C13 at `27-11-2020--12-37-54--UnKnOwN--36.5.jpg` and at
`27-11-2020--12-37-54--12ab--36.5.jpg`. -/
theorem C13_unknown_card_witness :
    ((TermopadFileName.Parse (exampleStamp.fileName "UnKnOwN".data [] "36".data "5".data)).2
        = none ∧
      (TermopadFileName.Parse
        (exampleStamp.fileName "UnKnOwN".data [] "36".data "5".data)).1.Wigand.ID = 0 ∧
      (TermopadFileName.Parse
        (exampleStamp.fileName "UnKnOwN".data [] "36".data "5".data)).1.Wigand.IsEmpty = true) ∧
    (TermopadFileName.Parse
      (String.mk (fileNameForm "27".data "11".data "2020".data "12".data "37".data "54".data
        "12ab".data [] "36".data "5".data))).2 ≠ none :=
  ⟨(C13_unknown_card "UnKnOwN".data [] "36".data "5".data (by decide) (by decide)
      (by decide)).1 exampleStamp (by decide) (by decide) (by decide),
    (C13_unknown_card "12ab".data [] "36".data "5".data (by decide) (by decide)
      (by decide)).2 "27".data "11".data "2020".data "12".data "37".data "54".data
      (by decide) (by decide) (by decide) (by decide) (by decide) (by decide) (by decide)
      (by decide) (by decide)⟩

/-- C14 (amended): for every file name of the grammar, with a valid date and time
written as in C12 and a card token that is either a non-empty text of digits
whose value fits in an `int` or the word `unknown` in any letter case, whose
temperature follows a minus sign, `Parse` returns no error and sets the
temperature to exactly 0, whatever the digits of the temperature are. -/
theorem C14_negative_reading (w : Stamp) (card t1 t2 : List Char) (hw : w.Valid)
    (hcard : (IsRun isDigit card ∧ decimalVal card ≤ 9223372036854775807) ∨
      ToLower card = "unknown".data)
    (h1 : IsRun isDigit t1) (h2 : IsRun isDigit t2) :
    (TermopadFileName.Parse (w.fileName card ['-'] t1 t2)).2 = none ∧
    (TermopadFileName.Parse (w.fileName card ['-'] t1 t2)).1.Temperature = F64.fin 0 := by
  rcases hcard with ⟨hrun, hfit⟩ | hu
  · rw [Parse_stamp w card ['-'] t1 t2 hw hrun.card (Or.inr rfl) h1 h2]
    unfold parseRest
    simp [Atoi_digits card hrun hfit]
  · obtain ⟨hrun, hatoi⟩ := ToLower_unknown card hu
    rw [Parse_stamp w card ['-'] t1 t2 hw hrun (Or.inr rfl) h1 h2]
    unfold parseRest
    simp [hatoi, hu]

/-- Instance of C14 at `27-11-2020--12-37-54--1234---98765.4321.jpg`. -/
theorem C14_negative_reading_witness :
    exampleStamp.fileName "1234".data ['-'] "98765".data "4321".data
      = "27-11-2020--12-37-54--1234---98765.4321.jpg" ∧
    (TermopadFileName.Parse
      (exampleStamp.fileName "1234".data ['-'] "98765".data "4321".data)).2 = none ∧
    (TermopadFileName.Parse
      (exampleStamp.fileName "1234".data ['-'] "98765".data "4321".data)).1.Temperature
      = F64.fin 0 :=
  ⟨by decide, C14_negative_reading exampleStamp "1234".data "98765".data "4321".data (by decide)
    (Or.inl ⟨by decide, by decide⟩) (by decide) (by decide)⟩

/-- C14 (as stated, refuted): the file name
`31-02-2020--12-37-54--1234---36.5.jpg` is of the grammar and its temperature
follows a minus sign, and `Parse` returns an error: February has no day 31. -/
theorem C14_minus_sign_with_invalid_date :
    InGrammar "31-02-2020--12-37-54--1234---36.5.jpg".data ∧
    (TermopadFileName.Parse "31-02-2020--12-37-54--1234---36.5.jpg").2
      = some "некорректный формат записи времени в имени файла" :=
  ⟨⟨"31".data, "02".data, "2020".data, "12".data, "37".data, "54".data, "1234".data, ['-'],
      "36".data, "5".data, by decide, by decide, by decide, by decide, by decide, by decide,
      by decide, Or.inr rfl, by decide, by decide, by decide⟩,
    by decide⟩

/-! ## Claims on the loop of the connection to a kiosk -/

/-- C15: for every file name that holds no part matching the grammar, and for
every file name in which the expression matches and the date and time token
of the match is refused by `time.Parse`, `Parse` returns an error; the loop of
`connect`, on a `newImage` frame that carries that file name, puts nothing in
the queue of results and goes on with the next event (it does not return). -/
theorem C15_unparsable_file_name (fileName : String)
    (h : NoGrammarSubstring fileName.data ∨ DateTokenInvalid fileName.data) :
    (TermopadFileName.Parse fileName).2 ≠ none ∧
    ∀ (download : String → Option (List Nat)) (st : ConnState) (msg : TermopadAction),
      msg.Action = "newImage" → msg.FileName = fileName →
        (handleMessage download st (some msg)).resultChan = st.resultChan ∧
        ∀ rest : List LoopEvent,
          connectLoop download st (.message (some msg) :: rest)
            = connectLoop download (handleMessage download st (some msg)) rest := by
  have herr : (TermopadFileName.Parse fileName).2 ≠ none := by
    rcases h with h | h
    · rw [Parse_error_of_noGrammar fileName h]; simp
    · rw [Parse_error_of_dateToken fileName h]; simp
  refine ⟨herr, ?_⟩
  intro download st msg _ hname
  subst hname
  exact ⟨handleMessage_unparsable download st msg herr, fun _ => rfl⟩

/-- Instance of C15 at `27-11-2020--1234--36.5.jpg`, which holds no part of
the grammar, on a connection that has just been opened. -/
theorem C15_unparsable_file_name_witness :
    (TermopadFileName.Parse "27-11-2020--1234--36.5.jpg").2 ≠ none ∧
    ∀ (download : String → Option (List Nat)) (st : ConnState) (msg : TermopadAction),
      msg.Action = "newImage" → msg.FileName = "27-11-2020--1234--36.5.jpg" →
        (handleMessage download st (some msg)).resultChan = st.resultChan ∧
        ∀ rest : List LoopEvent,
          connectLoop download st (.message (some msg) :: rest)
            = connectLoop download (handleMessage download st (some msg)) rest :=
  C15_unparsable_file_name "27-11-2020--1234--36.5.jpg"
    (Or.inl (noGrammar_of_dashes _ (by decide)))

/-- C16: in the loop of one connection, after any sequence of valid frames, a
`newImage` frame whose file name is that of the last `newImage` frame before it
leaves the state of the loop, and so the queue of results, as it is. Hence
`k ≥ 1` frames in a row with one file name do what the first of them does:
they put at most one event in the queue, and exactly one, built from the parsed
file name and the downloaded image, when the file name differs from the one
remembered from before the run, is parsed, its image is downloaded and the
queue has room. -/
theorem C16_duplicate_suppression (download : String → Option (List Nat)) (st : ConnState)
    (frames : List TermopadAction) (msg : TermopadAction) (k : Nat)
    (hframes : ∀ f ∈ frames, f.Validate = none) (hvalid : msg.Validate = none)
    (hact : msg.Action = "newImage") (hk : 1 ≤ k) :
    (lastNewImage frames = some msg.FileName →
      handleMessage download (handleMessages download st (frames.map some)) (some msg)
        = handleMessages download st (frames.map some)) ∧
    handleMessages download st (List.replicate k (some msg))
      = handleMessage download st (some msg) ∧
    ((handleMessages download st (List.replicate k (some msg))).resultChan = st.resultChan ∨
      ∃ e, (handleMessages download st (List.replicate k (some msg))).resultChan
        = st.resultChan ++ [e]) ∧
    (∀ content : List Nat, msg.FileName ≠ st.prevousFileName →
      (TermopadFileName.Parse msg.FileName).2 = none →
      download (imageUrl st.host msg.FileName) = some content →
      st.resultChan.length < MaximumResultChan →
      (handleMessages download st (List.replicate k (some msg))).resultChan = st.resultChan ++
        [{ Temperature := (TermopadFileName.Parse msg.FileName).1.Temperature
           Wigand := (TermopadFileName.Parse msg.FileName).1.Wigand
           Image := content }]) := by
  obtain ⟨j, rfl⟩ : ∃ j, k = j + 1 := ⟨k - 1, by omega⟩
  have hrun := handleMessages_replicate download st msg hvalid hact j
  refine ⟨?_, hrun, ?_, ?_⟩
  · intro hlast
    exact handleMessage_same download _ msg
      (handleMessages_prev download st frames _ hframes hlast).symm
  · rw [hrun]
    exact handleMessage_chan download st (some msg)
  · intro content hname hparse hdown hroom
    rw [hrun]
    exact handleMessage_enqueues download st msg content hvalid hact hname hparse hdown hroom

/-- Instance of C16 on a connection just opened: three frames in a row with
the file name `27-11-2020--12-37-54--1234--36.5.jpg` put one event in the
queue. -/
theorem C16_duplicate_suppression_witness :
    (handleMessages exampleDownload freshConn
      (List.replicate 3 (some (newImageFrame "27-11-2020--12-37-54--1234--36.5.jpg")))).resultChan
      = [{ Temperature :=
             (TermopadFileName.Parse "27-11-2020--12-37-54--1234--36.5.jpg").1.Temperature
           Wigand := (TermopadFileName.Parse "27-11-2020--12-37-54--1234--36.5.jpg").1.Wigand
           Image := [255, 216, 255] }] :=
  (C16_duplicate_suppression exampleDownload freshConn
    [newImageFrame "27-11-2020--12-37-54--1234--36.5.jpg"]
    (newImageFrame "27-11-2020--12-37-54--1234--36.5.jpg") 3 (by decide) (by decide) (by decide)
    (by decide)).2.2.2 [255, 216, 255] (by decide) (by decide) rfl (by decide)

/-! ## Claims on the pending table, the notification and the thresholds -/

/-- C17 (as stated, refuted): a caller asks for card 7 at instant 0 and times
out after three seconds; the pending table still holds the entry of the key
with the channel of that caller, and a call for the same card one second later
is attached to that entry. -/
theorem C17_timed_out_entry_remains :
    (((freshSudos.PersonSend 0 { ID := 7 }).1.PersonWait (fun _ => none) { ID := 7 } 0
        WaitCase.timeout).map (fun r => Cache.Get r.1.cache (3 * second) "7"))
      = some (some [0]) ∧
    Cache.Get ((freshSudos.PersonSend 0 { ID := 7 }).1.PersonSend (4 * second) { ID := 7 }).1.cache
      (4 * second) "7" = some [0, 1] := by
  decide

/-- C17 (amended): a waiter that times out in `Sudos.Person` returns its error
and leaves the state, the pending table included, as it is. An entry of the
table set at an instant `t0` (not before the epoch) is found until
`cacheExpiration` (five minutes) after `t0`. A
later `Person` call for the key is attached to the entry that is still found,
the channels of the waiters that timed out included, and makes a new entry
with its channel alone when none is found. -/
theorem C17_entry_outlives_timeout (m : Sudos) (decode : String → Option (List Nat))
    (wigand : Wigand) (response : Nat) (now : Int) (hw : wigand.ID ≠ 0) :
    m.PersonWait decode wigand response WaitCase.timeout
      = some (m, .error ("время ожидания ответа для ключа " ++ Sudos.key wigand ++ " вышло")) ∧
    (∀ (c : Cache) (t0 : Int) (x : List Nat), 0 ≤ t0 →
      Cache.Get (Cache.Set c t0 cacheExpiration (Sudos.key wigand) x) now (Sudos.key wigand)
        = if t0 + cacheExpiration < now then none else some x) ∧
    (∀ channels, Cache.Get m.cache now (Sudos.key wigand) = some channels →
      Cache.Get (m.PersonSend now wigand).1.cache now (Sudos.key wigand)
        = some (channels ++ [m.chans.length])) ∧
    (Cache.Get m.cache now (Sudos.key wigand) = none →
      Cache.Get (m.PersonSend now wigand).1.cache now (Sudos.key wigand)
        = some [m.chans.length]) := by
  have hv : (!wigand.valid) = false := by simp [Wigand.valid, hw]
  have hd : (0 : Int) < cacheExpiration := by decide
  refine ⟨rfl, ?_, ?_, ?_⟩
  · intro c t0 x ht0
    simp only [Cache.Get, Cache.Set, List.lookup_cons, beq_self_eq_true, if_pos hd]
    by_cases h : t0 + cacheExpiration < now
    · rw [if_pos h, if_pos ⟨by omega, h⟩]
    · rw [if_neg h, if_neg (fun hc => h hc.2)]
  · intro channels hg
    have hset := Get_Set m.cache now now (Sudos.key wigand) (channels ++ [m.chans.length])
      (by omega)
    simp only [Sudos.PersonSend, hv, hg, Bool.false_eq_true, if_false]
    by_cases hroom : m.writeChan.length < writeChanCapacity
    · rw [if_pos hroom]; exact hset
    · rw [if_neg hroom]; exact hset
  · intro hg
    have hset := Get_Set m.cache now now (Sudos.key wigand) [m.chans.length] (by omega)
    simp only [Sudos.PersonSend, hv, hg, Cache.Add, Bool.false_eq_true, if_false]
    by_cases hroom : m.writeChan.length < writeChanCapacity
    · rw [if_pos hroom]; exact hset
    · rw [if_neg hroom]; exact hset

/-- Instance of C17: the caller for card 7 registered at instant 0 has timed
out, and the state is the one it left. -/
theorem C17_entry_outlives_timeout_witness :
    (freshSudos.PersonSend 0 { ID := 7 }).1.PersonWait (fun _ => none) { ID := 7 } 0
        WaitCase.timeout
      = some ((freshSudos.PersonSend 0 { ID := 7 }).1,
          .error ("время ожидания ответа для ключа " ++ Sudos.key { ID := 7 } ++ " вышло")) ∧
    Cache.Get ((freshSudos.PersonSend 0 { ID := 7 }).1.PersonSend (4 * second)
        { ID := 7 }).1.cache (4 * second) (Sudos.key { ID := 7 })
      = some ([0] ++ [(freshSudos.PersonSend 0 { ID := 7 }).1.chans.length]) :=
  have h := C17_entry_outlives_timeout (freshSudos.PersonSend 0 { ID := 7 }).1 (fun _ => none)
    { ID := 7 } 0 (4 * second) (by decide)
  ⟨h.1, h.2.2.1 [0] (by decide)⟩

/-- C18: for every person with a card number other than 0 and a context that
is not cancelled, `SetPersonTemperature` returns nil in both cases: when the
outbound queue holds its capacity of 10 messages the queue, and the whole
state, is left as it is; when the queue has room the encoded request is
appended to it. -/
theorem C18_best_effort_notify (m : Sudos) (sprintf : String → F64 → String) (pickDone : Bool)
    (person : Person) (temperature : TemperatureEvent) (termopad : TermopadInfo)
    (hcard : person.Wigand.ID ≠ 0) :
    writeChanCapacity = 10 ∧
    (writeChanCapacity ≤ m.writeChan.length →
      m.SetPersonTemperature sprintf false pickDone person temperature termopad = (m, none)) ∧
    (m.writeChan.length < writeChanCapacity →
      m.SetPersonTemperature sprintf false pickDone person temperature termopad
        = ({ m with
             writeChan := m.writeChan ++ [m.temperatureRequest sprintf person temperature termopad] },
           none)) := by
  have hv : (!person.Wigand.valid) = false := by simp [Wigand.valid, hcard]
  refine ⟨rfl, ?_, ?_⟩
  · intro hfull
    have hn : ¬ m.writeChan.length < writeChanCapacity := by omega
    simp [Sudos.SetPersonTemperature, hv, hn]
  · intro hroom
    simp [Sudos.SetPersonTemperature, hv, hroom]

/-- Instance of C18: a reading for card 65538 with the outbound queue full and
with the outbound queue empty. -/
theorem C18_best_effort_notify_witness :
    fullSudos.SetPersonTemperature exampleSprintf false false examplePerson warmReading
        (exampleEvent 65538).Info = (fullSudos, none) ∧
    freshSudos.SetPersonTemperature exampleSprintf false false examplePerson warmReading
        (exampleEvent 65538).Info
      = ({ freshSudos with
           writeChan := freshSudos.writeChan ++
             [freshSudos.temperatureRequest exampleSprintf examplePerson warmReading
               (exampleEvent 65538).Info] }, none) :=
  ⟨(C18_best_effort_notify fullSudos exampleSprintf false examplePerson warmReading
      (exampleEvent 65538).Info (by decide)).2.1 (by decide),
    (C18_best_effort_notify freshSudos exampleSprintf false examplePerson warmReading
      (exampleEvent 65538).Info (by decide)).2.2 (by decide)⟩

/-- C19 (the code at the failing input): `NewSudos` given a configuration with
the thresholds 38.0 and 35.0 builds the same `Sudos` as without them, with the
thresholds 37.5 and 34.0, and a reading of 37.7 is reported as raised. -/
theorem C19_configured_thresholds_unused :
    NewSudos exampleScheme (some thresholdConfig) = .ok freshSudos ∧
    freshSudos.maxTemperature = F64.fin (75 / 2) ∧ freshSudos.minTemperature = F64.fin 34 ∧
    (freshSudos.temperatureRequest exampleSprintf examplePerson warmReading
        (exampleEvent 65538).Info).AlarmStatus = true := by
  refine ⟨rfl, rfl, rfl, ?_⟩
  norm_num [Sudos.temperatureRequest, Sudos.temperatureMessage, F64.ge, freshSudos,
    maxTemperature, warmReading]

/-! ## Claims on the housekeeping task -/

/-- C20 (the code at the failing input): with the default settings (a
retention of 30 days, a sweep every 30 minutes) a turn of the housekeeping loop
calls `Clean` with 0 days, the sweep interval in days, and not with the 30 days
of the retention; it then sleeps for the sweep interval. -/
theorem C20_sweep_gets_interval_days :
    exampleManager.housekeeperTick exampleClean = (0, TickEnd.sleep (30 * minute)) ∧
    durationDays exampleManager.cleanBasePeriod = 30 ∧
    ∀ (m : Manager) (clean : Int → Option GoError),
      (m.housekeeperTick clean).1 = durationDays m.cleanBaseInterval := by
  refine ⟨by decide, by decide, fun m clean => ?_⟩
  simp only [Manager.housekeeperTick]
  cases clean (durationDays m.cleanBaseInterval) <;> rfl

/-! ## Claims on `Serve`, the controller of the kiosks and the worker -/

/-- C30: `Db.GetPerson(0)` returns an error whatever the store holds, and
`IsNotFound` is false for that error; the worker, given an event with card
number 0, takes the branch of a failed lookup: it logs the error and returns
without a notification, a registry request or an append to the log. -/
theorem C30_card_zero_is_a_store_failure (m : Manager) (env : Env) (db : Db)
    (temp : TermopadTemperatureEvent) (h0 : temp.Temperature.Wigand.ID = 0) :
    (∀ (d : Db) (fault : Option EngineError),
      d.GetPerson fault 0 = .error "передан некорректный номер wigand=0") ∧
    IsNotFound "передан некорректный номер wigand=0" = false ∧
    m.temperatureInWorker env db temp
      = (db, { main := [Call.GetPerson 0, Call.Log LogLevel.error], group := [], detached := [] }) := by
  refine ⟨fun d fault => by simp [Db.GetPerson], by decide, ?_⟩
  have hg : db.GetPerson env.getPersonFault temp.Temperature.Wigand.ID
      = .error "передан некорректный номер wigand=0" := by
    rw [h0]; simp [Db.GetPerson]
  have hn : IsNotFound "передан некорректный номер wigand=0" = false := by decide
  simp only [Manager.temperatureInWorker, hg, hn, h0]
  rfl

/-- Instance of C30: an event of kiosk 3 with card number 0. -/
theorem C30_card_zero_is_a_store_failure_witness :
    (∀ (d : Db) (fault : Option EngineError),
      d.GetPerson fault 0 = .error "передан некорректный номер wigand=0") ∧
    IsNotFound "передан некорректный номер wigand=0" = false ∧
    exampleManager.temperatureInWorker (exampleEnv 5000 (PersonOutcome.failed "timeout")) exampleDb
        (exampleEvent 0)
      = (exampleDb,
          { main := [Call.GetPerson 0, Call.Log LogLevel.error], group := [], detached := [] }) :=
  C30_card_zero_is_a_store_failure exampleManager
    (exampleEnv 5000 (PersonOutcome.failed "timeout")) exampleDb (exampleEvent 0) rfl

/-- C25 (the code at the failing input): the registry answers for the unknown
card 7 with a record whose organization is `Plant`; the second notification
carries the names, the department and the position of that record and an empty
organization, while the notification of the known card 65538 carries the
organization of the stored record. -/
theorem C25_second_notification_drops_organization :
    (Env.sudosPerson (exampleEnv 5000 (PersonOutcome.answered staffFrame)) { ID := 7 }).toOption.map
        (fun p => p.Organization) = some "Plant" ∧
    (published (exampleManager.temperatureInWorker
        (exampleEnv 5000 (PersonOutcome.answered staffFrame)) exampleDb (exampleEvent 7)).2.group).map
        (fun c => [c.NameFirst, c.NameMiddle, c.NameLast, c.Organization, c.Departament, c.Postion])
      = [["Ivan", "Ivanovich", "Ivanov", "", "Shop", "Fitter"]] ∧
    (published (exampleManager.temperatureInWorker
        (exampleEnv 1500 (PersonOutcome.answered staffFrame)) exampleDb (exampleEvent 65538)).2.main).map
        (fun c => [c.NameFirst, c.NameMiddle, c.NameLast, c.Organization, c.Departament, c.Postion])
      = [["Ivan", "Ivanovich", "Ivanov", "Plant", "Shop", "Fitter"]] := by
  refine ⟨rfl, ?_, ?_⟩ <;> decide

/-- C29 (the code at the failing input): `NewTermopad` with a configured depth
of 50 makes the channel `event` with the constant capacity 10 and writes 50 to
the field `eventCapacity` only; the channel has the capacity 10 whatever the
configuration says. -/
theorem C29_queue_made_before_override :
    NewTermopad (some 2) true (some { EventCapacity := 50 })
      = .ok { links := 2, eventCap := 10, eventCapacity := 50 } ∧
    ∀ (links : Option Nat) (dbStore : Bool) (config : Option ConfigTermopad) (t : Termopad),
      NewTermopad links dbStore config = .ok t → t.eventCap = 10 := by
  refine ⟨rfl, ?_⟩
  intro links dbStore config t h
  unfold NewTermopad at h
  cases config with
  | none => cases h
  | some config =>
    cases links with
    | none => cases h
    | some n =>
      cases dbStore with
      | false => cases h
      | true =>
        simp only [Bool.not_true, Bool.false_eq_true, if_false] at h
        split at h <;> (cases h; rfl)

/-- The loop of the controller starts no group after its first one. -/
theorem loopRun_groups (m : Termopad) (steps : List LoopStep) :
    ∀ s : LoopState, (m.loopRun s steps).groups = s.groups := by
  induction steps with
  | nil => intro s; rfl
  | cons a rest ih =>
    intro s
    have hstep : (m.loopStep s a).groups = s.groups := by
      cases a <;> simp only [Termopad.loopStep] <;> (repeat' split) <;> rfl
    show (m.loopRun (m.loopStep s a) rest).groups = s.groups
    rw [ih, hstep]

/-- C23 (the code at the failing input): the only task of the group ends with
the error of a read while the context is not cancelled; `g.Wait()` returns and
the loop stands in its `select` on the cancellation. No group is started
then, nor after any further steps, and the cancellation makes the loop
return. -/
theorem C23_group_not_restarted :
    (exampleTermopad.loopRun exampleTermopad.start
        [LoopStep.emit 0 (.error "read tcp: connection reset"), LoopStep.wait]).phase
      = LoopPhase.parked ∧
    (exampleTermopad.loopRun exampleTermopad.start
        [LoopStep.emit 0 (.error "read tcp: connection reset"), LoopStep.wait]).groups = 1 ∧
    (∀ (m : Termopad) (s : LoopState) (steps : List LoopStep),
      (m.loopRun s steps).groups = s.groups) ∧
    (exampleTermopad.loopRun exampleTermopad.start
        [LoopStep.emit 0 (.error "context canceled"), LoopStep.wait, LoopStep.ctxDone]).phase
      = LoopPhase.exited := by
  refine ⟨by decide, by decide, fun m s steps => loopRun_groups m steps s, by decide⟩

/-- C24 (the code at the failing input): the queue of the controller holds
its ten events when the task of a kiosk reads one more; the task is suspended
in its send with the event in hand, the queue is as it was, and the event
joins the queue once the consumer has taken one. -/
theorem C24_send_blocks_on_full_queue :
    (exampleTermopad.loopStep busyLoop (LoopStep.emit 0 (.ok (exampleEvent 9)))).event.length = 10 ∧
    (exampleTermopad.loopStep busyLoop (LoopStep.emit 0 (.ok (exampleEvent 9)))).tasks.map
        (fun t => match t with
          | LinkTask.sending e => some e.Temperature.Wigand.ID
          | _ => none) = [some 9] ∧
    ((exampleTermopad.loopRun busyLoop
        [LoopStep.emit 0 (.ok (exampleEvent 9)), LoopStep.receive, LoopStep.send 0]).event.map
        (fun e => e.Temperature.Wigand.ID)) = List.replicate 9 7 ++ [9] := by
  refine ⟨by decide, by decide, by decide⟩

/-- C21 (as stated, refuted): the first sweep fails. The housekeeping task
returns the error and the turn that would follow makes no call of `Clean`;
when the other task of the group ends too (here with the error of a failed
save of an image), `Serve` returns the error of the sweep. -/
theorem C21_sweep_error_ends_serve :
    (ServeState.start.run exampleManager
        [ServeStep.sweep failingClean, ServeStep.sweep exampleClean]).housekeeper
      = GroupTask.returned (some "database is locked") ∧
    (ServeState.start.run exampleManager
        [ServeStep.sweep failingClean, ServeStep.sweep exampleClean]).sweeps = [0] ∧
    (ServeState.start.run exampleManager
        [ServeStep.sweep failingClean, ServeStep.emit (.error "mkdir archive: permission denied") false false,
          ServeStep.done]).result = some (some "database is locked") := by
  decide

/-- C21 (amended): when `Clean` returns an error in a turn of the housekeeping
task, the task returns that error and no later step calls `Clean`. A sweep
error alone does not end `Serve`: while the task that takes the events runs,
nothing arrives on `done`. In every later state `Serve` is still running, or
has returned nil because its `select` took the cancelled context, or has
returned the first error of the group (the error of the sweep when no task
failed before) after both tasks had returned. Once the other task has
returned, both ends are open to the `select`: from `done` it returns that
error, from the cancelled context it returns nil. -/
theorem C21_sweep_error_is_returned (m : Manager) (s : ServeState)
    (clean : Int → Option GoError) (e : GoError) (hrun : s.housekeeper = .running)
    (hres : s.result = none)
    (herr : clean (durationDays m.cleanBaseInterval) = some e) :
    (s.step m (.sweep clean)).housekeeper = .returned (some e) ∧
    (s.step m (.sweep clean)).sweeps = s.sweeps ++ [durationDays m.cleanBaseInterval] ∧
    (∀ steps,
      ((s.step m (.sweep clean)).run m steps).housekeeper = .returned (some e) ∧
      ((s.step m (.sweep clean)).run m steps).sweeps
        = s.sweeps ++ [durationDays m.cleanBaseInterval]) ∧
    (∃ first, groupKeep s.groupErr (some e) = some first ∧ (s.groupErr = none → first = e) ∧
      (∀ steps,
        ((s.step m (.sweep clean)).run m steps).result = none ∨
        ((s.step m (.sweep clean)).run m steps).result = some none ∨
        ((∃ r, ((s.step m (.sweep clean)).run m steps).pump = .returned r) ∧
          ((s.step m (.sweep clean)).run m steps).result = some (some first))) ∧
      (∀ r, s.pump = .returned r →
        ((s.step m (.sweep clean)).step m .done).result = some (some first) ∧
        ((s.step m (.sweep clean)).step m .ctxDone).result = some none)) ∧
    (s.pump = .running → (s.step m (.sweep clean)).step m .done = s.step m (.sweep clean)) := by
  have hstep : s.step m (.sweep clean) =
      { s with
        sweeps := s.sweeps ++ [durationDays m.cleanBaseInterval]
        housekeeper := .returned (some e)
        groupErr := groupKeep s.groupErr (some e) } := by
    simp only [ServeState.step, hrun, Manager.housekeeperTick, herr]
  obtain ⟨first, hfirst, hfe⟩ : ∃ first, groupKeep s.groupErr (some e) = some first ∧
      (s.groupErr = none → first = e) := by
    cases hg : s.groupErr with
    | none => exact ⟨e, rfl, fun _ => rfl⟩
    | some x => exact ⟨x, rfl, fun h => by cases h⟩
  rw [hstep]
  refine ⟨rfl, rfl, ?_, ⟨first, hfirst, hfe, ?_, ?_⟩, ?_⟩
  · intro steps
    exact ServeState.run_returned m steps _ (some e) rfl
  · intro steps
    have hset := ServeState.run_settled m steps
      { s with
        sweeps := s.sweeps ++ [durationDays m.cleanBaseInterval]
        housekeeper := .returned (some e)
        groupErr := groupKeep s.groupErr (some e) } (Or.inl hres)
    have hg := ServeState.run_groupErr m steps
      { s with
        sweeps := s.sweeps ++ [durationDays m.cleanBaseInterval]
        housekeeper := .returned (some e)
        groupErr := groupKeep s.groupErr (some e) } first hfirst
    rcases hset with h | h | ⟨r, r2, hp, -, hr⟩
    · exact Or.inl h
    · exact Or.inr (Or.inl h)
    · exact Or.inr (Or.inr ⟨⟨r, hp⟩, by rw [hr, hg]⟩)
  · intro r hp
    constructor
    · simp only [ServeState.step, hp, hres, hfirst]
    · simp only [ServeState.step, hres]
  · intro hp
    simp only [ServeState.step, hp]
    split <;> simp_all

/-- Instance of C21 at the start of `Serve`, with a sweep that fails. -/
theorem C21_sweep_error_is_returned_witness :
    (ServeState.start.step exampleManager (.sweep failingClean)).housekeeper
      = .returned (some "database is locked") ∧
    (∀ steps,
      ((ServeState.start.step exampleManager (.sweep failingClean)).run exampleManager
        steps).housekeeper = .returned (some "database is locked") ∧
      ((ServeState.start.step exampleManager (.sweep failingClean)).run exampleManager
        steps).sweeps = ServeState.start.sweeps ++ [durationDays exampleManager.cleanBaseInterval]) ∧
    ((ServeState.start.step exampleManager (.sweep failingClean)).step exampleManager .done
      = ServeState.start.step exampleManager (.sweep failingClean)) :=
  have h := C21_sweep_error_is_returned exampleManager ServeState.start failingClean
    "database is locked" rfl rfl rfl
  ⟨h.1, h.2.2.1, h.2.2.2.2 rfl⟩

/-! ## Claims on the link constructor and the record store -/

/-- C26 (as stated, refuted): the description with id 1, the name ` ` (one
blank) and the address `ws://192.168.10.10:8000/feed` has a name that is not
empty, and `NewWebsocket` refuses it: the name is trimmed before it is
checked. -/
theorem C26_blank_name_refused :
    NewWebsocket exampleScheme (some (kioskConfig 1 "ws://192.168.10.10:8000/feed" " "))
      = .error (Annotate validationError "некорректное описание термопада") := by
  rfl

/-- C26 (amended): `NewWebsocket` returns an error for a nil config and for
every description with id 0, or with a name that is empty once trimmed, or with
an address that, once trimmed, is empty or has a scheme other than `ws`; it
returns no error, and keeps the trimmed description, for every description
with an id other than 0, a name that is not empty once trimmed and an address
that, once trimmed, is not empty and has the scheme `ws`. -/
theorem C26_descriptor_validation (scheme : String → Option String) (config : ConfigWebsocket) :
    NewWebsocket scheme none = .error "не задана конфигурация config" ∧
    ((config.TermopadInfo.ID = 0 ∨ TrimSpace config.TermopadInfo.Name = "" ∨
        TrimSpace config.TermopadInfo.URL = "" ∨
        scheme (TrimSpace config.TermopadInfo.URL) ≠ some "ws") →
      NewWebsocket scheme (some config)
        = .error (Annotate validationError "некорректное описание термопада")) ∧
    ((config.TermopadInfo.ID ≠ 0 ∧ TrimSpace config.TermopadInfo.Name ≠ "" ∧
        TrimSpace config.TermopadInfo.URL ≠ "" ∧
        scheme (TrimSpace config.TermopadInfo.URL) = some "ws") →
      ∃ w, NewWebsocket scheme (some config) = .ok w ∧
        w.termopadInfo = config.TermopadInfo.conform) := by
  refine ⟨rfl, ?_, ?_⟩
  · intro h
    have hv : (config.TermopadInfo.conform).valid scheme = false := by
      simp only [TermopadInfo.valid, TermopadInfo.conform, validatorWebsocket]
      rcases h with h | h | h | h
      · simp [h]
      · simp [h]
      · simp [h]
      · cases hs : scheme (TrimSpace config.TermopadInfo.URL) with
        | none => simp
        | some s =>
          have : s ≠ "ws" := by
            intro e; rw [hs, e] at h; exact h rfl
          simp [this]
    simp only [NewWebsocket, hv]
    rfl
  · rintro ⟨h1, h2, h3, h4⟩
    have hv : (config.TermopadInfo.conform).valid scheme = true := by
      simp [TermopadInfo.valid, TermopadInfo.conform, validatorWebsocket, h1, h2, h3, h4]
    simp only [NewWebsocket, hv, Bool.not_true, Bool.false_eq_true, if_false]
    refine ⟨_, rfl, ?_⟩
    split <;> split <;> rfl

/-- Instance of C26 at the three cases of `TestNewWebsocket`: the description
with id 1, name `T1` and the address `ws://192.168.10.10:8000/feed` is taken,
the one with id 0 and the one with the address `http://192.168.10.10:8000/feed`
are refused. -/
theorem C26_descriptor_validation_witness :
    (∃ w, NewWebsocket exampleScheme (some (kioskConfig 1 "ws://192.168.10.10:8000/feed" "T1"))
        = .ok w ∧
      w.termopadInfo = (kioskConfig 1 "ws://192.168.10.10:8000/feed" "T1").TermopadInfo.conform) ∧
    NewWebsocket exampleScheme (some (kioskConfig 0 "ws://192.168.10.10:8000/feed" "T1"))
      = .error (Annotate validationError "некорректное описание термопада") ∧
    NewWebsocket exampleScheme (some (kioskConfig 1 "http://192.168.10.10:8000/feed" "T1"))
      = .error (Annotate validationError "некорректное описание термопада") :=
  ⟨(C26_descriptor_validation exampleScheme
      (kioskConfig 1 "ws://192.168.10.10:8000/feed" "T1")).2.2 (by decide),
    (C26_descriptor_validation exampleScheme
      (kioskConfig 0 "ws://192.168.10.10:8000/feed" "T1")).2.1 (Or.inl rfl),
    (C26_descriptor_validation exampleScheme
      (kioskConfig 1 "http://192.168.10.10:8000/feed" "T1")).2.1
      (Or.inr (Or.inr (Or.inr (by decide))))⟩

/-- The sweep returns the store it was given. -/
theorem Clean_store (db : Db) (now : Int) (findFault openFault : Option GoError)
    (readdir : Except GoError (List String)) (midnight : Int → Int → Int → Int) (days : Int) :
    (db.Clean now findFault openFault readdir midnight days).1 = db := by
  simp only [Db.Clean]
  repeat' split
  all_goals rfl

/-- C22 (the code at the failing input): the log holds one measurement
created 40 days before now; `Clean(30)` returns nil and the measurement is
still in the log. Whatever the store, the instant and the answers of the
engine and of the file system, `Clean` returns the store unchanged. -/
theorem C22_sweep_deletes_nothing :
    ((logDb (20 * day)).Clean (60 * day) none none (.ok ["2020.10.18"]) exampleMidnight 30).2
      = none ∧
    (((logDb (20 * day)).Clean (60 * day) none none (.ok ["2020.10.18"]) exampleMidnight
        30).1.temperatureLog.map (fun r => (r.ID, r.CreatedAt))) = [(1, 20 * day)] ∧
    ∀ (db : Db) (now : Int) (findFault openFault : Option GoError)
      (readdir : Except GoError (List String)) (midnight : Int → Int → Int → Int) (days : Int),
      (db.Clean now findFault openFault readdir midnight days).1 = db := by
  refine ⟨by decide, by decide, Clean_store⟩

/-- C28 (the code at the failing input): both queries, asked for the period
of one second, take `now - 10^18` nanoseconds (more than 31 years before now)
as the limit and return a measurement created one hour before now. -/
theorem C28_period_multiplied_by_second :
    logTimeLimit (60 * day) second = 60 * day - 1000000000 * second ∧
    ((logDb (60 * day - hour)).TemperatureLogByPerson (60 * day) none (fun _ => none) 65538
        second).toOption.map (fun l => l.map (fun r => r.ID)) = some [1] ∧
    ((logDb (60 * day - hour)).TemperatureLogByTermopad (60 * day) none (fun _ => none) 3
        second).toOption.map (fun l => l.map (fun r => r.ID)) = some [1] := by
  refine ⟨by decide, by decide, by decide⟩

/-- C27: for every list of metrics whose temperatures are numbers,
`compactTemperature` returns entries with pairwise different dates, one for
each calendar day of the input and for no other day; the date of an entry is
the midnight of its day, its largest temperature and its smallest temperature
are temperatures of elements of that day, every temperature of that day lies
between them, and the smallest is not above the largest. -/
theorem C27_daily_compaction (l : List TemperatureMetric)
    (hnum : ∀ v ∈ l, v.Temperature ≠ F64.nan) :
    ((compactTemperature l).map (fun e => e.Date)).Nodup ∧
    (∀ d, d ∈ (compactTemperature l).map (fun e => e.Date) ↔
      ∃ v ∈ l, RoundToDate v.Date = d) ∧
    ∀ e ∈ compactTemperature l,
      (e.Date.hour = 0 ∧ e.Date.minute = 0 ∧ e.Date.second = 0) ∧
      (∃ v ∈ l, RoundToDate v.Date = e.Date ∧ v.Temperature = e.TemperatureMax) ∧
      (∃ v ∈ l, RoundToDate v.Date = e.Date ∧ v.Temperature = e.TemperatureMin) ∧
      (∀ v ∈ l, RoundToDate v.Date = e.Date →
        F64.ge e.TemperatureMax v.Temperature = true ∧
        F64.ge v.Temperature e.TemperatureMin = true) ∧
      F64.ge e.TemperatureMax e.TemperatureMin = true := by
  obtain ⟨hnd, hkeys, hsum⟩ := compact_cache l hnum
  have hperm := compactTemperature_perm l
  have hdates : ((l.foldl compactStep []).map (fun e => compactClear e.2)).map (fun e => e.Date)
      = (l.foldl compactStep []).map Prod.fst := by
    rw [List.map_map]
    apply List.map_congr_left
    intro e he
    exact (hsum e he).1
  have hpd := hperm.map (fun e => e.Date)
  rw [hdates] at hpd
  refine ⟨hpd.nodup_iff.mpr hnd, ?_, ?_⟩
  · intro d
    rw [hpd.mem_iff]
    exact hkeys d
  · intro e he
    obtain ⟨e0, he0, rfl⟩ := List.mem_map.mp (hperm.mem_iff.mp he)
    obtain ⟨hd, hmax, hmin, hall⟩ := hsum e0 he0
    have hdate : (compactClear e0.2).Date = e0.1 := hd
    obtain ⟨a, ha, hak, hat⟩ := hmax
    rw [hdate]
    refine ⟨?_, ⟨a, ha, hak, hat⟩, hmin, hall, ?_⟩
    · rw [← hak]
      exact ⟨rfl, rfl, rfl⟩
    · have := (hall a ha hak).2
      rw [hat] at this
      exact this

/-- Instance of C27: three measurements, two on 27 November and one on 28
November 2020. -/
theorem C27_daily_compaction_witness :
    (compactTemperature
        [metricAt 27 9 (183 / 5), metricAt 28 10 37, metricAt 27 18 (73 / 2)]).map
          (fun e => (e.Date.day, e.Date.hour, e.TemperatureMax, e.TemperatureMin))
      = [(27, 0, F64.fin (183 / 5), F64.fin (73 / 2)), (28, 0, F64.fin 37, F64.fin 37)] ∧
    (∀ d, d ∈ (compactTemperature
        [metricAt 27 9 (183 / 5), metricAt 28 10 37, metricAt 27 18 (73 / 2)]).map
          (fun e => e.Date) ↔
      ∃ v ∈ [metricAt 27 9 (183 / 5), metricAt 28 10 37, metricAt 27 18 (73 / 2)],
        RoundToDate v.Date = d) ∧
    ((compactTemperature
        [metricAt 27 9 (183 / 5), metricAt 28 10 37, metricAt 27 18 (73 / 2)]).map
          (fun e => e.Date)).Nodup :=
  have h := C27_daily_compaction
    [metricAt 27 9 (183 / 5), metricAt 28 10 37, metricAt 27 18 (73 / 2)]
    (by intro v hv; simp only [List.mem_cons, List.mem_singleton, List.not_mem_nil, or_false] at hv
        rcases hv with rfl | rfl | rfl <;> simp [metricAt])
  ⟨by decide!, h.2.1, h.1⟩

end Termopad
